import Mathlib

/-!
# Verification of the fantasy basketball league engine

A shallow embedding of the league simulation / playoff bracket engine and the
fantasy scoring engine (`src/data_loader.py`, `src/category_scoring.py`,
`src/league.py`), with theorems settling the frozen claims about it.

Modelling conventions, used throughout:

* Python `float` values are modelled as `ℚ`.  All arithmetic the claims are
  about is addition, multiplication and division of finitely many values.
* Calendar dates are modelled as integers (`Day`): the number of days since an
  epoch that falls on a Monday, so `weekday d = d % 7`.  `date.isoformat` /
  `date.fromisoformat` round-trip exactly and ISO strings compare like dates,
  so a history record stores the `Day` itself.
* Python `dict`s preserve insertion order; they are modelled as association
  lists (`List (κ × β)`) with first-match lookup (`lookupKV`) and
  update-in-place-or-append (`upsertKV`), which is exactly the
  `d.setdefault(k, default)` / mutate pattern used by the source.
* Python's `sorted` / `list.sort` is a stable sort; it is modelled by
  `List.insertionSort`, which inserts earlier elements before later
  equal-keyed ones and therefore computes the same list as any stable sort.
* Functions that mutate `LeagueState` in place and may `raise` are modelled
  as `LeagueState → LeagueState × Except String α`: the returned state is the
  (possibly partially mutated) in-memory state, and an `Except.error` models a
  raised `ValueError`, so "raises without touching the state" is the statement
  that the returned state equals the input.
-/

/-- Equality of `Except` results is decidable, so concrete runs of the
embedded fallible functions can be checked by `decide`. -/
instance {ε α : Type} [DecidableEq ε] [DecidableEq α] : DecidableEq (Except ε α) := fun x y =>
  match x, y with
  | Except.ok a, Except.ok b =>
      if h : a = b then Decidable.isTrue (by rw [h]) else Decidable.isFalse (by simp [h])
  | Except.error a, Except.error b =>
      if h : a = b then Decidable.isTrue (by rw [h]) else Decidable.isFalse (by simp [h])
  | Except.ok _, Except.error _ => Decidable.isFalse (by simp)
  | Except.error _, Except.ok _ => Decidable.isFalse (by simp)

/-- Calendar date: days since an epoch Monday.  `date.weekday()` is `d % 7`. -/
abbrev Day := Int

/-- First-match association-list lookup, the model of Python `dict` access
(`d[k]` / `d.get(k)`). -/
def lookupKV {κ β : Type} [DecidableEq κ] (k : κ) : List (κ × β) → Option β
  | [] => none
  | (k₁, v) :: rest => if k₁ = k then some v else lookupKV k rest

/-- Update the value bound to `k` in place if `k` is present, else append
`(k, f d)`: the model of `record = d.setdefault(k, default); mutate(record)`. -/
def upsertKV {κ β : Type} [DecidableEq κ] (k : κ) (f : β → β) (d : β) :
    List (κ × β) → List (κ × β)
  | [] => [(k, f d)]
  | (k₁, v) :: rest =>
      if k₁ = k then (k₁, f v) :: rest else (k₁, v) :: upsertKV k f d rest

theorem lookupKV_upsertKV_self {κ β : Type} [DecidableEq κ] (k : κ) (f : β → β)
    (d : β) (l : List (κ × β)) :
    lookupKV k (upsertKV k f d l) = some (f ((lookupKV k l).getD d)) := by
  induction l with
  | nil => simp [lookupKV, upsertKV]
  | cons p rest ih =>
      by_cases h : p.1 = k
      · simp [lookupKV, upsertKV, h]
      · simpa [lookupKV, upsertKV, h] using ih

theorem lookupKV_upsertKV_ne {κ β : Type} [DecidableEq κ] {k k₁ : κ}
    (hne : k₁ ≠ k) (f : β → β) (d : β) (l : List (κ × β)) :
    lookupKV k (upsertKV k₁ f d l) = lookupKV k l := by
  induction l with
  | nil => simp [lookupKV, upsertKV, hne]
  | cons p rest ih =>
      by_cases h : p.1 = k₁
      · subst h
        simp [lookupKV, upsertKV, hne]
      · by_cases h₂ : p.1 = k
        · simp [lookupKV, upsertKV, h, h₂, Ne.symm hne]
        · simpa [lookupKV, upsertKV, h, h₂] using ih

theorem lookupKV_append {κ β : Type} [DecidableEq κ] (k : κ)
    (l₁ l₂ : List (κ × β)) :
    lookupKV k (l₁ ++ l₂) =
      match lookupKV k l₁ with
      | some v => some v
      | none => lookupKV k l₂ := by
  induction l₁ with
  | nil => simp [lookupKV]
  | cons p rest ih =>
      by_cases h : p.1 = k <;> simp [lookupKV, h, ih]

/-- Round half to even (Python's `round` at integer granularity). -/
def roundHalfEven (x : ℚ) : ℤ :=
  let f : ℤ := ⌊x⌋
  let r : ℚ := x - (f : ℚ)
  if r < 1/2 then f
  else if 1/2 < r then f + 1
  else if f % 2 = 0 then f else f + 1

/-- Python's `round(x, nd)`: round half to even at `nd` decimal digits. -/
def pyRound (nd : ℕ) (x : ℚ) : ℚ :=
  ((roundHalfEven (x * (10 : ℚ) ^ nd) : ℤ) : ℚ) / (10 : ℚ) ^ nd

/-! ## Scoring engine (`src/data_loader.py`)

A statistics table (`pandas.DataFrame`) is a list of column names together
with one association list of numeric cells per row (`rowVal` is column
access, 0 for an absent cell, which never matters for present columns). -/

structure Table where
  cols : List String
  rows : List (List (String × ℚ))
  deriving DecidableEq, Repr

/-- The numeric value of row `r` at column `k`. -/
def rowVal (r : List (String × ℚ)) (k : String) : ℚ :=
  (lookupKV k r).getD 0

/-- Column assignment `df[k] = v` for one row: replace in place or append. -/
def setVal (r : List (String × ℚ)) (k : String) (v : ℚ) : List (String × ℚ) :=
  upsertKV k (fun _ => v) v r

/-- The derived total column name. -/
def kFANTASY_POINTS : String := "FANTASY_POINTS"

def errMissingColumns : String :=
  "The cached stats are missing required columns for the scoring profile"

/-- `data_loader.compute_fantasy_points`: fails when a weighted statistic key
is absent from the table's columns, otherwise assigns the derived
`FANTASY_POINTS` column, the weighted sum of each row's statistics. -/
def compute_fantasy_points (df : Table) (scoring_weights : List (String × ℚ)) :
    Except String Table :=
  let missing := scoring_weights.filter (fun p => ¬ p.1 ∈ df.cols)
  if missing.isEmpty then
    Except.ok
      { cols :=
          if kFANTASY_POINTS ∈ df.cols then df.cols else df.cols ++ [kFANTASY_POINTS]
        rows := df.rows.map (fun r =>
          setVal r kFANTASY_POINTS
            ((scoring_weights.map (fun p => rowVal r p.1 * p.2)).sum)) }
  else
    Except.error errMissingColumns

theorem rowVal_setVal_self (r : List (String × ℚ)) (k : String) (v : ℚ) :
    rowVal (setVal r k v) k = v := by
  simp [rowVal, setVal, lookupKV_upsertKV_self]

theorem rowVal_setVal_ne (r : List (String × ℚ)) {k k₁ : String} (h : k₁ ≠ k)
    (v : ℚ) : rowVal (setVal r k₁ v) k = rowVal r k := by
  simp [rowVal, setVal, lookupKV_upsertKV_ne h]

/-- C2.  `compute_fantasy_points(R, P)` raises exactly when some statistic key
of `P` is absent from `R`'s columns; otherwise every output row carries the
derived `FANTASY_POINTS` value `Σ_k row[k]·P[k]`, and every other column of
every row is unchanged (the input table itself is untouched: the source works
on `df.copy()`, and the embedding is pure). -/
theorem c2_compute_fantasy_points_correct (df : Table)
    (scoring_weights : List (String × ℚ)) :
    ((∃ e, compute_fantasy_points df scoring_weights = Except.error e) ↔
        ∃ p ∈ scoring_weights, ¬ p.1 ∈ df.cols)
    ∧ ∀ t, compute_fantasy_points df scoring_weights = Except.ok t →
        t.rows.length = df.rows.length ∧
        ∀ i (h : i < df.rows.length) (h₂ : i < t.rows.length),
          rowVal (t.rows.get ⟨i, h₂⟩) kFANTASY_POINTS =
              ((scoring_weights.map
                (fun p => rowVal (df.rows.get ⟨i, h⟩) p.1 * p.2)).sum)
            ∧ ∀ k, k ≠ kFANTASY_POINTS →
                rowVal (t.rows.get ⟨i, h₂⟩) k = rowVal (df.rows.get ⟨i, h⟩) k := by
  constructor
  · unfold compute_fantasy_points
    by_cases hm :
        (scoring_weights.filter (fun p => ¬ p.1 ∈ df.cols)).isEmpty = true
    · simp only [hm, if_pos]
      constructor
      · rintro ⟨e, he⟩
        simp at he
      · rintro ⟨p, hp, hpc⟩
        rw [List.isEmpty_iff, List.filter_eq_nil_iff] at hm
        exact absurd (by simpa using hpc) (by simpa using hm p hp)
    · simp only [hm, if_neg]
      constructor
      · intro _
        rw [List.isEmpty_iff, List.filter_eq_nil_iff] at hm
        push_neg at hm
        obtain ⟨p, hp, hpc⟩ := hm
        exact ⟨p, hp, by simpa using hpc⟩
      · intro _
        exact ⟨errMissingColumns, by simp⟩
  · intro t ht
    unfold compute_fantasy_points at ht
    by_cases hm :
        (scoring_weights.filter (fun p => ¬ p.1 ∈ df.cols)).isEmpty = true
    · simp only [hm, if_pos, Except.ok.injEq] at ht
      subst ht
      refine ⟨by simp, ?_⟩
      intro i h h₂
      have hget : (df.rows.map (fun r =>
          setVal r kFANTASY_POINTS
            ((scoring_weights.map (fun p => rowVal r p.1 * p.2)).sum))).get ⟨i, h₂⟩ =
          setVal (df.rows.get ⟨i, h⟩) kFANTASY_POINTS
            ((scoring_weights.map
              (fun p => rowVal (df.rows.get ⟨i, h⟩) p.1 * p.2)).sum) := by
        simp [List.get_map]
      refine ⟨by rw [hget, rowVal_setVal_self], ?_⟩
      intro k hk
      rw [hget, rowVal_setVal_ne _ (Ne.symm hk)]
    · rw [if_neg hm] at ht
      cases ht

def kPTS : String := "PTS"
def kAST : String := "AST"
def kFGM : String := "FGM"
def kFGA : String := "FGA"
def kFG_PCT : String := "FG_PCT"

/-- Concrete table for the C2 witness: one row with PTS = 2, AST = 3. -/
def dfC2 : Table := ⟨[kPTS, kAST], [[(kPTS, 2), (kAST, 3)]]⟩

/-- Concrete weights for the C2 witness: PTS·2 + AST·1. -/
def weightsC2 : List (String × ℚ) := [(kPTS, 2), (kAST, 1)]

/-- Expected output table of `compute_fantasy_points dfC2 weightsC2`. -/
def outC2 : Table :=
  ⟨[kPTS, kAST, kFANTASY_POINTS], [[(kPTS, 2), (kAST, 3), (kFANTASY_POINTS, 7)]]⟩

theorem c2_compute_fantasy_points_witness :
    rowVal (outC2.rows.get ⟨0, by decide⟩) kFANTASY_POINTS =
      ((weightsC2.map
        (fun p => rowVal (dfC2.rows.get ⟨0, by decide⟩) p.1 * p.2)).sum) :=
  ((c2_compute_fantasy_points_correct dfC2 weightsC2).2 outC2 (by
    norm_num +decide [compute_fantasy_points, dfC2, weightsC2, outC2, setVal,
      upsertKV, rowVal, lookupKV, kPTS, kAST, kFANTASY_POINTS])).2
    0 (by decide) (by decide) |>.1

/-! ## Category scoring (`src/category_scoring.py`)

`CategoryDefinition` is imported by `category_scoring.py` from `config.py`, but
the copy of `config.py` in the repository snapshot does not contain it; the
structure and its `requires_ratio()` predicate are modelled from the spec
("Ratio categories ... are declared as a numerator/denominator pair", "ratio
(percentage) categories").  Only the Boolean branch taken by
`compute_category_totals` / `merge_category_totals` depends on it. -/

structure CategoryDefinition where
  kind : String
  label : String
  higher_is_better : Bool
  precision : ℕ
  stat : Option String
  numerator : Option String
  denominator : Option String
  deriving DecidableEq, Repr

def kPercentKind : String := "percent"

/-- Modelled from the spec: `CategoryDefinition.requires_ratio()` — missing
from the snapshot's `config.py` — holds exactly for ratio ("percentage")
categories, the ones declared through a numerator/denominator pair. -/
def CategoryDefinition.requiresRatio (d : CategoryDefinition) : Bool :=
  d.kind = kPercentKind

structure CategoryResult where
  value : ℚ
  label : String
  higher_is_better : Bool
  kind : String
  precision : ℕ
  numerator : Option ℚ := none
  denominator : Option ℚ := none
  deriving DecidableEq, Repr

/-- `category_scoring._safe_sum`: sum of a numeric column, 0 when the column
is absent (`df.get` returned `None`).  Cells are already numeric, so the
`to_numeric(...).fillna(0.0)` coercion is the identity here. -/
def _safe_sum (series : Option (List ℚ)) : ℚ :=
  match series with
  | none => 0
  | some l => l.sum

/-- `df.get(c)`: the column `c` of the table, if present. -/
def getColumn (df : Table) (c : String) : Option (List ℚ) :=
  if c ∈ df.cols then some (df.rows.map (fun r => rowVal r c)) else none

/-- The ratio-branch aggregation of `compute_category_totals` for one
definition: sum numerator and denominator columns separately. -/
def catNumerator (df : Table) (d : CategoryDefinition) : ℚ :=
  match d.numerator with
  | some c => _safe_sum (getColumn df c)
  | none => 0

def catDenominator (df : Table) (d : CategoryDefinition) : ℚ :=
  match d.denominator with
  | some c => _safe_sum (getColumn df c)
  | none => 0

/-- The non-ratio branch of `compute_category_totals` for one definition. -/
def catStatTotal (df : Table) (d : CategoryDefinition) : ℚ :=
  match d.stat with
  | some c => _safe_sum (getColumn df c)
  | none => 0

/-- The `CategoryResult` computed for one definition by
`compute_category_totals`. -/
def categoryResultOf (df : Table) (d : CategoryDefinition) : CategoryResult :=
  if CategoryDefinition.requiresRatio d then
    let numerator := catNumerator df d
    let denominator := catDenominator df d
    { value := if denominator ≠ 0 then numerator / denominator else 0,
      label := d.label, higher_is_better := d.higher_is_better,
      kind := d.kind, precision := d.precision,
      numerator := some numerator, denominator := some denominator }
  else
    { value := catStatTotal df d, label := d.label,
      higher_is_better := d.higher_is_better, kind := d.kind,
      precision := d.precision }

/-- `category_scoring.compute_category_totals`. -/
def compute_category_totals (df : Table)
    (categories : List (String × CategoryDefinition)) :
    List (String × CategoryResult) :=
  categories.map (fun p => (p.1, categoryResultOf df p.2))

/-- The `Dict[str, float]` payload produced by `CategoryResult.to_dict`
(numerator/denominator keys present only when set). -/
structure MergeRecord where
  value : ℚ
  label : String
  higher_is_better : Bool
  kind : String
  precision : ℕ
  numerator : Option ℚ := none
  denominator : Option ℚ := none
  deriving DecidableEq, Repr

def CategoryResult.to_dict (r : CategoryResult) : MergeRecord :=
  ⟨r.value, r.label, r.higher_is_better, r.kind, r.precision,
    r.numerator, r.denominator⟩

/-- The fresh record `merge_category_totals` installs via `setdefault`. -/
def defaultMergeRecord (d : CategoryDefinition) : MergeRecord :=
  { value := 0, label := d.label, higher_is_better := d.higher_is_better,
    kind := d.kind, precision := d.precision }

/-- One `merge_category_totals` update of an existing/installed record with an
incoming `CategoryResult` (the loop body of the source function; `x or 0.0`
on a possibly-absent float is `Option.getD 0`). -/
def mergeRecordStep (d : CategoryDefinition) (incoming : CategoryResult)
    (record : MergeRecord) : MergeRecord :=
  if CategoryDefinition.requiresRatio d then
    let numerator := record.numerator.getD 0 + incoming.numerator.getD 0
    let denominator := record.denominator.getD 0 + incoming.denominator.getD 0
    { record with
      numerator := some numerator
      denominator := some denominator
      value := if denominator ≠ 0 then numerator / denominator else 0 }
  else
    { record with value := record.value + incoming.value }

/-- `category_scoring.merge_category_totals`. -/
def merge_category_totals (base : List (String × MergeRecord))
    (addition : List (String × CategoryResult))
    (categories : List (String × CategoryDefinition)) :
    List (String × MergeRecord) :=
  categories.foldl (fun merged p =>
    match lookupKV p.1 addition with
    | none => merged
    | some incoming =>
        upsertKV p.1 (mergeRecordStep p.2 incoming) (defaultMergeRecord p.2)
          merged)
    base

theorem lookupKV_map_value {β γ : Type} (k : String)
    (f : β → γ) (l : List (String × β)) :
    lookupKV k (l.map (fun p => (p.1, f p.2))) = (lookupKV k l).map f := by
  induction l with
  | nil => simp [lookupKV]
  | cons p rest ih =>
      by_cases h : p.1 = k <;> simp [lookupKV, h, ih]

theorem lookupKV_compute_category_totals (df : Table) (k : String)
    (categories : List (String × CategoryDefinition)) :
    lookupKV k (compute_category_totals df categories) =
      (lookupKV k categories).map (categoryResultOf df) := by
  simpa [compute_category_totals] using
    lookupKV_map_value k (categoryResultOf df) categories

theorem lookupKV_merge_of_not_mem {β γ : Type}
    (step : List (String × β) → (String × γ) → List (String × β)) (k : String)
    (hstep : ∀ m p, p.1 ≠ k → lookupKV k (step m p) = lookupKV k m)
    (l : List (String × γ)) (hk : ¬ k ∈ l.map Prod.fst) :
    ∀ base, lookupKV k (l.foldl step base) = lookupKV k base := by
  induction l with
  | nil => intro base; rfl
  | cons p rest ih =>
      intro base
      have hp : p.1 ≠ k := by
        intro h
        exact hk (by simp [h])
      have hrest : ¬ k ∈ rest.map Prod.fst := by
        intro h
        exact hk (by simp [h])
      rw [List.foldl_cons, ih hrest, hstep base p hp]

/-- The value `merge_category_totals` leaves at a key `k` of `categories`
(dict keys are unique, hence the `Nodup` hypothesis). -/
theorem lookupKV_merge_category_totals
    (addition : List (String × CategoryResult)) (k : String)
    (d : CategoryDefinition) :
    ∀ (categories : List (String × CategoryDefinition))
      (base : List (String × MergeRecord)),
      (categories.map Prod.fst).Nodup → lookupKV k categories = some d →
      lookupKV k (merge_category_totals base addition categories) =
        match lookupKV k addition with
        | none => lookupKV k base
        | some incoming =>
            some (mergeRecordStep d incoming
              ((lookupKV k base).getD (defaultMergeRecord d))) := by
  have hstep : ∀ (m : List (String × MergeRecord))
      (p : String × CategoryDefinition), p.1 ≠ k →
      lookupKV k (match lookupKV p.1 addition with
        | none => m
        | some incoming =>
            upsertKV p.1 (mergeRecordStep p.2 incoming)
              (defaultMergeRecord p.2) m) = lookupKV k m := by
    intro m p hp
    cases lookupKV p.1 addition with
    | none => rfl
    | some incoming => exact lookupKV_upsertKV_ne hp _ _ m
  intro categories
  induction categories with
  | nil => intro base _ hk; simp [lookupKV] at hk
  | cons p rest ih =>
      intro base hnd hk
      rw [List.map_cons, List.nodup_cons] at hnd
      by_cases h : p.1 = k
      · rw [lookupKV, if_pos h] at hk
        obtain rfl : p.2 = d := by simpa using hk
        subst h
        rw [merge_category_totals, List.foldl_cons]
        rw [lookupKV_merge_of_not_mem _ p.1 hstep rest hnd.1]
        cases haddt : lookupKV p.1 addition with
        | none => simp [haddt]
        | some incoming => simp [haddt, lookupKV_upsertKV_self]
      · rw [lookupKV, if_neg h] at hk
        rw [merge_category_totals, List.foldl_cons]
        have hmain := ih
          (match lookupKV p.1 addition with
            | none => base
            | some incoming =>
                upsertKV p.1 (mergeRecordStep p.2 incoming)
                  (defaultMergeRecord p.2) base)
          hnd.2 hk
        rw [merge_category_totals] at hmain
        rw [hmain, hstep base p h]

theorem safeSum_getColumn_append (A B : Table) (hcols : B.cols = A.cols)
    (c : String) :
    _safe_sum (getColumn ⟨A.cols, A.rows ++ B.rows⟩ c) =
      _safe_sum (getColumn A c) + _safe_sum (getColumn B c) := by
  unfold getColumn _safe_sum
  by_cases h : c ∈ A.cols
  · simp [h, hcols]
  · simp [h, hcols]

theorem catNumerator_append (A B : Table) (hcols : B.cols = A.cols)
    (d : CategoryDefinition) :
    catNumerator ⟨A.cols, A.rows ++ B.rows⟩ d =
      catNumerator A d + catNumerator B d := by
  unfold catNumerator
  cases d.numerator with
  | none => simp
  | some c => exact safeSum_getColumn_append A B hcols c

theorem catDenominator_append (A B : Table) (hcols : B.cols = A.cols)
    (d : CategoryDefinition) :
    catDenominator ⟨A.cols, A.rows ++ B.rows⟩ d =
      catDenominator A d + catDenominator B d := by
  unfold catDenominator
  cases d.denominator with
  | none => simp
  | some c => exact safeSum_getColumn_append A B hcols c

/-- C3.  For a ratio (percentage) category `k ↦ d`, merging the separately
computed category results of two row-sets `A` and `B` with
`merge_category_totals` (summing numerators and denominators independently)
produces at `k` exactly the record `compute_category_totals` computes on the
concatenated row-set, field for field — in particular the same numerator,
denominator and value — and a zero aggregate denominator yields value 0 in
both computations rather than an error. -/
theorem c3_merge_category_totals_matches_union
    (categories : List (String × CategoryDefinition))
    (hnd : (categories.map Prod.fst).Nodup) (k : String)
    (d : CategoryDefinition) (hk : lookupKV k categories = some d)
    (hr : CategoryDefinition.requiresRatio d = true) (A B : Table)
    (hcols : B.cols = A.cols) :
    lookupKV k (merge_category_totals
        ((compute_category_totals A categories).map
          (fun p => (p.1, CategoryResult.to_dict p.2)))
        (compute_category_totals B categories) categories) =
      some (CategoryResult.to_dict
        (categoryResultOf ⟨A.cols, A.rows ++ B.rows⟩ d))
    ∧ lookupKV k (compute_category_totals ⟨A.cols, A.rows ++ B.rows⟩ categories)
        = some (categoryResultOf ⟨A.cols, A.rows ++ B.rows⟩ d)
    ∧ (categoryResultOf ⟨A.cols, A.rows ++ B.rows⟩ d).numerator =
        some (catNumerator A d + catNumerator B d)
    ∧ (categoryResultOf ⟨A.cols, A.rows ++ B.rows⟩ d).denominator =
        some (catDenominator A d + catDenominator B d)
    ∧ (catDenominator A d + catDenominator B d = 0 →
        (categoryResultOf ⟨A.cols, A.rows ++ B.rows⟩ d).value = 0) := by
  have hbase : lookupKV k ((compute_category_totals A categories).map
      (fun p => (p.1, CategoryResult.to_dict p.2))) =
      some (CategoryResult.to_dict (categoryResultOf A d)) := by
    rw [lookupKV_map_value, lookupKV_compute_category_totals, hk]
    rfl
  have haddt : lookupKV k (compute_category_totals B categories) =
      some (categoryResultOf B d) := by
    rw [lookupKV_compute_category_totals, hk]
    rfl
  have hnum := catNumerator_append A B hcols d
  have hden := catDenominator_append A B hcols d
  have hmerge := lookupKV_merge_category_totals
    (compute_category_totals B categories) k d categories
    ((compute_category_totals A categories).map
      (fun p => (p.1, CategoryResult.to_dict p.2))) hnd hk
  rw [haddt, hbase] at hmerge
  refine ⟨?_, ?_, ?_, ?_, ?_⟩
  · rw [hmerge]
    simp only [Option.getD_some]
    unfold mergeRecordStep categoryResultOf CategoryResult.to_dict
    simp only [hr, if_true, Option.getD_some, hnum, hden]
  · rw [lookupKV_compute_category_totals, hk]
    rfl
  · unfold categoryResultOf
    rw [if_pos hr]
    simpa using hnum
  · unfold categoryResultOf
    rw [if_pos hr]
    simpa using hden
  · intro hzero
    unfold categoryResultOf
    rw [if_pos hr]
    simp only
    rw [hden, if_neg (by simpa using hzero)]

def sFGLabel : String := "Field Goal Percentage"

/-- Concrete ratio category for the C3 witness: FG% = FGM / FGA. -/
def defC3 : CategoryDefinition :=
  { kind := kPercentKind, label := sFGLabel, higher_is_better := true,
    precision := 3, stat := none, numerator := some kFGM,
    denominator := some kFGA }

def catsC3 : List (String × CategoryDefinition) := [(kFG_PCT, defC3)]

/-- Row-set A for the C3 witness: one player, 3-of-6 shooting. -/
def tblAC3 : Table := ⟨[kFGM, kFGA], [[(kFGM, 3), (kFGA, 6)]]⟩

/-- Row-set B for the C3 witness: one player, 2-of-4 shooting. -/
def tblBC3 : Table := ⟨[kFGM, kFGA], [[(kFGM, 2), (kFGA, 4)]]⟩

theorem c3_merge_category_totals_witness :
    lookupKV kFG_PCT (merge_category_totals
        ((compute_category_totals tblAC3 catsC3).map
          (fun p => (p.1, CategoryResult.to_dict p.2)))
        (compute_category_totals tblBC3 catsC3) catsC3) =
      some (CategoryResult.to_dict
        (categoryResultOf ⟨tblAC3.cols, tblAC3.rows ++ tblBC3.rows⟩ defC3))
    ∧ lookupKV kFG_PCT
        (compute_category_totals ⟨tblAC3.cols, tblAC3.rows ++ tblBC3.rows⟩
          catsC3)
        = some (categoryResultOf ⟨tblAC3.cols, tblAC3.rows ++ tblBC3.rows⟩
            defC3)
    ∧ (categoryResultOf ⟨tblAC3.cols, tblAC3.rows ++ tblBC3.rows⟩
        defC3).numerator =
        some (catNumerator tblAC3 defC3 + catNumerator tblBC3 defC3)
    ∧ (categoryResultOf ⟨tblAC3.cols, tblAC3.rows ++ tblBC3.rows⟩
        defC3).denominator =
        some (catDenominator tblAC3 defC3 + catDenominator tblBC3 defC3)
    ∧ (catDenominator tblAC3 defC3 + catDenominator tblBC3 defC3 = 0 →
        (categoryResultOf ⟨tblAC3.cols, tblAC3.rows ++ tblBC3.rows⟩
          defC3).value = 0) :=
  c3_merge_category_totals_matches_union catsC3 (by decide) kFG_PCT defC3
    (by decide) (by decide) tblAC3 tblBC3 (by decide)

/-! ## Round-robin scheduler (`league._round_robin_pairs`)

The circle method: fix the first team, rotate the rest; each round pairs slot
`i` with slot `n-1-i`, dropping any pairing that involves the `"BYE"` padding
name. -/

def sBYE : String := "BYE"

/-- One rotation step: `[teams[0], teams[-1], *teams[1:-1]]`. -/
def rotateOnce (teams : List String) : List String :=
  match teams with
  | [] => []
  | t0 :: rest => t0 :: (teams.getLast?.toList ++ rest.dropLast)

/-- The pairings of one round: slot `i` against slot `n-1-i`, skipping BYE. -/
def pairingsOf (teams : List String) : List (String × String) :=
  (List.range (teams.length / 2)).filterMap (fun i =>
    let home := teams.getD i ""
    let away := teams.getD (teams.length - 1 - i) ""
    if home ≠ sBYE ∧ away ≠ sBYE then some (home, away) else none)

/-- The `for _ in range(rounds)` loop of `_round_robin_pairs`: emit this
round's pairings, then rotate. -/
def rrRounds : ℕ → List String → List (List (String × String))
  | 0, _ => []
  | r + 1, teams => pairingsOf teams :: rrRounds r (rotateOnce teams)

/-- `league._round_robin_pairs`. -/
def _round_robin_pairs (team_names : List String) : List (List (String × String)) :=
  let teams := team_names
  if teams.isEmpty then []
  else
    let teams := if teams.length % 2 ≠ 0 then teams ++ [sBYE] else teams
    if teams.length ≤ 1 then []
    else rrRounds (teams.length - 1) teams

/-- A pairing equals `{a, b}` in either orientation. -/
def pairMatches (a b : String) (p : String × String) : Bool :=
  (p.1 = a ∧ p.2 = b) ∨ (p.1 = b ∧ p.2 = a)

/-- How often `a` and `b` are paired across a whole schedule. -/
def meetCount (schedule : List (List (String × String))) (a b : String) : ℕ :=
  (schedule.map (fun rnd => rnd.countP (pairMatches a b))).sum

theorem rrRounds_length (k : ℕ) :
    ∀ teams, (rrRounds k teams).length = k := by
  induction k with
  | zero => intro teams; rfl
  | succ k ih => intro teams; simp [rrRounds, ih]

theorem rrRounds_eq_map_iterate (k : ℕ) :
    ∀ teams, rrRounds k teams =
      (List.range k).map (fun r => pairingsOf (rotateOnce^[r] teams)) := by
  induction k with
  | zero => intro teams; rfl
  | succ k ih =>
      intro teams
      rw [List.range_succ_eq_map, List.map_cons]
      rw [rrRounds, ih (rotateOnce teams), List.map_map]
      refine congrArg₂ _ (by simp) ?_
      refine List.map_congr_left ?_
      intro r _
      simp [Function.iterate_succ_apply]

theorem rotate_pred_of_ne_nil (ring : List String) (h : ring ≠ []) :
    ring.rotate (ring.length - 1) = ring.getLast?.toList ++ ring.dropLast := by
  obtain ⟨xs, a, rfl⟩ : ∃ xs a, ring = xs ++ [a] := by
    rcases List.eq_nil_or_concat ring with h' | ⟨xs, a, h'⟩
    · exact absurd h' h
    · exact ⟨xs, a, by simpa using h'⟩
  rw [List.rotate_eq_drop_append_take (by simp)]
  simp [List.getLast?_concat, List.dropLast_concat]

theorem getLast?_cons_ne_nil (t : String) (ring : List String) (h : ring ≠ []) :
    (t :: ring).getLast? = ring.getLast? := by
  obtain ⟨xs, a, rfl⟩ : ∃ xs a, ring = xs ++ [a] := by
    rcases List.eq_nil_or_concat ring with h' | ⟨xs, a, h'⟩
    · exact absurd h' h
    · exact ⟨xs, a, by simpa using h'⟩
  rw [show t :: (xs ++ [a]) = (t :: xs) ++ [a] by simp]
  rw [List.getLast?_concat, List.getLast?_concat]

theorem rotateOnce_cons (t : String) (ring : List String) (h : ring ≠ []) :
    rotateOnce (t :: ring) = t :: ring.rotate (ring.length - 1) := by
  rw [rotateOnce, rotate_pred_of_ne_nil ring h, getLast?_cons_ne_nil t ring h]

theorem iterate_rotateOnce (t : String) (ring : List String) (h : ring ≠ [])
    (r : ℕ) :
    rotateOnce^[r] (t :: ring) = t :: ring.rotate ((ring.length - 1) * r) := by
  induction r with
  | zero => simp
  | succ r ih =>
      rw [Function.iterate_succ_apply', ih]
      have hrot : ring.rotate ((ring.length - 1) * r) ≠ [] :=
        List.ne_nil_of_length_pos (by
          rw [List.length_rotate]
          exact List.length_pos.mpr h)
      rw [rotateOnce_cons t _ hrot, List.length_rotate, List.rotate_rotate,
        Nat.mul_succ]

theorem getD_lt_mem (l : List String) (i : ℕ) (h : i < l.length) :
    l.getD i "" ∈ l := by
  rw [List.getD_eq_getElem l "" h]
  exact List.getElem_mem h

theorem filterMap_if_eq_map {α β : Type} (f : α → β) (c : α → Prop)
    [DecidablePred c] (l : List α) (h : ∀ x ∈ l, c x) :
    l.filterMap (fun x => if c x then some (f x) else none) = l.map f := by
  induction l with
  | nil => rfl
  | cons x rest ih =>
      rw [List.filterMap_cons, List.map_cons]
      rw [if_pos (h x (by simp))]
      rw [ih (fun y hy => h y (by simp [hy]))]

theorem pairingsOf_no_bye (L : List String) (h : ∀ x ∈ L, x ≠ sBYE) :
    pairingsOf L = (List.range (L.length / 2)).map
      (fun i => (L.getD i "", L.getD (L.length - 1 - i) "")) := by
  unfold pairingsOf
  refine filterMap_if_eq_map
    (fun i => (L.getD i "", L.getD (L.length - 1 - i) ""))
    (fun i => L.getD i "" ≠ sBYE ∧ L.getD (L.length - 1 - i) "" ≠ sBYE)
    (List.range (L.length / 2)) ?_
  intro i hi
  rw [List.mem_range] at hi
  have h1 : i < L.length := lt_of_lt_of_le hi (Nat.div_le_self _ _)
  have h2 : L.length - 1 - i < L.length := by omega
  exact ⟨h (L.getD i "") (getD_lt_mem L i h1),
    h (L.getD (L.length - 1 - i) "") (getD_lt_mem L _ h2)⟩

/-- The pair the circle method produces in round `r` at slot `i` for a fixed
head `t` and rotating `ring` (slot `i` against slot `n-1-i = ring.length - i`). -/
def rrPair (t : String) (ring : List String) (r i : ℕ) : String × String :=
  ((t :: ring.rotate ((ring.length - 1) * r)).getD i "",
   (t :: ring.rotate ((ring.length - 1) * r)).getD (ring.length - i) "")

/-- Cyclic access into the rotating part. -/
def ringIdx (ring : List String) (x : ℕ) : String :=
  ring.getD (x % ring.length) ""

theorem getD_cons_rotate (t : String) (ring : List String) (s j : ℕ)
    (h1 : 1 ≤ j) (h2 : j < ring.length + 1) :
    (t :: ring.rotate s).getD j "" = ring.getD ((j - 1 + s) % ring.length) "" := by
  obtain ⟨j', rfl⟩ : ∃ j', j = j' + 1 := ⟨j - 1, by omega⟩
  rw [List.getD_cons_succ]
  have hm : 0 < ring.length := by omega
  have hj' : j' < (ring.rotate s).length := by
    rw [List.length_rotate]; omega
  have hmod : (j' + s) % ring.length < ring.length := Nat.mod_lt _ hm
  rw [List.getD_eq_getElem _ "" hj', List.getElem_rotate,
    ← List.getD_eq_getElem _ "" hmod]
  simp

theorem rrPair_fst_zero (t : String) (ring : List String) (r : ℕ) :
    (rrPair t ring r 0).1 = t := rfl

theorem rrPair_fst (t : String) (ring : List String) (r i : ℕ)
    (h1 : 1 ≤ i) (h2 : i < ring.length + 1) :
    (rrPair t ring r i).1 = ringIdx ring (i - 1 + (ring.length - 1) * r) := by
  unfold rrPair ringIdx
  exact getD_cons_rotate t ring _ i h1 h2

theorem rrPair_snd (t : String) (ring : List String) (r i : ℕ)
    (h2 : i < ring.length) :
    (rrPair t ring r i).2 =
      ringIdx ring (ring.length - i - 1 + (ring.length - 1) * r) := by
  unfold rrPair ringIdx
  rw [getD_cons_rotate t ring _ (ring.length - i) (by omega) (by omega)]

theorem ringIdx_mem (ring : List String) (h : ring ≠ []) (x : ℕ) :
    ringIdx ring x ∈ ring := by
  unfold ringIdx
  have hm : 0 < ring.length := List.length_pos.mpr h
  exact getD_lt_mem ring _ (Nat.mod_lt _ hm)

theorem mod_eq_iff_castZMod (m : ℕ) (x y : ℕ) (hy : y < m) :
    x % m = y ↔ (x : ZMod m) = (y : ZMod m) := by
  rw [ZMod.natCast_eq_natCast_iff]
  unfold Nat.ModEq
  rw [Nat.mod_eq_of_lt hy]

theorem castZMod_inj_of_lt (m : ℕ) (x y : ℕ) (hx : x < m) (hy : y < m) :
    (x : ZMod m) = (y : ZMod m) ↔ x = y := by
  rw [← mod_eq_iff_castZMod m x y hy, Nat.mod_eq_of_lt hx]

theorem ringIdx_eq_getElem_iff (ring : List String) (hnd : ring.Nodup)
    (x β : ℕ) (hβ : β < ring.length) :
    ringIdx ring x = ring[β] ↔ (x : ZMod ring.length) = (β : ZMod ring.length) := by
  have hm : 0 < ring.length := by omega
  have hmod : x % ring.length < ring.length := Nat.mod_lt _ hm
  unfold ringIdx
  rw [List.getD_eq_getElem _ "" hmod, hnd.getElem_inj_iff,
    mod_eq_iff_castZMod ring.length x β hβ]

theorem two_mul_cancel_zmod (m : ℕ) (hodd : m % 2 = 1)
    (x y : ZMod m) (h : 2 * x = 2 * y) : x = y := by
  haveI : NeZero m := ⟨by omega⟩
  have hu : IsUnit (2 : ZMod m) := by
    have hc : ((2 : ℕ) : ZMod m) = (2 : ZMod m) := by push_cast; ring
    rw [← hc, ZMod.isUnit_iff_coprime, Nat.coprime_two_left]
    exact Nat.odd_iff.mpr hodd
  exact hu.mul_left_cancel h

theorem cast_pred_zmod (m : ℕ) (hm : 1 ≤ m) :
    ((m - 1 : ℕ) : ZMod m) = -1 := by
  rw [Nat.cast_sub hm]
  simp [ZMod.natCast_self]

theorem countP_range_eq_one (K : ℕ) (q : ℕ → Bool) (i₀ : ℕ) (hi₀ : i₀ < K)
    (hq : q i₀ = true) (huniq : ∀ j, j < K → q j = true → j = i₀) :
    (List.range K).countP q = 1 := by
  have hcongr : (List.range K).countP q =
      (List.range K).countP (fun j => j == i₀) := by
    refine List.countP_congr ?_
    intro j hj
    rw [List.mem_range] at hj
    constructor
    · intro h
      simpa using huniq j hj h
    · intro h
      obtain rfl : j = i₀ := by simpa using h
      exact hq
  rw [hcongr, ← List.count_eq_countP]
  exact List.count_eq_one_of_mem (List.nodup_range K) (List.mem_range.mpr hi₀)

theorem sum_map_range_indicator (m r₀ : ℕ) (h : r₀ < m) (f : ℕ → ℕ)
    (hf : ∀ r, r < m → f r = if r = r₀ then 1 else 0) :
    ((List.range m).map f).sum = 1 := by
  induction m with
  | zero => omega
  | succ m ih =>
      rw [List.range_succ, List.map_append, List.sum_append]
      by_cases hcase : r₀ = m
      · subst hcase
        have hzero : ((List.range r₀).map f).sum = 0 := by
          refine List.sum_eq_zero ?_
          intro x hx
          rw [List.mem_map] at hx
          obtain ⟨r, hr, rfl⟩ := hx
          rw [List.mem_range] at hr
          rw [hf r (by omega), if_neg (by omega)]
        simp [hzero, hf r₀ (by omega)]
      · have hr₀ : r₀ < m := by omega
        rw [ih hr₀ (fun r hr => hf r (by omega))]
        simp [hf m (by omega), hcase, Ne.symm hcase]

theorem pairMatches_iff (a b : String) (p : String × String) :
    pairMatches a b p = true ↔
      ((p.1 = a ∧ p.2 = b) ∨ (p.1 = b ∧ p.2 = a)) := by
  simp [pairMatches]

theorem pairMatches_comm (a b : String) (p : String × String) :
    pairMatches a b p = pairMatches b a p := by
  simp only [pairMatches]
  congr 1
  rw [or_comm]

theorem cast_slot_fst (m i r : ℕ) (hm : 1 ≤ m) (h1 : 1 ≤ i) :
    ((i - 1 + (m - 1) * r : ℕ) : ZMod m) = (i : ZMod m) - 1 - r := by
  rw [Nat.cast_add, Nat.cast_mul, Nat.cast_sub h1, cast_pred_zmod m hm]
  push_cast
  ring

theorem cast_slot_snd (m i r : ℕ) (hm : 1 ≤ m) (hi : i ≤ m - 1) :
    ((m - i - 1 + (m - 1) * r : ℕ) : ZMod m) = -(i : ZMod m) - 1 - r := by
  have hrw : (m - i - 1 : ℕ) = m - (i + 1) := by omega
  rw [Nat.cast_add, Nat.cast_mul, hrw, Nat.cast_sub (by omega),
    cast_pred_zmod m hm]
  push_cast
  simp only [ZMod.natCast_self]
  ring

/-- In round `r` the fixed head `t` meets `ring[β]` exactly at slot 0 of
round `m - 1 - β`. -/
theorem match_head_iff (t : String) (ring : List String) (hndr : ring.Nodup)
    (htr : ¬ t ∈ ring) (β : ℕ) (hβ : β < ring.length)
    (r i : ℕ) (hr : r < ring.length) (hi : i < (ring.length + 1) / 2) :
    pairMatches t (ring[β]) (rrPair t ring r i) = true ↔
      (i = 0 ∧ r = ring.length - 1 - β) := by
  have hm : 0 < ring.length := by omega
  rcases Nat.eq_zero_or_pos i with hi0 | hi1
  · subst hi0
    have hsnd := rrPair_snd t ring r 0 hm
    rw [pairMatches_iff, rrPair_fst_zero, hsnd]
    have hsm : ringIdx ring (ring.length - 0 - 1 + (ring.length - 1) * r) ∈
        ring := ringIdx_mem ring (List.ne_nil_of_length_pos hm) _
    have htb : ¬ t = ring[β] := by
      intro h
      exact htr (h ▸ List.getElem_mem hβ)
    have hst : ¬ ringIdx ring (ring.length - 0 - 1 + (ring.length - 1) * r)
        = t := by
      intro h
      exact htr (h ▸ hsm)
    rw [ringIdx_eq_getElem_iff ring hndr _ β hβ]
    have hcast := cast_slot_snd ring.length 0 r (by omega) (by omega)
    rw [hcast, Nat.cast_zero]
    constructor
    · rintro (⟨-, h2⟩ | ⟨h1, -⟩)
      · refine ⟨rfl, ?_⟩
        have hother : (-(0 : ZMod ring.length) - 1 -
            ((ring.length - 1 - β : ℕ) : ZMod ring.length)) =
            (β : ZMod ring.length) := by
          rw [Nat.cast_sub (by omega : β ≤ ring.length - 1),
            cast_pred_zmod ring.length (by omega)]
          ring
        have hrr : (r : ZMod ring.length) =
            ((ring.length - 1 - β : ℕ) : ZMod ring.length) := by
          have heq := h2.trans hother.symm
          have : -(1 : ZMod ring.length) - r =
              -1 - ((ring.length - 1 - β : ℕ) : ZMod ring.length) := by
            linear_combination heq
          linear_combination -this
        rw [castZMod_inj_of_lt ring.length r _ hr (by omega)] at hrr
        exact hrr
      · exact absurd h1 htb
    · rintro ⟨-, rfl⟩
      refine Or.inl ⟨rfl, ?_⟩
      rw [Nat.cast_sub (by omega : β ≤ ring.length - 1),
        cast_pred_zmod ring.length (by omega)]
      ring
  · have hfst := rrPair_fst t ring r i hi1 (by omega)
    have hsnd := rrPair_snd t ring r i (by omega)
    rw [pairMatches_iff, hfst, hsnd]
    have hf : ringIdx ring (i - 1 + (ring.length - 1) * r) ∈ ring :=
      ringIdx_mem ring (List.ne_nil_of_length_pos hm) _
    have hs : ringIdx ring (ring.length - i - 1 + (ring.length - 1) * r) ∈
        ring := ringIdx_mem ring (List.ne_nil_of_length_pos hm) _
    constructor
    · rintro (⟨h1, -⟩ | ⟨-, h2⟩)
      · exact absurd (h1 ▸ hf) htr
      · exact absurd (h2 ▸ hs) htr
    · rintro ⟨h0, -⟩
      omega

/-- In rounds `r ≥ 0`, slot pairs `(i, n-1-i)` with `i ≥ 1` pair two ring
members whose original indices satisfy the circle-method congruences. -/
theorem match_ring_iff (t : String) (ring : List String) (hndr : ring.Nodup)
    (htr : ¬ t ∈ ring) (α β : ℕ) (hα : α < ring.length) (hβ : β < ring.length)
    (r i : ℕ) (hi : i < (ring.length + 1) / 2) :
    pairMatches (ring[α]) (ring[β]) (rrPair t ring r i) = true ↔
      (1 ≤ i ∧
        (((i : ZMod ring.length) - 1 - r = (α : ZMod ring.length) ∧
            -(i : ZMod ring.length) - 1 - r = (β : ZMod ring.length))
         ∨ ((i : ZMod ring.length) - 1 - r = (β : ZMod ring.length) ∧
            -(i : ZMod ring.length) - 1 - r = (α : ZMod ring.length)))) := by
  have hm : 0 < ring.length := by omega
  rcases Nat.eq_zero_or_pos i with hi0 | hi1
  · subst hi0
    rw [pairMatches_iff]
    have hta : ¬ t = ring[α] := by
      intro h
      exact htr (h ▸ List.getElem_mem hα)
    have htb : ¬ t = ring[β] := by
      intro h
      exact htr (h ▸ List.getElem_mem hβ)
    constructor
    · rintro (⟨h1, -⟩ | ⟨h1, -⟩)
      · exact absurd h1 hta
      · exact absurd h1 htb
    · rintro ⟨h0, -⟩
      omega
  · have hile : i ≤ ring.length - 1 := by omega
    rw [pairMatches_iff, rrPair_fst t ring r i hi1 (by omega),
      rrPair_snd t ring r i (by omega)]
    rw [ringIdx_eq_getElem_iff ring hndr _ α hα,
      ringIdx_eq_getElem_iff ring hndr _ β hβ,
      ringIdx_eq_getElem_iff ring hndr _ α hα,
      ringIdx_eq_getElem_iff ring hndr _ β hβ]
    rw [cast_slot_fst ring.length i r (by omega) hi1,
      cast_slot_snd ring.length i r (by omega) hile]
    constructor
    · intro h
      exact ⟨hi1, h⟩
    · intro h
      exact h.2

/-- Existence and uniqueness of the meeting of two ring members across the
whole circle-method schedule (`m` odd). -/
theorem ring_pair_unique (t : String) (ring : List String) (hndr : ring.Nodup)
    (htr : ¬ t ∈ ring) (hodd : ring.length % 2 = 1) (α β : ℕ)
    (hα : α < ring.length) (hβ : β < ring.length) (hne : α ≠ β) :
    ∃ r₀ i₀, r₀ < ring.length ∧ i₀ < (ring.length + 1) / 2 ∧
      pairMatches (ring[α]) (ring[β]) (rrPair t ring r₀ i₀) = true ∧
      ∀ r i, r < ring.length → i < (ring.length + 1) / 2 →
        pairMatches (ring[α]) (ring[β]) (rrPair t ring r i) = true →
        r = r₀ ∧ i = i₀ := by
  have hm : 0 < ring.length := by omega
  haveI : NeZero ring.length := ⟨by omega⟩
  set m := ring.length with hmdef
  set d : ℕ := (α + m - β) % m with hd
  have hdlt : d < m := Nat.mod_lt _ hm
  have hcastd : (d : ZMod m) = (α : ZMod m) - β := by
    rw [hd, ZMod.natCast_mod, Nat.cast_sub (by omega), Nat.cast_add,
      ZMod.natCast_self]
    ring
  have hdpos : 0 < d := by
    rcases Nat.eq_zero_or_pos d with h0 | h
    · exfalso
      rw [h0] at hcastd
      have : (α : ZMod m) = β := by linear_combination -hcastd
      rw [castZMod_inj_of_lt m α β hα hβ] at this
      exact hne this
    · exact h
  -- in either parity case we produce the unique round and slot
  rcases Nat.even_or_odd d with hpar | hpar
  · -- d even: slot i₀ = d / 2, `ring[α]` sits in the first component
    obtain ⟨c, hc⟩ := hpar
    set i₀ : ℕ := d / 2 with hi₀def
    have h2i : 2 * i₀ = d := by omega
    have hi₀1 : 1 ≤ i₀ := by omega
    have hi₀K : i₀ < (m + 1) / 2 := by omega
    set ρ : ZMod m := (i₀ : ZMod m) - 1 - α with hρ
    set r₀ : ℕ := ρ.val with hr₀def
    have hr₀m : r₀ < m := ZMod.val_lt ρ
    have hr₀cast : (r₀ : ZMod m) = ρ := ZMod.natCast_rightInverse ρ
    have h2cast : (i₀ : ZMod m) + i₀ = (α : ZMod m) - β := by
      have : ((2 * i₀ : ℕ) : ZMod m) = (d : ZMod m) := by rw [h2i]
      rw [Nat.cast_mul, hcastd] at this
      push_cast at this
      linear_combination this
    refine ⟨r₀, i₀, hr₀m, hi₀K, ?_, ?_⟩
    · rw [match_ring_iff t ring hndr htr α β hα hβ r₀ i₀ hi₀K]
      refine ⟨hi₀1, Or.inl ⟨?_, ?_⟩⟩
      · rw [hr₀cast, hρ]
        ring
      · rw [hr₀cast, hρ]
        linear_combination -h2cast
    · intro r i hr hi hmatch
      rw [match_ring_iff t ring hndr htr α β hα hβ r i hi] at hmatch
      obtain ⟨hi1, hcases⟩ := hmatch
      rcases hcases with ⟨e1, e2⟩ | ⟨e1, e2⟩
      · have hii : (i : ZMod m) + i = (α : ZMod m) - β := by
          linear_combination e1 - e2
        have : (2 : ZMod m) * i = 2 * i₀ := by
          linear_combination hii - h2cast
        have hiz : (i : ZMod m) = i₀ := two_mul_cancel_zmod m hodd _ _ this
        have hieq : i = i₀ := by
          rw [castZMod_inj_of_lt m i i₀ (by omega) (by omega)] at hiz
          exact hiz
        refine ⟨?_, hieq⟩
        have hρeq : (r : ZMod m) = ρ := by
          rw [hρ, ← hiz]
          linear_combination -e1
        have : (r : ZMod m) = (r₀ : ZMod m) := by rw [hρeq, hr₀cast]
        rw [castZMod_inj_of_lt m r r₀ (by omega) (by omega)] at this
        exact this
      · exfalso
        have hii : (i : ZMod m) + i = (β : ZMod m) - α := by
          linear_combination e1 - e2
        have hsum : (2 : ZMod m) * ((i : ZMod m) + i₀) = 2 * 0 := by
          linear_combination hii + h2cast
        have hzero : (i : ZMod m) + i₀ = 0 :=
          two_mul_cancel_zmod m hodd _ _ hsum
        have : ((i + i₀ : ℕ) : ZMod m) = ((0 : ℕ) : ZMod m) := by
          push_cast
          linear_combination hzero
        rw [castZMod_inj_of_lt m (i + i₀) 0 (by omega) (by omega)] at this
        omega
  · -- d odd: slot i₀ = (m - d) / 2, `ring[β]` sits in the first component
    obtain ⟨c, hc⟩ := hpar
    set i₀ : ℕ := (m - d) / 2 with hi₀def
    have h2i : 2 * i₀ = m - d := by omega
    have hi₀1 : 1 ≤ i₀ := by omega
    have hi₀K : i₀ < (m + 1) / 2 := by omega
    set ρ : ZMod m := (i₀ : ZMod m) - 1 - β with hρ
    set r₀ : ℕ := ρ.val with hr₀def
    have hr₀m : r₀ < m := ZMod.val_lt ρ
    have hr₀cast : (r₀ : ZMod m) = ρ := ZMod.natCast_rightInverse ρ
    have h2cast : (i₀ : ZMod m) + i₀ = (β : ZMod m) - α := by
      have : ((2 * i₀ : ℕ) : ZMod m) = ((m - d : ℕ) : ZMod m) := by rw [h2i]
      rw [Nat.cast_mul, Nat.cast_sub (by omega), ZMod.natCast_self,
        hcastd] at this
      push_cast at this
      linear_combination this
    refine ⟨r₀, i₀, hr₀m, hi₀K, ?_, ?_⟩
    · rw [match_ring_iff t ring hndr htr α β hα hβ r₀ i₀ hi₀K]
      refine ⟨hi₀1, Or.inr ⟨?_, ?_⟩⟩
      · rw [hr₀cast, hρ]
        ring
      · rw [hr₀cast, hρ]
        linear_combination -h2cast
    · intro r i hr hi hmatch
      rw [match_ring_iff t ring hndr htr α β hα hβ r i hi] at hmatch
      obtain ⟨hi1, hcases⟩ := hmatch
      rcases hcases with ⟨e1, e2⟩ | ⟨e1, e2⟩
      · exfalso
        have hii : (i : ZMod m) + i = (α : ZMod m) - β := by
          linear_combination e1 - e2
        have hsum : (2 : ZMod m) * ((i : ZMod m) + i₀) = 2 * 0 := by
          linear_combination hii + h2cast
        have hzero : (i : ZMod m) + i₀ = 0 :=
          two_mul_cancel_zmod m hodd _ _ hsum
        have : ((i + i₀ : ℕ) : ZMod m) = ((0 : ℕ) : ZMod m) := by
          push_cast
          linear_combination hzero
        rw [castZMod_inj_of_lt m (i + i₀) 0 (by omega) (by omega)] at this
        omega
      · have hii : (i : ZMod m) + i = (β : ZMod m) - α := by
          linear_combination e1 - e2
        have : (2 : ZMod m) * i = 2 * i₀ := by
          linear_combination hii - h2cast
        have hiz : (i : ZMod m) = i₀ := two_mul_cancel_zmod m hodd _ _ this
        have hieq : i = i₀ := by
          rw [castZMod_inj_of_lt m i i₀ (by omega) (by omega)] at hiz
          exact hiz
        refine ⟨?_, hieq⟩
        have hρeq : (r : ZMod m) = ρ := by
          rw [hρ, ← hiz]
          linear_combination -e1
        have : (r : ZMod m) = (r₀ : ZMod m) := by rw [hρeq, hr₀cast]
        rw [castZMod_inj_of_lt m r r₀ (by omega) (by omega)] at this
        exact this

theorem head_pair_unique (t : String) (ring : List String) (hndr : ring.Nodup)
    (htr : ¬ t ∈ ring) (β : ℕ) (hβ : β < ring.length) :
    ∃ r₀ i₀, r₀ < ring.length ∧ i₀ < (ring.length + 1) / 2 ∧
      pairMatches t (ring[β]) (rrPair t ring r₀ i₀) = true ∧
      ∀ r i, r < ring.length → i < (ring.length + 1) / 2 →
        pairMatches t (ring[β]) (rrPair t ring r i) = true →
        r = ring.length - 1 - β ∧ i = 0 := by
  have hm : 0 < ring.length := by omega
  refine ⟨ring.length - 1 - β, 0, by omega, by omega, ?_, ?_⟩
  · rw [match_head_iff t ring hndr htr β hβ _ _ (by omega) (by omega)]
    exact ⟨rfl, rfl⟩
  · intro r i hr hi hmatch
    rw [match_head_iff t ring hndr htr β hβ r i hr hi] at hmatch
    exact ⟨hmatch.2, hmatch.1⟩

/-- Any two distinct teams meet at exactly one (round, slot) position of the
circle-method schedule. -/
theorem meet_exists_unique (t : String) (ring : List String)
    (hnd : (t :: ring).Nodup) (hodd : ring.length % 2 = 1) (a b : String)
    (ha : a ∈ t :: ring) (hb : b ∈ t :: ring) (hab : a ≠ b) :
    ∃ r₀ i₀, r₀ < ring.length ∧ i₀ < (ring.length + 1) / 2 ∧
      pairMatches a b (rrPair t ring r₀ i₀) = true ∧
      ∀ r i, r < ring.length → i < (ring.length + 1) / 2 →
        pairMatches a b (rrPair t ring r i) = true → r = r₀ ∧ i = i₀ := by
  rw [List.nodup_cons] at hnd
  obtain ⟨htr, hndr⟩ := hnd
  rcases List.mem_cons.mp ha with rfl | haring
  · rcases List.mem_cons.mp hb with rfl | hbring
    · exact absurd rfl hab
    · obtain ⟨β, hβ, rfl⟩ := List.mem_iff_getElem.mp hbring
      obtain ⟨r₀, i₀, h1, h2, h3, h4⟩ := head_pair_unique a ring hndr htr β hβ
      exact ⟨ring.length - 1 - β, 0, by omega, by omega,
        by
          rw [match_head_iff a ring hndr htr β hβ _ _ (by omega) (by omega)]
          exact ⟨rfl, rfl⟩,
        fun r i hr hi hm => h4 r i hr hi hm⟩
  · rcases List.mem_cons.mp hb with rfl | hbring
    · obtain ⟨α, hα, rfl⟩ := List.mem_iff_getElem.mp haring
      obtain ⟨r₀, i₀, h1, h2, h3, h4⟩ := head_pair_unique b ring hndr htr α hα
      refine ⟨ring.length - 1 - α, 0, by omega, by omega, ?_, ?_⟩
      · rw [pairMatches_comm,
          match_head_iff b ring hndr htr α hα _ _ (by omega) (by omega)]
        exact ⟨rfl, rfl⟩
      · intro r i hr hi hmatch
        rw [pairMatches_comm] at hmatch
        exact h4 r i hr hi hmatch
    · obtain ⟨α, hα, rfl⟩ := List.mem_iff_getElem.mp haring
      obtain ⟨β, hβ, rfl⟩ := List.mem_iff_getElem.mp hbring
      have hne : α ≠ β := by
        intro h
        exact hab (by simp [h])
      exact ring_pair_unique t ring hndr htr hodd α β hα hβ hne

theorem _round_robin_pairs_even (t : String) (ring : List String)
    (hring : ring ≠ []) (heven : (t :: ring).length % 2 = 0) :
    _round_robin_pairs (t :: ring) =
      (List.range ring.length).map
        (fun r => pairingsOf (t :: ring.rotate ((ring.length - 1) * r))) := by
  have hm : 0 < ring.length := List.length_pos.mpr hring
  have h1 : (t :: ring).isEmpty = false := by simp
  have h2 : ¬ ((t :: ring).length % 2 ≠ 0) := by simpa using heven
  unfold _round_robin_pairs
  simp only [h1, Bool.false_eq_true, if_false, if_neg h2]
  rw [if_neg (show ¬ (t :: ring).length ≤ 1 by
    simp only [List.length_cons]
    omega)]
  rw [rrRounds_eq_map_iterate]
  simp only [List.length_cons, Nat.add_sub_cancel]
  refine List.map_congr_left ?_
  intro r _
  rw [iterate_rotateOnce t ring hring r]

theorem pairingsOf_round (t : String) (ring : List String) (hring : ring ≠ [])
    (hbye : ∀ x ∈ t :: ring, x ≠ sBYE) (r : ℕ) :
    pairingsOf (t :: ring.rotate ((ring.length - 1) * r)) =
      (List.range ((ring.length + 1) / 2)).map (fun i => rrPair t ring r i) := by
  have hlen : (t :: ring.rotate ((ring.length - 1) * r)).length =
      ring.length + 1 := by simp
  have hbye' : ∀ x ∈ t :: ring.rotate ((ring.length - 1) * r), x ≠ sBYE := by
    intro x hx
    refine hbye x ?_
    rcases List.mem_cons.mp hx with rfl | hxr
    · exact List.mem_cons_self _ _
    · exact List.mem_cons_of_mem _ ((List.rotate_perm ring _).mem_iff.mp hxr)
  rw [pairingsOf_no_bye _ hbye', hlen]
  refine List.map_congr_left ?_
  intro i _
  rfl

theorem meetCount_schedule_eq_one (t : String) (ring : List String)
    (hnd : (t :: ring).Nodup) (hring : ring ≠ []) (hodd : ring.length % 2 = 1)
    (heven : (t :: ring).length % 2 = 0) (hbye : ∀ x ∈ t :: ring, x ≠ sBYE)
    (a b : String) (ha : a ∈ t :: ring) (hb : b ∈ t :: ring) (hab : a ≠ b) :
    meetCount (_round_robin_pairs (t :: ring)) a b = 1 := by
  rw [_round_robin_pairs_even t ring hring heven]
  unfold meetCount
  rw [List.map_map]
  obtain ⟨r₀, i₀, hr₀, hi₀, hmatch, huniq⟩ :=
    meet_exists_unique t ring hnd hodd a b ha hb hab
  refine sum_map_range_indicator ring.length r₀ hr₀ _ ?_
  intro r hr
  simp only [Function.comp_apply]
  rw [pairingsOf_round t ring hring hbye r, List.countP_map]
  by_cases hcase : r = r₀
  · subst hcase
    rw [if_pos rfl]
    refine countP_range_eq_one _ _ i₀ hi₀ ?_ ?_
    · simpa using hmatch
    · intro j hj hq
      exact (huniq r j hr hj (by simpa using hq)).2
  · rw [if_neg hcase]
    refine List.countP_eq_zero.mpr ?_
    intro j hj
    rw [List.mem_range] at hj
    intro hq
    exact hcase (huniq r j hr hj (by simpa using hq)).1

theorem rrPair_ne_self (t : String) (ring : List String)
    (hnd : (t :: ring).Nodup) (hodd : ring.length % 2 = 1) (r i : ℕ)
    (hi : i < (ring.length + 1) / 2) :
    (rrPair t ring r i).1 ≠ (rrPair t ring r i).2 := by
  have hm : 0 < ring.length := by omega
  rw [List.nodup_cons] at hnd
  have hLnd : (t :: ring.rotate ((ring.length - 1) * r)).Nodup := by
    rw [List.nodup_cons]
    constructor
    · intro hmem
      exact hnd.1 ((List.rotate_perm ring _).mem_iff.mp hmem)
    · exact List.nodup_rotate.mpr hnd.2
  unfold rrPair
  have hL : (t :: ring.rotate ((ring.length - 1) * r)).length =
      ring.length + 1 := by simp
  have hib : i < ring.length + 1 := by omega
  have hsb : ring.length - i < ring.length + 1 := by omega
  rw [List.getD_eq_getElem _ "" (by omega : i <
      (t :: ring.rotate ((ring.length - 1) * r)).length),
    List.getD_eq_getElem _ "" (by omega : ring.length - i <
      (t :: ring.rotate ((ring.length - 1) * r)).length)]
  intro hcontra
  rw [hLnd.getElem_inj_iff] at hcontra
  omega

theorem rrRound_nodup (t : String) (ring : List String)
    (hnd : (t :: ring).Nodup) (hodd : ring.length % 2 = 1) (r : ℕ) :
    ((((List.range ((ring.length + 1) / 2)).map (fun i => rrPair t ring r i)).map
        Prod.fst) ++
      (((List.range ((ring.length + 1) / 2)).map (fun i => rrPair t ring r i)).map
        Prod.snd)).Nodup := by
  have hm : 0 < ring.length := by omega
  rw [List.nodup_cons] at hnd
  have hLnd : (t :: ring.rotate ((ring.length - 1) * r)).Nodup := by
    rw [List.nodup_cons]
    constructor
    · intro hmem
      exact hnd.1 ((List.rotate_perm ring _).mem_iff.mp hmem)
    · exact List.nodup_rotate.mpr hnd.2
  have hL : (t :: ring.rotate ((ring.length - 1) * r)).length =
      ring.length + 1 := by simp
  set K : ℕ := (ring.length + 1) / 2 with hK
  set L : List String := t :: ring.rotate ((ring.length - 1) * r) with hLdef
  have hfst : ((List.range K).map (fun i => rrPair t ring r i)).map Prod.fst =
      (List.range K).map (fun i => L.getD i "") := by
    rw [List.map_map]
    rfl
  have hsnd : ((List.range K).map (fun i => rrPair t ring r i)).map Prod.snd =
      ((List.range K).map (fun i => ring.length - i)).map
        (fun j => L.getD j "") := by
    rw [List.map_map, List.map_map]
    rfl
  rw [hfst, hsnd, ← List.map_append]
  have hidx : (List.range K ++ (List.range K).map
      (fun i => ring.length - i)).Nodup := by
    rw [List.nodup_append]
    refine ⟨List.nodup_range K, ?_, ?_⟩
    · refine List.Nodup.map_on ?_ (List.nodup_range K)
      intro x hx y hy hxy
      rw [List.mem_range] at hx hy
      omega
    · intro x hx hx2
      rw [List.mem_range] at hx
      rw [List.mem_map] at hx2
      obtain ⟨j, hj, rfl⟩ := hx2
      rw [List.mem_range] at hj
      omega
  refine List.Nodup.map_on ?_ hidx
  intro x hx y hy hxy
  have hxb : x < ring.length + 1 := by
    rcases List.mem_append.mp hx with h | h
    · rw [List.mem_range] at h; omega
    · rw [List.mem_map] at h
      obtain ⟨j, hj, rfl⟩ := h
      omega
  have hyb : y < ring.length + 1 := by
    rcases List.mem_append.mp hy with h | h
    · rw [List.mem_range] at h; omega
    · rw [List.mem_map] at h
      obtain ⟨j, hj, rfl⟩ := h
      omega
  rw [List.getD_eq_getElem L "" (by omega : x < L.length),
    List.getD_eq_getElem L "" (by omega : y < L.length),
    hLnd.getElem_inj_iff] at hxy
  exact hxy

/-- C9 (amended: the team names must avoid the literal padding placeholder
`"BYE"`).  For an even number `N ≥ 2` of distinct team names, none the string
`"BYE"`, `_round_robin_pairs` yields exactly `N - 1` rounds, never pairs a
team with itself, uses every team at most once per round (all pairing
components of a round are pairwise distinct), and pairs every two distinct
teams exactly once across the whole schedule. -/
theorem c9_round_robin_correct (teams : List String) (hnd : teams.Nodup)
    (hbye : ∀ x ∈ teams, x ≠ sBYE) (heven : teams.length % 2 = 0)
    (hlen : 2 ≤ teams.length) :
    (_round_robin_pairs teams).length = teams.length - 1
    ∧ (∀ rnd ∈ _round_robin_pairs teams, ∀ p ∈ rnd, p.1 ≠ p.2)
    ∧ (∀ rnd ∈ _round_robin_pairs teams,
        ((rnd.map Prod.fst) ++ (rnd.map Prod.snd)).Nodup)
    ∧ (∀ a ∈ teams, ∀ b ∈ teams, a ≠ b →
        meetCount (_round_robin_pairs teams) a b = 1) := by
  obtain ⟨t, ring, rfl⟩ : ∃ t ring, teams = t :: ring := by
    cases teams with
    | nil => simp at hlen
    | cons t ring => exact ⟨t, ring, rfl⟩
  have hring : ring ≠ [] := by
    intro h
    subst h
    simp at hlen
  have hm : 0 < ring.length := List.length_pos.mpr hring
  have hodd : ring.length % 2 = 1 := by
    rw [List.length_cons] at heven
    omega
  have hrounds := _round_robin_pairs_even t ring hring heven
  refine ⟨?_, ?_, ?_, ?_⟩
  · rw [hrounds]
    simp
  · intro rnd hrnd p hp
    rw [hrounds, List.mem_map] at hrnd
    obtain ⟨r, hr, rfl⟩ := hrnd
    rw [pairingsOf_round t ring hring hbye r, List.mem_map] at hp
    obtain ⟨i, hi, rfl⟩ := hp
    rw [List.mem_range] at hi
    exact rrPair_ne_self t ring hnd hodd r i hi
  · intro rnd hrnd
    rw [hrounds, List.mem_map] at hrnd
    obtain ⟨r, hr, rfl⟩ := hrnd
    rw [pairingsOf_round t ring hring hbye r]
    exact rrRound_nodup t ring hnd hodd r
  · intro a ha b hb hab
    exact meetCount_schedule_eq_one t ring hnd hring hodd heven hbye a b ha
      hb hab

def sAlpha : String := "Alpha"
def sB1 : String := "North"
def sB2 : String := "South"
def sB3 : String := "East"
def sB4 : String := "West"

/-- C9 counterexample to the claim as stated: the input `["Alpha", "BYE"]` is
a list of two distinct team names (even, `≥ 2`), yet the generator drops the
pairing because one team is literally named `"BYE"`: the two teams are never
paired at all. -/
theorem c9_counterexample :
    [sAlpha, sBYE].Nodup ∧ [sAlpha, sBYE].length % 2 = 0 ∧
      2 ≤ [sAlpha, sBYE].length ∧ sAlpha ≠ sBYE ∧
      _round_robin_pairs [sAlpha, sBYE] = [[]] ∧
      meetCount (_round_robin_pairs [sAlpha, sBYE]) sAlpha sBYE = 0 := by
  refine ⟨by decide, by decide, by decide, by decide, ?_, ?_⟩ <;>
    simp [meetCount, _round_robin_pairs, rrRounds, pairingsOf, rotateOnce,
      sAlpha, sBYE, List.range_succ]

theorem c9_round_robin_witness :
    (_round_robin_pairs [sB1, sB2, sB3, sB4]).length = 3
    ∧ (∀ rnd ∈ _round_robin_pairs [sB1, sB2, sB3, sB4], ∀ p ∈ rnd, p.1 ≠ p.2)
    ∧ (∀ rnd ∈ _round_robin_pairs [sB1, sB2, sB3, sB4],
        ((rnd.map Prod.fst) ++ (rnd.map Prod.snd)).Nodup)
    ∧ (∀ a ∈ [sB1, sB2, sB3, sB4], ∀ b ∈ [sB1, sB2, sB3, sB4], a ≠ b →
        meetCount (_round_robin_pairs [sB1, sB2, sB3, sB4]) a b = 1) :=
  c9_round_robin_correct [sB1, sB2, sB3, sB4] (by decide) (by decide)
    (by decide) (by decide)

/-! ## League state (`src/league.py`)

The persisted league JSON is typed: every dict key of `LeagueState.to_dict`
becomes a structure field (ISO date strings are `Day`s, floats are `ℚ`,
insertion-ordered dicts are association lists).  `to_dict`/`from_dict` is
then the normalisation pass `LeagueState.from_dict` below. -/

/-- `league.PlayoffConfig`. -/
structure PlayoffConfig where
  enabled : Bool := false
  teams : Option ℕ := none
  week_indices : List ℕ := []
  reseed : Bool := false
  consolation : Bool := false
  deriving DecidableEq, Repr

/-- `PlayoffConfig.is_enabled`: `bool(enabled and teams and week_indices)`
(a missing or zero team count and an empty week list are falsy). -/
def PlayoffConfig.is_enabled (c : PlayoffConfig) : Bool :=
  c.enabled && (match c.teams with | none => false | some t => t ≠ 0)
    && ¬ c.week_indices.isEmpty

def VALID_PLAYOFF_TEAM_COUNTS : List ℕ := [4, 6, 8]

def errUnsupportedCount : String := "Unsupported playoff team count"

/-- `league._required_playoff_rounds` (`{4: 2, 6: 3, 8: 3}`). -/
def _required_playoff_rounds (team_count : ℕ) : Except String ℕ :=
  if team_count = 4 then Except.ok 2
  else if team_count = 6 then Except.ok 3
  else if team_count = 8 then Except.ok 3
  else Except.error errUnsupportedCount

/-- One team inside a week's matchup descriptor. -/
structure MatchupTeam where
  name : String
  seed : Option ℕ := none
  deriving DecidableEq, Repr

/-- A matchup descriptor inside a week (`{"id", "teams", ...}`); playoff
binding adds `type`, `round` and `bracket_id` keys. -/
structure Matchup where
  id : String
  teams : List MatchupTeam
  mtype : Option String := none
  round : Option ℕ := none
  bracket_id : Option String := none
  deriving DecidableEq, Repr

/-- A week descriptor (`{"index", "name", "start", "end", "matchups", ...}`).
`endDay` models the `"end"` key (a Lean keyword). -/
structure Week where
  index : ℕ
  name : String
  start : Day
  endDay : Day
  matchups : List Matchup
  status : Option String := none
  playoff_round : Option ℕ := none
  deriving DecidableEq, Repr

/-- Per-player accumulator inside a weekly-result team entry. -/
structure PlayerRec where
  player_id : ℕ
  player_name : Option String := none
  team : Option String := none
  fantasy_points : ℚ := 0
  games_played : ℕ := 0
  deriving DecidableEq, Repr

/-- Per-team accumulator inside a weekly-result entry. -/
structure TeamEntry where
  team : String
  total : ℚ := 0
  players : List (ℕ × PlayerRec) := []
  daily_totals : List (Day × ℚ) := []
  deriving DecidableEq, Repr

/-- One weekly-results entry, keyed by matchup id. -/
structure WREntry where
  matchup_id : String
  week_index : ℕ
  teams : List (String × TeamEntry)
  days : List Day := []
  deriving DecidableEq, Repr

/-- One player's contribution in a day result (`simulate_day`). -/
structure PlayerContribution where
  player_id : ℕ
  player_name : Option String := none
  team : Option String := none
  fantasy_points : ℚ := 0
  played : Bool := false
  deriving DecidableEq, Repr

/-- `league.TeamResult`. -/
structure TeamResult where
  team : String
  total : ℚ
  players : List PlayerContribution := []
  deriving DecidableEq, Repr

/-- A row of the schedule table consumed by `schedule.daily_scoreboard`
(identity and scores are opaque for the claims; the date drives filtering). -/
structure ScheduleGame where
  game_id : ℕ
  date : Day
  deriving DecidableEq, Repr

/-- A scoreboard entry of a day record (`entry["simulated"] = True`). -/
structure ScoreboardEntry where
  game : ScheduleGame
  simulated : Bool
  deriving DecidableEq, Repr

/-- `schedule.daily_scoreboard`: the schedule rows of one date. -/
def daily_scoreboard (target_date : Day) (schedule_df : List ScheduleGame) :
    List ScheduleGame :=
  schedule_df.filter (fun g => g.date = target_date)

/-- One history record (`simulate_day`'s `day_record`). -/
structure DayRecord where
  date : Day
  scoring_profile : String
  week_index : Option ℕ
  team_results : List TeamResult
  nba_scoreboard : List ScoreboardEntry := []
  deriving DecidableEq, Repr

/-- `state.draft_state` (when not `None`). -/
structure DraftState where
  status : String
  roster_size : ℕ := 0
  user_team : Option String := none
  user_picks : List ℕ := []
  taken_ids : List ℕ := []
  ordered_ids : List ℕ := []
  deriving DecidableEq, Repr

/-- One standings row (`compute_head_to_head_standings` output; `rank` is
assigned after sorting). -/
structure StandingRow where
  team : String
  wins : ℕ
  losses : ℕ
  ties : ℕ
  games_played : ℕ
  win_pct : ℚ
  points_for : ℚ
  points_against : ℚ
  point_diff : ℚ
  rank : Option ℕ := none
  deriving DecidableEq, Repr

/-- A seed entry: a standings row plus its seed number. -/
structure SeedEntry where
  row : StandingRow
  seed : ℕ
  deriving DecidableEq, Repr

/-- A bracket matchup source (`{"type": "seed"/"winner", "value": ...}`). -/
inductive PlayoffSource where
  | seed (n : ℕ)
  | winner (matchId : String)
  | other
  deriving DecidableEq, Repr

structure MatchSources where
  home : PlayoffSource
  away : PlayoffSource
  deriving DecidableEq, Repr

/-- Winner/loser payload of a resolved bracket matchup. -/
structure WinnerInfo where
  team : Option String
  seed : Option ℕ
  total : ℚ
  deriving DecidableEq, Repr

/-- A bracket matchup in `state.playoffs["rounds"][k]["matchups"]`. -/
structure BracketMatch where
  id : String
  matchup_id : Option String := none
  sources : MatchSources
  home_seed : Option ℕ := none
  away_seed : Option ℕ := none
  home_team : Option String := none
  away_team : Option String := none
  status : String := "scheduled"
  result : Option WinnerInfo := none
  winner : Option WinnerInfo := none
  loser : Option WinnerInfo := none
  home_total : Option ℚ := none
  away_total : Option ℚ := none
  deriving DecidableEq, Repr

/-- A bracket round in `state.playoffs["rounds"]`. -/
structure PlayoffRound where
  index : ℕ
  name : String
  week_index : ℕ
  note : Option String := none
  status : String := "pending"
  matchups : List BracketMatch
  deriving DecidableEq, Repr

/-- A team reference in winners/losers/elimination-log entries. -/
structure TeamSeedRef where
  team : Option String
  seed : Option ℕ
  deriving DecidableEq, Repr

/-- One elimination-log record. -/
structure ElimRecord where
  round : ℕ
  losers : List TeamSeedRef
  deriving DecidableEq, Repr

structure ConsolationResult where
  week_index : ℕ
  losers : List TeamSeedRef
  deriving DecidableEq, Repr

structure Consolation where
  enabled : Bool
  teams : List StandingRow := []
  results : List ConsolationResult := []
  deriving DecidableEq, Repr

structure Placement where
  team : String
  placement : ℕ
  deriving DecidableEq, Repr

/-- `state.playoffs` (when not `None`). -/
structure PlayoffsState where
  started : Bool
  completed : Bool
  current_round : ℕ
  config : PlayoffConfig
  seeds : List (ℕ × SeedEntry)
  rounds : List PlayoffRound
  consolation : Consolation
  elimination_log : List ElimRecord := []
  placements : Option (List Placement) := none
  finalized_at : Option Day := none
  deriving DecidableEq, Repr

/-- `league.LeagueState`. -/
structure LeagueState where
  league_id : String
  league_name : String
  user_team_name : Option String
  team_count : ℕ
  roster_size : ℕ
  scoring_profile_key : String
  scoring_profile : String
  team_names : List String
  calendar : List Day
  current_index : ℕ
  rosters : List (String × List ℕ)
  weeks : List Week := []
  weekly_results : List (String × WREntry) := []
  history : List DayRecord := []
  awaiting_simulation : Bool := true
  created_at : String := ""
  draft_state : Option DraftState := none
  phase : String := "regular"
  playoffs_config : PlayoffConfig := {}
  playoffs : Option PlayoffsState := none
  deriving DecidableEq, Repr

/-- `LeagueState.current_date`. -/
def LeagueState.current_date (s : LeagueState) : Option Day :=
  if h : s.current_index < s.calendar.length then
    some (s.calendar.get ⟨s.current_index, h⟩)
  else none

/-- `league.draft_is_active`. -/
def draft_is_active (s : LeagueState) : Bool :=
  match s.draft_state with
  | none => false
  | some d => d.status ≠ "completed"

/-- `league._normalize_team_name`: `str(name or "").strip().lower()`,
spelt over the character list (strip surrounding whitespace, lowercase). -/
def _normalize_team_name (name : Option String) : String :=
  let s := (name.getD "").data
  let stripped :=
    ((s.dropWhile Char.isWhitespace).reverse.dropWhile Char.isWhitespace).reverse
  ⟨stripped.map Char.toLower⟩

/-- `league._week_monday`: `day - timedelta(days=day.weekday())`;
with the epoch on a Monday, `weekday day = day % 7`. -/
def _week_monday (day : Day) : Day :=
  day - day % 7

structure WeekRange where
  start : Day
  endDay : Day
  monday : Day
  deriving DecidableEq, Repr

/-- `league._compute_week_ranges`: week 1 runs from the first game date to
the Sunday of its week, later weeks are Monday-Sunday, continuing while the
Monday is not past the last game date. -/
def _compute_week_ranges (calendar : List Day) : List WeekRange :=
  match calendar with
  | [] => []
  | c :: cs =>
      let first_date := cs.foldl min c
      let last_date := cs.foldl max c
      let first_monday := _week_monday first_date
      let first_sunday := first_monday + 6
      let extra : ℕ := ((last_date - first_monday).toNat) / 7
      ⟨first_date, first_sunday, first_monday⟩ ::
        (List.range extra).map (fun i =>
          let wm := first_monday + 7 * ((i : ℤ) + 1)
          ⟨wm, wm + 6, wm⟩)

/-- `league._build_weekly_pairings`: repeat the round-robin cycle, flipping
home/away on every second repetition. -/
def _build_weekly_pairings (team_names : List String) (week_count : ℕ) :
    List (List (String × String)) :=
  let base_schedule := _round_robin_pairs team_names
  if base_schedule.isEmpty then
    (List.range week_count).map (fun _ => [])
  else
    (List.range week_count).map (fun week_index =>
      let base_length := base_schedule.length
      let base_pairing := base_schedule.getD (week_index % base_length) []
      if (week_index / base_length) % 2 = 1 then
        base_pairing.map (fun p => (p.2, p.1))
      else base_pairing)

def sWeekLit : String := "week"
def sMatchupLit : String := "-matchup"
def sWeekNameLit : String := "Week "

/-- Fresh per-team accumulator of a weekly-results entry. -/
def freshTeamEntry (name : String) : TeamEntry :=
  { team := name, total := 0, players := [], daily_totals := [] }

/-- `league._initialize_week_structures`. -/
def _initialize_week_structures (calendar : List Day)
    (team_names : List String) : List Week × List (String × WREntry) :=
  let week_ranges := _compute_week_ranges calendar
  let weekly_pairings := _build_weekly_pairings team_names week_ranges.length
  let indexed := (List.range week_ranges.length).zip
    (week_ranges.zip weekly_pairings)
  let weeks : List Week := indexed.map (fun q =>
    let index := q.1 + 1
    let wr := q.2.1
    let pairings := q.2.2
    { index := index
      name := sWeekNameLit ++ toString index
      start := wr.start
      endDay := wr.endDay
      matchups := ((List.range pairings.length).zip pairings).map (fun mq =>
        { id := sWeekLit ++ toString index ++ sMatchupLit ++ toString mq.1
          teams := [{ name := mq.2.1 }, { name := mq.2.2 }] }) })
  let weekly_results := indexed.foldr (fun q acc =>
    let index := q.1 + 1
    let pairings := q.2.2
    (((List.range pairings.length).zip pairings).map (fun mq =>
      let matchup_id := sWeekLit ++ toString index ++ sMatchupLit ++
        toString mq.1
      ((matchup_id,
        { matchup_id := matchup_id
          week_index := index
          teams := [(mq.2.1, freshTeamEntry mq.2.1),
                    (mq.2.2, freshTeamEntry mq.2.2)]
          days := [] }) : String × WREntry))) ++ acc) []
  (weeks, weekly_results)

/-- `league._find_week_for_date`. -/
def _find_week_for_date (weeks : List Week) (target_date : Day) :
    Option Week :=
  match weeks.find? (fun w =>
      decide (w.start ≤ target_date ∧ target_date ≤ w.endDay)) with
  | some w => some w
  | none =>
      match weeks.getLast? with
      | none => none
      | some last_week =>
          if last_week.endDay < target_date then some last_week else none

def errMissingTeams : String :=
  "Playoff configuration is missing the number of teams."
def errSupportedCounts : String := "Playoffs support 4, 6, 8 teams."
def errExceedsTeams : String :=
  "Playoff team count cannot exceed total teams in the league."
def errRequiredWeeks : String := "playoffs require as many weeks as rounds."
def errWeeksUnspecified : String :=
  "Playoff weeks must be specified when playoffs are enabled."
def errContiguous : String := "Playoff weeks must be contiguous."
def errBeyondCalendar : String :=
  "Playoff weeks extend beyond the season calendar."
def errWeekUnavailable : String :=
  "Week is not available in the season calendar."

/-- `league.validate_playoff_config` (error messages abbreviated: the
numbers interpolated by the source are dropped). -/
def validate_playoff_config (team_count : ℕ) (weeks : List Week)
    (raw_config : Option PlayoffConfig) : Except String PlayoffConfig :=
  match raw_config with
  | none => Except.ok {}
  | some config =>
      if ¬ config.enabled then Except.ok {}
      else
        match config.teams with
        | none => Except.error errMissingTeams
        | some t =>
            if ¬ t ∈ VALID_PLAYOFF_TEAM_COUNTS then
              Except.error errSupportedCounts
            else if team_count < t then Except.error errExceedsTeams
            else
              match _required_playoff_rounds t with
              | Except.error e => Except.error e
              | Except.ok rounds_required =>
                  if config.week_indices.length ≠ rounds_required then
                    Except.error errRequiredWeeks
                  else if config.week_indices.isEmpty then
                    Except.error errWeeksUnspecified
                  else
                    let sorted_weeks :=
                      List.insertionSort (fun a b => a ≤ b) config.week_indices
                    let first_week := sorted_weeks.headD 0
                    let expected_sequence :=
                      List.range' first_week sorted_weeks.length
                    if sorted_weeks ≠ expected_sequence then
                      Except.error errContiguous
                    else if weeks.length < sorted_weeks.getLastD 0 then
                      Except.error errBeyondCalendar
                    else if sorted_weeks.any
                        (fun w => ¬ w ∈ weeks.map (fun wk => wk.index)) then
                      Except.error errWeekUnavailable
                    else Except.ok { config with week_indices := sorted_weeks }

/-- The round count the spec prescribes per bracket size (4→2, 6/8→3). -/
def requiredRoundsFor (t : ℕ) : ℕ :=
  if t = 4 then 2 else 3

def sortedWeekIndices (c : PlayoffConfig) : List ℕ :=
  List.insertionSort (fun a b => a ≤ b) c.week_indices

theorem required_rounds_of_valid (t : ℕ) (h : t ∈ VALID_PLAYOFF_TEAM_COUNTS) :
    _required_playoff_rounds t = Except.ok (requiredRoundsFor t) := by
  have h3 : t = 4 ∨ t = 6 ∨ t = 8 := by simpa [VALID_PLAYOFF_TEAM_COUNTS] using h
  rcases h3 with rfl | rfl | rfl <;> rfl

theorem getLastD_mem_nat (l : List ℕ) (h : l ≠ []) : l.getLastD 0 ∈ l := by
  obtain ⟨xs, a, rfl⟩ : ∃ xs a, l = xs ++ [a] := by
    rcases List.eq_nil_or_concat l with h' | ⟨xs, a, h'⟩
    · exact absurd h' h
    · exact ⟨xs, a, by simpa using h'⟩
  rw [List.getLastD_concat]
  simp

theorem mem_canonical_weeks_iff (weeks : List Week)
    (hcanon : ∀ i (h : i < weeks.length), (weeks.get ⟨i, h⟩).index = i + 1)
    (w : ℕ) :
    w ∈ weeks.map (fun wk => wk.index) ↔ (1 ≤ w ∧ w ≤ weeks.length) := by
  rw [List.mem_map]
  constructor
  · rintro ⟨wk, hwk, rfl⟩
    obtain ⟨i, hi, rfl⟩ := List.mem_iff_getElem.mp hwk
    have := hcanon i hi
    rw [List.get_eq_getElem] at this
    rw [this]
    omega
  · rintro ⟨h1, h2⟩
    have hlt : w - 1 < weeks.length := by omega
    refine ⟨weeks.get ⟨w - 1, hlt⟩, List.get_mem weeks _ _, ?_⟩
    rw [hcanon (w - 1) hlt]
    omega

theorem requiredRoundsFor_pos (t : ℕ) : 2 ≤ requiredRoundsFor t := by
  unfold requiredRoundsFor
  split <;> omega

theorem sortedWeekIndices_perm (cfg : PlayoffConfig) :
    (sortedWeekIndices cfg).Perm cfg.week_indices :=
  List.perm_insertionSort (fun a b => a ≤ b) cfg.week_indices

/-- Evaluation of `validate_playoff_config` for an enabled configuration with
a supported team count that fits the league and the right number of weeks:
only the contiguity / calendar checks remain. -/
theorem validate_eval (team_count : ℕ) (weeks : List Week)
    (cfg : PlayoffConfig) (hen : cfg.enabled = true) (t : ℕ)
    (hteams : cfg.teams = some t) (hv : t ∈ VALID_PLAYOFF_TEAM_COUNTS)
    (hex : ¬ team_count < t)
    (hlen : cfg.week_indices.length = requiredRoundsFor t) :
    validate_playoff_config team_count weeks (some cfg) =
      (if sortedWeekIndices cfg ≠
          List.range' ((sortedWeekIndices cfg).headD 0)
            (sortedWeekIndices cfg).length then
        Except.error errContiguous
      else if weeks.length < (sortedWeekIndices cfg).getLastD 0 then
        Except.error errBeyondCalendar
      else if (sortedWeekIndices cfg).any
          (fun w => ¬ w ∈ weeks.map (fun wk => wk.index)) then
        Except.error errWeekUnavailable
      else Except.ok { cfg with week_indices := sortedWeekIndices cfg }) := by
  have hne : cfg.week_indices ≠ [] := by
    intro hnil
    have h2 := requiredRoundsFor_pos t
    rw [hnil] at hlen
    simp at hlen
    omega
  simp only [validate_playoff_config, hen, hteams, not_true, if_false,
    Bool.true_eq_false, required_rounds_of_valid t hv, sortedWeekIndices]
  rw [if_neg (not_not_intro hv)]
  rw [if_neg hex]
  rw [if_neg (not_not_intro hlen)]
  rw [if_neg (show ¬ (cfg.week_indices.isEmpty = true) by
    simp [List.isEmpty_iff, hne])]

/-- C6.  `validate_playoff_config` raises exactly when an enabled
configuration is invalid — the team count is missing or not one of {4, 6, 8},
exceeds the league's team count, the number of week indices differs from the
required round count (4→2, 6/8→3), the week indices do not form a contiguous
ascending run once sorted, or some index is outside the season's week list
(weeks are canonically indexed 1..n) — and for a valid enabled configuration
it returns the configuration with its week indices sorted ascending. -/
theorem c6_validate_playoff_config_correct (team_count : ℕ)
    (weeks : List Week) (cfg : PlayoffConfig)
    (hcanon : ∀ i (h : i < weeks.length), (weeks.get ⟨i, h⟩).index = i + 1) :
    ((∃ e, validate_playoff_config team_count weeks (some cfg) =
        Except.error e) ↔
      (cfg.enabled = true ∧
        (cfg.teams = none ∨
          ∃ t, cfg.teams = some t ∧
            (¬ t ∈ VALID_PLAYOFF_TEAM_COUNTS
             ∨ team_count < t
             ∨ cfg.week_indices.length ≠ requiredRoundsFor t
             ∨ sortedWeekIndices cfg ≠
                 List.range' ((sortedWeekIndices cfg).headD 0)
                   (sortedWeekIndices cfg).length
             ∨ ∃ w ∈ cfg.week_indices, ¬ (1 ≤ w ∧ w ≤ weeks.length)))))
    ∧ (∀ c', validate_playoff_config team_count weeks (some cfg) =
        Except.ok c' → cfg.enabled = true →
        c' = { cfg with week_indices := sortedWeekIndices cfg } ∧
        List.Sorted (fun a b => a ≤ b) c'.week_indices) := by
  by_cases hen : cfg.enabled = true
  case neg =>
      have hval : validate_playoff_config team_count weeks (some cfg) =
          Except.ok {} := by
        simp only [validate_playoff_config]
        rw [if_pos hen]
      rw [hval]
      refine ⟨⟨fun h => absurd h.choose_spec (by simp), fun h => ?_⟩, ?_⟩
      · exact absurd h.1 hen
      · intro c' hc' henT
        exact absurd henT hen
  case pos =>
      cases hteams : cfg.teams with
      | none =>
          have hval : validate_playoff_config team_count weeks (some cfg) =
              Except.error errMissingTeams := by
            simp only [validate_playoff_config, hteams]
            rw [if_neg (not_not_intro hen)]
          rw [hval]
          refine ⟨⟨fun _ => ⟨hen, Or.inl rfl⟩,
            fun _ => ⟨errMissingTeams, rfl⟩⟩, ?_⟩
          intro c' hc'
          cases hc'
      | some t =>
          by_cases hv : t ∈ VALID_PLAYOFF_TEAM_COUNTS
          · by_cases hex : team_count < t
            · have hval : validate_playoff_config team_count weeks
                  (some cfg) = Except.error errExceedsTeams := by
                simp only [validate_playoff_config, hteams]
                rw [if_neg (not_not_intro hen), if_neg (not_not_intro hv),
                  if_pos hex]
              rw [hval]
              refine ⟨⟨fun _ => ⟨hen, Or.inr ⟨t, rfl,
                Or.inr (Or.inl hex)⟩⟩,
                fun _ => ⟨errExceedsTeams, rfl⟩⟩, ?_⟩
              intro c' hc'
              cases hc'
            · by_cases hlen : cfg.week_indices.length = requiredRoundsFor t
              · rw [validate_eval team_count weeks cfg hen t hteams hv hex
                  hlen]
                by_cases hcont : sortedWeekIndices cfg =
                    List.range' ((sortedWeekIndices cfg).headD 0)
                      (sortedWeekIndices cfg).length
                · rw [if_neg (not_not_intro hcont)]
                  have hsortedne : sortedWeekIndices cfg ≠ [] := by
                    intro hnil
                    have hp := (sortedWeekIndices_perm cfg).length_eq
                    rw [hnil] at hp
                    have h2 := requiredRoundsFor_pos t
                    rw [hlen] at hp
                    simp at hp
                    omega
                  by_cases hbounds : ∃ w ∈ cfg.week_indices,
                      ¬ (1 ≤ w ∧ w ≤ weeks.length)
                  · constructor
                    · constructor
                      · intro _
                        exact ⟨hen, Or.inr ⟨t, rfl, Or.inr (Or.inr
                          (Or.inr (Or.inr hbounds)))⟩⟩
                      · intro _
                        by_cases hlast : weeks.length <
                            (sortedWeekIndices cfg).getLastD 0
                        · rw [if_pos hlast]
                          exact ⟨errBeyondCalendar, rfl⟩
                        · rw [if_neg hlast, if_pos ?_]
                          · exact ⟨errWeekUnavailable, rfl⟩
                          · obtain ⟨w, hw, hwb⟩ := hbounds
                            rw [List.any_eq_true]
                            refine ⟨w, (sortedWeekIndices_perm cfg).mem_iff.mpr
                              hw, ?_⟩
                            simp only [decide_eq_true_eq]
                            rw [mem_canonical_weeks_iff weeks hcanon w]
                            exact hwb
                    · intro c' hc'
                      exfalso
                      by_cases hlast : weeks.length <
                          (sortedWeekIndices cfg).getLastD 0
                      · rw [if_pos hlast] at hc'
                        cases hc'
                      · rw [if_neg hlast] at hc'
                        obtain ⟨w, hw, hwb⟩ := hbounds
                        have hanyT : (sortedWeekIndices cfg).any
                            (fun w => ¬ w ∈ weeks.map (fun wk => wk.index)) =
                            true := by
                          rw [List.any_eq_true]
                          refine ⟨w, (sortedWeekIndices_perm cfg).mem_iff.mpr
                            hw, ?_⟩
                          rw [decide_eq_true_eq]
                          intro hcmem
                          rw [mem_canonical_weeks_iff weeks hcanon w] at hcmem
                          exact hwb hcmem
                        rw [if_pos hanyT] at hc'
                        cases hc'
                  · have hall : ∀ w ∈ cfg.week_indices,
                        1 ≤ w ∧ w ≤ weeks.length := by
                      intro w hw
                      by_contra hcontra
                      exact hbounds ⟨w, hw, hcontra⟩
                    have hlast : ¬ weeks.length <
                        (sortedWeekIndices cfg).getLastD 0 := by
                      have hmem : (sortedWeekIndices cfg).getLastD 0 ∈
                          sortedWeekIndices cfg :=
                        getLastD_mem_nat _ hsortedne
                      have := hall _ ((sortedWeekIndices_perm cfg).subset hmem)
                      omega
                    have hany : ¬ ((sortedWeekIndices cfg).any
                        (fun w => ¬ w ∈ weeks.map (fun wk => wk.index)) =
                        true) := by
                      intro hcontra
                      rw [List.any_eq_true] at hcontra
                      obtain ⟨w, hw, hwbad⟩ := hcontra
                      rw [decide_eq_true_eq] at hwbad
                      rw [mem_canonical_weeks_iff weeks hcanon w] at hwbad
                      exact hwbad (hall w ((sortedWeekIndices_perm cfg).subset
                        hw))
                    rw [if_neg hlast, if_neg hany]
                    constructor
                    · constructor
                      · rintro ⟨e, he⟩
                        cases he
                      · rintro ⟨-, hcond⟩
                        exfalso
                        rcases hcond with hnone | ⟨t', ht', hbad⟩
                        · cases hnone
                        · obtain rfl : t = t' := by
                            injection ht' with h
                          rcases hbad with h | h | h | h | h
                          · exact h hv
                          · exact hex h
                          · exact h hlen
                          · exact h hcont
                          · exact hbounds h
                    · intro c' hc' _
                      constructor
                      · injection hc' with h
                        rw [hteams] at h
                        exact h.symm
                      · have hcw : c'.week_indices = sortedWeekIndices cfg := by
                          injection hc' with h
                          rw [← h]
                        rw [hcw]
                        exact List.sorted_insertionSort (fun a b => a ≤ b)
                          cfg.week_indices
                · rw [if_pos hcont]
                  refine ⟨⟨fun _ => ⟨hen, Or.inr ⟨t, rfl, Or.inr (Or.inr
                    (Or.inr (Or.inl hcont)))⟩⟩,
                    fun _ => ⟨errContiguous, rfl⟩⟩, ?_⟩
                  intro c' hc'
                  cases hc'
              · have hval : validate_playoff_config team_count weeks
                    (some cfg) = Except.error errRequiredWeeks := by
                  simp only [validate_playoff_config, hteams,
                    required_rounds_of_valid t hv]
                  rw [if_neg (not_not_intro hen), if_neg (not_not_intro hv),
                    if_neg hex, if_pos (by simpa using hlen)]
                rw [hval]
                refine ⟨⟨fun _ => ⟨hen, Or.inr ⟨t, rfl, Or.inr (Or.inr
                  (Or.inl hlen))⟩⟩,
                  fun _ => ⟨errRequiredWeeks, rfl⟩⟩, ?_⟩
                intro c' hc'
                cases hc'
          · have hval : validate_playoff_config team_count weeks (some cfg) =
                Except.error errSupportedCounts := by
              simp only [validate_playoff_config, hteams]
              rw [if_neg (not_not_intro hen), if_pos hv]
            rw [hval]
            refine ⟨⟨fun _ => ⟨hen, Or.inr ⟨t, rfl, Or.inl hv⟩⟩,
              fun _ => ⟨errSupportedCounts, rfl⟩⟩, ?_⟩
            intro c' hc'
            cases hc'

def sEmpty : String := ""

/-- Two canonical season weeks for the C6 witness. -/
def weeksC6 : List Week :=
  [{ index := 1, name := sEmpty, start := 0, endDay := 6, matchups := [] },
   { index := 2, name := sEmpty, start := 7, endDay := 13, matchups := [] }]

/-- An enabled 4-team playoff configuration with unsorted week indices. -/
def cfgC6 : PlayoffConfig :=
  { enabled := true, teams := some 4, week_indices := [2, 1] }

theorem c6_validate_playoff_config_witness :
    (¬ ∃ e, validate_playoff_config 4 weeksC6 (some cfgC6) = Except.error e)
    ∧ ∀ c', validate_playoff_config 4 weeksC6 (some cfgC6) = Except.ok c' →
        c' = { cfgC6 with week_indices := sortedWeekIndices cfgC6 } ∧
        List.Sorted (fun a b => a ≤ b) c'.week_indices := by
  have hcanon : ∀ i (h : i < weeksC6.length),
      (weeksC6.get ⟨i, h⟩).index = i + 1 := by
    intro i h
    rcases i with _ | _ | n
    · rfl
    · rfl
    · exfalso
      have hl : weeksC6.length = 2 := rfl
      omega
  have h := c6_validate_playoff_config_correct 4 weeksC6 cfgC6 hcanon
  constructor
  · intro hex
    have hbad := (h.1.mp hex).2
    rcases hbad with hnone | ⟨t, ht, hbad⟩
    · exact absurd hnone (by decide)
    · have ht4 : t = 4 := by
        have : some (4 : ℕ) = some t := by simpa [cfgC6] using ht
        injection this with h4
        exact h4.symm
      subst ht4
      rcases hbad with hb | hb | hb | hb | hb
      · exact hb (by decide)
      · exact absurd hb (by decide)
      · exact hb (by decide)
      · exact hb (by decide)
      · revert hb
        decide
  · intro c' hc'
    exact h.2 c' hc' (by decide)

def sNotStarted : String := "not_started"
def sInProgress : String := "in_progress"
def sCompleted : String := "completed"
def sRegular : String := "regular"
def sPlayoffs : String := "playoffs"
def sFinished : String := "finished"
def sPending : String := "pending"
def sActive : String := "active"
def sScheduled : String := "scheduled"

/-- `league._latest_simulated_date`: the last history record's date (records
are date-stamped; the reversed scan stops at the newest valid one). -/
def _latest_simulated_date (s : LeagueState) : Option Day :=
  s.history.getLast?.map (fun r => r.date)

/-- `league._week_status`. -/
def _week_status (week : Week) (latest_date : Option Day) : String :=
  match latest_date with
  | none => sNotStarted
  | some latest =>
      if latest < week.start then sNotStarted
      else if week.endDay < latest then sCompleted
      else sInProgress

/-- The per-team win/loss accumulator of the standings computation. -/
structure TeamRecordAcc where
  team : String
  wins : ℕ := 0
  losses : ℕ := 0
  ties : ℕ := 0
  points_for : ℚ := 0
  points_against : ℚ := 0
  deriving DecidableEq, Repr

def initRecord (team : String) : TeamRecordAcc :=
  { team := team }

/-- The points-for/points-against accrual for one matchup side. -/
def accruePoints (pf pa : ℚ) (r : TeamRecordAcc) : TeamRecordAcc :=
  { r with points_for := r.points_for + pf
           points_against := r.points_against + pa }

/-- One matchup of one week folded into the records (the inner loop body of
`compute_head_to_head_standings`). -/
def standingsMatchupStep (s : LeagueState) (status : String)
    (records : List (String × TeamRecordAcc)) (matchup : Matchup) :
    List (String × TeamRecordAcc) :=
  let teams := matchup.teams
  if teams.length < 2 then records
  else
    let team_a := ((teams.getD 0 { name := sEmpty }).name)
    let team_b := ((teams.getD 1 { name := sEmpty }).name)
    if team_a = sEmpty ∨ team_b = sEmpty then records
    else
      let stats := ((lookupKV matchup.id s.weekly_results).map
        (fun e => e.teams)).getD []
      let total_a := ((lookupKV team_a stats).map (fun te => te.total)).getD 0
      let total_b := ((lookupKV team_b stats).map (fun te => te.total)).getD 0
      let records := upsertKV team_a (accruePoints total_a total_b)
        (initRecord team_a) records
      let records := upsertKV team_b (accruePoints total_b total_a)
        (initRecord team_b) records
      if status ≠ sCompleted then records
      else if total_b < total_a then
        let records := upsertKV team_a (fun r => { r with wins := r.wins + 1 })
          (initRecord team_a) records
        upsertKV team_b (fun r => { r with losses := r.losses + 1 })
          (initRecord team_b) records
      else if total_a < total_b then
        let records := upsertKV team_b (fun r => { r with wins := r.wins + 1 })
          (initRecord team_b) records
        upsertKV team_a (fun r => { r with losses := r.losses + 1 })
          (initRecord team_a) records
      else
        let records := upsertKV team_a (fun r => { r with ties := r.ties + 1 })
          (initRecord team_a) records
        upsertKV team_b (fun r => { r with ties := r.ties + 1 })
          (initRecord team_b) records

/-- One week folded into the records. -/
def standingsWeekStep (s : LeagueState) (through_week : Option ℕ)
    (latest_date : Option Day) (records : List (String × TeamRecordAcc))
    (week : Week) : List (String × TeamRecordAcc) :=
  let week_index := week.index
  if through_week.elim false (fun tw => decide (tw < week_index)) then records
  else if PlayoffConfig.is_enabled s.playoffs_config ∧
      week_index ∈ s.playoffs_config.week_indices then records
  else
    let status := _week_status week latest_date
    if status = sNotStarted then records
    else week.matchups.foldl (standingsMatchupStep s status) records

/-- The standings row built from one accumulated record. -/
def standingRowOf (team_name : String) (r : TeamRecordAcc) : StandingRow :=
  let games_played := r.wins + r.losses + r.ties
  let win_pct : ℚ :=
    if games_played ≠ 0 then
      ((r.wins : ℚ) + (1 / 2) * (r.ties : ℚ)) / (games_played : ℚ)
    else 0
  { team := team_name
    wins := r.wins
    losses := r.losses
    ties := r.ties
    games_played := games_played
    win_pct := pyRound 3 win_pct
    points_for := pyRound 1 r.points_for
    points_against := pyRound 1 r.points_against
    point_diff := pyRound 1 (r.points_for - r.points_against) }

/-- The Python sort key `(-win_pct, -wins, -point_diff, -points_for, team)`
as a lexicographic value (descending components via `OrderDual`). -/
def skey (a : StandingRow) :
    Lex (ℚᵒᵈ × Lex (ℕᵒᵈ × Lex (ℚᵒᵈ × Lex (ℚᵒᵈ × String)))) :=
  toLex (OrderDual.toDual a.win_pct,
    toLex (OrderDual.toDual a.wins,
      toLex (OrderDual.toDual a.point_diff,
        toLex (OrderDual.toDual a.points_for, a.team))))

/-- The standings ordering: descending win percentage, wins, point
differential, points for; ascending team name. -/
def standingsLE (a b : StandingRow) : Prop :=
  skey a ≤ skey b

instance : DecidableRel standingsLE := fun a b =>
  inferInstanceAs (Decidable (skey a ≤ skey b))

instance : IsTotal StandingRow standingsLE :=
  ⟨fun a b => le_total (skey a) (skey b)⟩

instance : IsTrans StandingRow standingsLE :=
  ⟨fun _ _ _ hab hbc => le_trans hab hbc⟩

/-- `rank` assignment: `for index, row in enumerate(standings, start=1)`. -/
def assignRanks : ℕ → List StandingRow → List StandingRow
  | _, [] => []
  | n, r :: rest => { r with rank := some n } :: assignRanks (n + 1) rest

/-- `league.compute_head_to_head_standings`. -/
def compute_head_to_head_standings (s : LeagueState)
    (through_week : Option ℕ) : List StandingRow :=
  let latest_date := _latest_simulated_date s
  let records0 : List (String × TeamRecordAcc) :=
    s.team_names.map (fun t => (t, initRecord t))
  let records := s.weeks.foldl
    (standingsWeekStep s through_week latest_date) records0
  let standings := records.map (fun p => standingRowOf p.1 p.2)
  assignRanks 1 (List.insertionSort standingsLE standings)

def sApexC8 : String := "Apex"
def sCrestC8 : String := "Crest"
def sPointsLeague : String := "points_league"
def sM1 : String := "m1"
def sM2 : String := "m2"
def sM3 : String := "m3"

/-- A weekly-result entry for the C8 state: both teams with fixed totals. -/
def wrC8 (mid : String) (ta tb : ℚ) : String × WREntry :=
  (mid, { matchup_id := mid
          week_index := 1
          teams := [(sApexC8, { team := sApexC8, total := ta }),
                    (sCrestC8, { team := sCrestC8, total := tb })] })

def muC8 (mid : String) : Matchup :=
  { id := mid
    teams := [{ name := sApexC8 }, { name := sCrestC8 }] }

def wkC8 : Week :=
  { index := 1
    name := sWeekNameLit
    start := 0
    endDay := 6
    matchups := [muC8 sM1, muC8 sM2, muC8 sM3] }

def stC8 : LeagueState :=
  { league_id := sEmpty
    league_name := sEmpty
    user_team_name := none
    team_count := 2
    roster_size := 1
    scoring_profile_key := sPointsLeague
    scoring_profile := sPointsLeague
    team_names := [sApexC8, sCrestC8]
    calendar := [0, 1, 2, 3, 4, 5, 6]
    current_index := 7
    rosters := []
    weeks := [wkC8]
    weekly_results := [wrC8 sM1 10 5, wrC8 sM2 10 5, wrC8 sM3 5 10]
    history := [{ date := 10
                  scoring_profile := sPointsLeague
                  week_index := some 1
                  team_results := [] }] }

def rowApexC8 : StandingRow :=
  { team := sApexC8, wins := 2, losses := 1, ties := 0, games_played := 3,
    win_pct := 667 / 1000, points_for := 25, points_against := 20,
    point_diff := 5, rank := some 1 }

def rowCrestC8 : StandingRow :=
  { team := sCrestC8, wins := 1, losses := 2, ties := 0, games_played := 3,
    win_pct := 333 / 1000, points_for := 20, points_against := 25,
    point_diff := -5, rank := some 2 }

/-- The standings ordering spelt out: descending rounded win percentage,
then wins, then point differential, then points for, then ascending name. -/
lemma standingsLE_iff (a b : StandingRow) :
    standingsLE a b ↔
      (b.win_pct < a.win_pct ∨ (a.win_pct = b.win_pct ∧
       (b.wins < a.wins ∨ (a.wins = b.wins ∧
        (b.point_diff < a.point_diff ∨ (a.point_diff = b.point_diff ∧
         (b.points_for < a.points_for ∨ (a.points_for = b.points_for ∧
          a.team ≤ b.team)))))))) := by
  show toLex _ ≤ toLex _ ↔ _
  rw [Prod.Lex.le_iff]
  rw [Prod.Lex.le_iff]
  rw [Prod.Lex.le_iff]
  rw [Prod.Lex.le_iff]
  simp only [OrderDual.toDual_lt_toDual, OrderDual.toDual_inj]

lemma skey_set_rank (a : StandingRow) (x : Option ℕ) :
    skey { a with rank := x } = skey a := rfl

lemma assignRanks_length (n : ℕ) (l : List StandingRow) :
    (assignRanks n l).length = l.length := by
  induction l generalizing n with
  | nil => rfl
  | cons r rest ih => simp [assignRanks, ih]

lemma mem_assignRanks {x : StandingRow} {n : ℕ} {l : List StandingRow}
    (hx : x ∈ assignRanks n l) :
    ∃ y ∈ l, ∃ m : ℕ, x = { y with rank := some m } := by
  induction l generalizing n with
  | nil => simp [assignRanks] at hx
  | cons r rest ih =>
      simp only [assignRanks, List.mem_cons] at hx
      rcases hx with hx | hx
      · exact ⟨r, List.mem_cons_self r rest, n, hx⟩
      · obtain ⟨y, hy, m, hm⟩ := ih hx
        exact ⟨y, List.mem_cons_of_mem r hy, m, hm⟩

lemma assignRanks_get (n : ℕ) (l : List StandingRow) (i : ℕ)
    (h : i < (assignRanks n l).length) (h' : i < l.length) :
    (assignRanks n l).get ⟨i, h⟩ = { l.get ⟨i, h'⟩ with rank := some (n + i) } := by
  induction l generalizing n i with
  | nil => simp at h'
  | cons r rest ih =>
      cases i with
      | zero =>
          show { r with rank := some n } = { r with rank := some (n + 0) }
          rw [Nat.add_zero]
      | succ j =>
          have hj : j < (assignRanks (n + 1) rest).length := by
            simp only [assignRanks, List.length_cons] at h
            omega
          have hj' : j < rest.length := by
            simp only [List.length_cons] at h'
            omega
          have harith : n + 1 + j = n + (j + 1) := by omega
          calc (assignRanks n (r :: rest)).get ⟨j + 1, h⟩
              = (assignRanks (n + 1) rest).get ⟨j, hj⟩ := rfl
            _ = { rest.get ⟨j, hj'⟩ with rank := some (n + 1 + j) } := ih (n + 1) j hj hj'
            _ = { (r :: rest).get ⟨j + 1, h'⟩ with rank := some (n + (j + 1)) } := by
                rw [harith]
                rfl

lemma sorted_assignRanks (n : ℕ) {l : List StandingRow}
    (h : List.Sorted standingsLE l) :
    List.Sorted standingsLE (assignRanks n l) := by
  induction l generalizing n with
  | nil => simp [assignRanks]
  | cons r rest ih =>
      rw [List.sorted_cons] at h
      show List.Sorted standingsLE ({ r with rank := some n } :: assignRanks (n + 1) rest)
      rw [List.sorted_cons]
      refine ⟨?_, ih (n + 1) h.2⟩
      intro b hb
      obtain ⟨y, hy, m, rfl⟩ := mem_assignRanks hb
      show skey _ ≤ skey _
      rw [skey_set_rank, skey_set_rank]
      exact h.1 y hy

/-- **C8 counterexample.** In a league where Apex beats Crest twice and loses
once in a completed week, the `win_pct` field of Apex's standings row is the
three-digit rounded value `0.667`, not the exact quotient
`(wins + 0.5·ties) / games_played = 2/3` that the claim states. -/
theorem c8_counterexample :
    ∃ row ∈ compute_head_to_head_standings stC8 none,
      row.wins = 2 ∧ row.losses = 1 ∧ row.ties = 0 ∧ row.games_played = 3 ∧
      row.win_pct ≠ ((row.wins : ℚ) + (1 / 2) * (row.ties : ℚ)) /
        ((row.wins + row.losses + row.ties : ℕ) : ℚ) := by
  have hout : compute_head_to_head_standings stC8 none = [rowApexC8, rowCrestC8] := by
    norm_num +decide [compute_head_to_head_standings, _latest_simulated_date,
      _week_status, standingsWeekStep, standingsMatchupStep, standingRowOf,
      initRecord, accruePoints, upsertKV, lookupKV, assignRanks,
      List.insertionSort, List.orderedInsert, standingsLE_iff, pyRound,
      roundHalfEven, stC8, wkC8, muC8, wrC8, sM1, sM2, sM3, sApexC8, sCrestC8,
      sPointsLeague, sEmpty, sNotStarted, sCompleted, sInProgress,
      PlayoffConfig.is_enabled, rowApexC8, rowCrestC8]
  rw [hout]
  refine ⟨rowApexC8, List.mem_cons_self _ _, rfl, rfl, rfl, rfl, ?_⟩
  norm_num [rowApexC8]

/-- **C8 (amended).** `compute_head_to_head_standings` gives every row
`games_played = wins + losses + ties` and a `win_pct` equal to the
three-digit (half-to-even) rounding of `(wins + 0.5·ties) / games_played`
(`0` when no games were played); the rows are sorted by `standingsLE`, which
is exactly descending (rounded) win percentage, then wins, then point
differential, then points for, then ascending team name; and ranks are the
positional indices starting at 1 (ordinal, not dense). -/
theorem c8_standings_correct (s : LeagueState) (tw : Option ℕ) :
    (∀ row ∈ compute_head_to_head_standings s tw,
        row.games_played = row.wins + row.losses + row.ties ∧
        row.win_pct = pyRound 3
          (if row.wins + row.losses + row.ties ≠ 0 then
            ((row.wins : ℚ) + (1 / 2) * (row.ties : ℚ)) /
              ((row.wins + row.losses + row.ties : ℕ) : ℚ)
          else 0)) ∧
    List.Sorted standingsLE (compute_head_to_head_standings s tw) ∧
    (∀ i (h : i < (compute_head_to_head_standings s tw).length),
        ((compute_head_to_head_standings s tw).get ⟨i, h⟩).rank = some (i + 1)) ∧
    (∀ a b : StandingRow, standingsLE a b ↔
      (b.win_pct < a.win_pct ∨ (a.win_pct = b.win_pct ∧
       (b.wins < a.wins ∨ (a.wins = b.wins ∧
        (b.point_diff < a.point_diff ∨ (a.point_diff = b.point_diff ∧
         (b.points_for < a.points_for ∨ (a.points_for = b.points_for ∧
          a.team ≤ b.team))))))))) := by
  refine ⟨?_, ?_, ?_, fun a b => standingsLE_iff a b⟩
  · intro row hrow
    simp only [compute_head_to_head_standings] at hrow
    obtain ⟨y, hy, m, rfl⟩ := mem_assignRanks hrow
    have hy' : y ∈ (((LeagueState.weeks s).foldl
        (standingsWeekStep s tw (_latest_simulated_date s))
        ((LeagueState.team_names s).map (fun t => (t, initRecord t)))).map
          (fun p => standingRowOf p.1 p.2)) :=
      (List.perm_insertionSort standingsLE _).mem_iff.mp hy
    obtain ⟨⟨t, racc⟩, _, rfl⟩ := List.mem_map.mp hy'
    constructor
    · rfl
    · simp only [standingRowOf]
  · simp only [compute_head_to_head_standings]
    exact sorted_assignRanks 1 (List.sorted_insertionSort standingsLE _)
  · intro i h
    simp only [compute_head_to_head_standings] at h ⊢
    have h' : i < (List.insertionSort standingsLE
        (((LeagueState.weeks s).foldl
          (standingsWeekStep s tw (_latest_simulated_date s))
          ((LeagueState.team_names s).map (fun t => (t, initRecord t)))).map
            (fun p => standingRowOf p.1 p.2))).length := by
      rw [← assignRanks_length 1]
      exact h
    rw [assignRanks_get 1 _ i h h']
    rw [Nat.add_comm 1 i]

/-- Witness for C8: the amended theorem applied at the concrete two-team
league state. -/
theorem c8_standings_witness :
    List.Sorted standingsLE (compute_head_to_head_standings stC8 none) :=
  (c8_standings_correct stC8 none).2.1

/-! ## Playoff round resolution (`league._finalize_playoff_round` and helpers) -/

def sPlayoffPrefix : String := "playoff-"
def sPlayoffType : String := "playoff"

/-- `match.get("matchup_id") or f"playoff-{match.get('id', '').lower()}"`
(an absent or empty stored id falls back to the derived one). -/
def playoffMatchupIdOf (m : BracketMatch) : String :=
  match m.matchup_id with
  | some mid => if mid = sEmpty then sPlayoffPrefix ++ m.id.toLower else mid
  | none => sPlayoffPrefix ++ m.id.toLower

/-- The totals map of a weekly-results entry:
`{team: float(info.get("total", 0.0)) for team, info in teams_data.items()}`. -/
def matchTotals (entry : WREntry) : List (String × ℚ) :=
  entry.teams.map (fun p => (p.1, p.2.total))

/-- `totals_map.get(team, 0.0)` with a possibly missing team name. -/
def teamTotal (totals : List (String × ℚ)) : Option String → ℚ
  | none => 0
  | some t => (lookupKV t totals).getD 0

/-- `home_team = match.get("home_team"); if not home_team and totals_map:
home_team = list(totals_map.keys())[0]`. -/
def resolvedHomeTeam (m : BracketMatch) (totals : List (String × ℚ)) :
    Option String :=
  if m.home_team.getD sEmpty = sEmpty ∧ ¬ totals.isEmpty then
    totals.head?.map Prod.fst
  else m.home_team

/-- `away_team = match.get("away_team"); if not away_team and
len(totals_map) > 1: away_team = list(totals_map.keys())[1]`. -/
def resolvedAwayTeam (m : BracketMatch) (totals : List (String × ℚ)) :
    Option String :=
  if m.away_team.getD sEmpty = sEmpty ∧ 1 < totals.length then
    (totals.get? 1).map Prod.fst
  else m.away_team

/-- A resolved bracket matchup: the updated match plus its winner and loser
references. -/
structure ResolvedMatch where
  updated : BracketMatch
  winner : TeamSeedRef
  loser : TeamSeedRef
  deriving DecidableEq, Repr

/-- The per-matchup body of the resolution loop of
`league._finalize_playoff_round`: `None` when no weekly-results entry exists
(the `continue` case). The bracket matches always carry their `home_seed` /
`away_seed` keys (set by `_generate_playoff_structure` and
`_assign_next_round_matchup`), so the source's `seeds_map` fallback for an
absent key is inert and the seeds are read off the match. -/
def resolveBracketMatch (weekly_results : List (String × WREntry))
    (m : BracketMatch) : Option ResolvedMatch :=
  match lookupKV (playoffMatchupIdOf m) weekly_results with
  | none => none
  | some entry =>
      let totals := matchTotals entry
      let home_team := resolvedHomeTeam m totals
      let away_team := resolvedAwayTeam m totals
      let total_home := teamTotal totals home_team
      let total_away := teamTotal totals away_team
      let seed_home := m.home_seed
      let seed_away := m.away_seed
      let winner_is_home :=
        if total_home = total_away then
          match seed_home, seed_away with
          | some sh, some sa => decide (sh < sa)
          | _, _ => true
        else decide (total_away < total_home)
      let winner_ref : TeamSeedRef :=
        if winner_is_home then ⟨home_team, seed_home⟩ else ⟨away_team, seed_away⟩
      let loser_ref : TeamSeedRef :=
        if winner_is_home then ⟨away_team, seed_away⟩ else ⟨home_team, seed_home⟩
      let winner_total := if winner_is_home then total_home else total_away
      let loser_total := if winner_is_home then total_away else total_home
      some
        { updated :=
            { m with
              status := sCompleted
              winner := some ⟨winner_ref.team, winner_ref.seed, pyRound 1 winner_total⟩
              loser := some ⟨loser_ref.team, loser_ref.seed, pyRound 1 loser_total⟩
              home_total := some (pyRound 1 total_home)
              away_total := some (pyRound 1 total_away)
              result := some ⟨winner_ref.team, winner_ref.seed, pyRound 1 winner_total⟩ }
          winner := winner_ref
          loser := loser_ref }

/-- The whole resolution loop: updated matchup list (unresolvable matchups
kept as they are) plus the winners and losers in matchup order. -/
def finalizeMatches (weekly_results : List (String × WREntry)) :
    List BracketMatch → List BracketMatch × List TeamSeedRef × List TeamSeedRef
  | [] => ([], [], [])
  | m :: rest =>
      let r := finalizeMatches weekly_results rest
      match resolveBracketMatch weekly_results m with
      | none => (m :: r.1, r.2.1, r.2.2)
      | some res => (res.updated :: r.1, res.winner :: r.2.1, res.loser :: r.2.2)

/-- The `"team"` key of a seed payload (a copied standings row). -/
def SeedEntry.teamName (e : SeedEntry) : String := e.row.team

/-- `league._resolve_playoff_source`. -/
def _resolve_playoff_source (source : PlayoffSource)
    (seeds_lookup : List (ℕ × SeedEntry))
    (winner_lookup : List (String × Option WinnerInfo)) : TeamSeedRef :=
  match source with
  | .seed n => { team := (lookupKV n seeds_lookup).map SeedEntry.teamName
                 seed := some n }
  | .winner mid =>
      match lookupKV mid winner_lookup with
      | some (some w) => { team := w.team, seed := w.seed }
      | _ => { team := none, seed := none }
  | .other => { team := none, seed := none }

/-- `league._assign_next_round_matchup` (assigns teams and seeds, resets the
status and pops any stale result keys). -/
def _assign_next_round_matchup (m : BracketMatch) (home_info away_info : TeamSeedRef) :
    BracketMatch :=
  { m with
    home_team := home_info.team
    away_team := away_info.team
    home_seed := home_info.seed
    away_seed := away_info.seed
    status := sScheduled
    result := none
    winner := none
    loser := none
    home_total := none
    away_total := none }

/-- The reseed pairing loop of `_prepare_next_round`: repeatedly pair the
best remaining seed with the worst, an odd leftover getting an empty
opponent. -/
def reseedPairs : List TeamSeedRef → List (TeamSeedRef × TeamSeedRef)
  | [] => []
  | [x] => [(x, ⟨none, none⟩)]
  | x :: y :: rest =>
      (x, (y :: rest).getLast (by simp)) :: reseedPairs ((y :: rest).dropLast)
termination_by l => l.length
decreasing_by
  simp only [List.length_dropLast, List.length_cons]
  omega

/-- Ascending seed order for the reseed sort (`key=lambda item: item["seed"]`;
every sorted element has a seed). -/
def seedLE (a b : TeamSeedRef) : Prop := a.seed.getD 0 ≤ b.seed.getD 0

instance : DecidableRel seedLE := fun a b =>
  inferInstanceAs (Decidable (a.seed.getD 0 ≤ b.seed.getD 0))

/-- `league._initialize_playoff_matchup_result`: reset (or create) the
weekly-results entry of a playoff matchup and seed its team slots. -/
def _initialize_playoff_matchup_result (weekly_results : List (String × WREntry))
    (matchup_id : String) (week_index : ℕ)
    (home_team away_team : Option String) : List (String × WREntry) :=
  let addTeam : List (String × TeamEntry) → Option String → List (String × TeamEntry) :=
    fun teams tn =>
      match tn with
      | none => teams
      | some t =>
          if t = sEmpty then teams
          else upsertKV t (fun _ => { team := t }) { team := t } teams
  let entry : WREntry :=
    { matchup_id := matchup_id
      week_index := week_index
      teams := addTeam (addTeam [] home_team) away_team
      days := [] }
  upsertKV matchup_id (fun _ => entry) entry weekly_results

/-- The home-team resolution of `_apply_playoff_round_to_week`
(`match.get("home_team") or ""`, with a lookup through the seeds for a
missing name when a non-zero seed is present). -/
def applyRoundTeamName (seeds_lookup : List (ℕ × SeedEntry))
    (team : Option String) (seed : Option ℕ) : String :=
  let t := team.getD sEmpty
  if t = sEmpty then
    match seed with
    | some sn =>
        if sn ≠ 0 then
          ((lookupKV sn seeds_lookup).map SeedEntry.teamName).getD sEmpty
        else sEmpty
    | none => sEmpty
  else t

/-- The never-used out-of-range default of positional week access. -/
def emptyWeek : Week :=
  { index := 0, name := sEmpty, start := 0, endDay := 0, matchups := [] }

/-- `league._apply_playoff_round_to_week`: bind a bracket round into its
week (rebuilding the week's matchups, resetting the weekly results of the
new matchup ids and dropping stale ones). Returns the updated state and the
updated round (the source mutates the round's matches, storing their
`matchup_id`s). -/
def _apply_playoff_round_to_week (s : LeagueState) (round_entry : PlayoffRound) :
    LeagueState × PlayoffRound :=
  let week_index := round_entry.week_index
  if week_index = 0 ∨ s.weeks.length < week_index then (s, round_entry)
  else
    let week := s.weeks.getD (week_index - 1) emptyWeek
    let existing_ids := week.matchups.map (fun m => m.id)
    let seeds_lookup := match s.playoffs with
      | some p => p.seeds
      | none => []
    let step : (List BracketMatch × List Matchup × List String ×
        List (String × WREntry)) → BracketMatch →
        (List BracketMatch × List Matchup × List String × List (String × WREntry)) :=
      fun acc m =>
        let matchup_id := playoffMatchupIdOf m
        let m' := { m with matchup_id := some matchup_id }
        let home_team := applyRoundTeamName seeds_lookup m.home_team m.home_seed
        let away_team := applyRoundTeamName seeds_lookup m.away_team m.away_seed
        let payload : Matchup :=
          { id := matchup_id
            mtype := some sPlayoffType
            round := some round_entry.index
            bracket_id := some m.id
            teams := [{ name := home_team, seed := m.home_seed },
                      { name := away_team, seed := m.away_seed }] }
        let wr' := _initialize_playoff_matchup_result acc.2.2.2 matchup_id week_index
          (some home_team) (some away_team)
        (acc.1 ++ [m'], acc.2.1 ++ [payload], acc.2.2.1 ++ [matchup_id], wr')
    let folded := round_entry.matchups.foldl step ([], [], [], s.weekly_results)
    let new_matches := folded.1
    let matchups_payload := folded.2.1
    let new_ids := folded.2.2.1
    let wr₁ := folded.2.2.2
    let week' : Week :=
      { week with
        matchups := matchups_payload
        playoff_round := some round_entry.index
        status := if round_entry.status = sCompleted then some sCompleted
                  else week.status }
    let wr₂ := wr₁.filter (fun p => ¬ (p.1 ∈ existing_ids ∧ p.1 ∉ new_ids))
    ({ s with weeks := s.weeks.set (week_index - 1) week'
              weekly_results := wr₂ },
     { round_entry with matchups := new_matches })

/-- `league._prepare_next_round`: assign the next round's matchups (reseeded
pairs or declared sources), bind the round into its week and mark it
pending. Returns the updated state and round (the source mutates the round
inside `state.playoffs["rounds"]`; the caller stores it back). -/
def _prepare_next_round (s : LeagueState) (next_round : PlayoffRound)
    (winners : List TeamSeedRef) : LeagueState × PlayoffRound :=
  let config := s.playoffs_config
  let seeds_lookup := match s.playoffs with
    | some p => p.seeds
    | none => []
  let rounds := match s.playoffs with
    | some p => p.rounds
    | none => []
  let winner_lookup : List (String × Option WinnerInfo) :=
    if 2 ≤ next_round.index then
      match rounds.get? (next_round.index - 2) with
      | some prev => prev.matchups.map (fun m => (m.id, m.winner))
      | none => []
    else []
  let assigned :=
    if config.reseed ∧ 1 < next_round.index then
      let seeded := winners.filter (fun w => w.seed.isSome)
      let pairs := reseedPairs (List.insertionSort seedLE seeded)
      (next_round.matchups.zip pairs).map
        (fun mp => _assign_next_round_matchup mp.1 mp.2.1 mp.2.2) ++
        next_round.matchups.drop pairs.length
    else
      next_round.matchups.map (fun m =>
        _assign_next_round_matchup m
          (_resolve_playoff_source m.sources.home seeds_lookup winner_lookup)
          (_resolve_playoff_source m.sources.away seeds_lookup winner_lookup))
  let applied := _apply_playoff_round_to_week s { next_round with matchups := assigned }
  (applied.1, { applied.2 with status := sPending })

/-- Ascending elimination-round order (`sorted(elimination_log,
key=lambda item: item.get("round", 0))`). -/
def elimLE (a b : ElimRecord) : Prop := a.round ≤ b.round

instance : DecidableRel elimLE := fun a b =>
  inferInstanceAs (Decidable (a.round ≤ b.round))

/-- The `_add_placement` closure: skip empty names and already-seen
normalized names, otherwise append with the next placement number. -/
def addPlacement (acc : List Placement × List String) (team : Option String) :
    List Placement × List String :=
  match team with
  | none => acc
  | some t =>
      if t = sEmpty then acc
      else
        let norm := _normalize_team_name (some t)
        if norm ∈ acc.2 then acc
        else (acc.1 ++ [{ team := t, placement := acc.1.length + 1 }],
              acc.2 ++ [norm])

/-- The placement candidates in source order: champion, runner-up, then the
losers of the elimination log sorted by ascending round, skipping any loser
whose normalized name matches the champion's or the runner-up's. -/
def placementCandidates (champion runner_up : Option String)
    (log : List ElimRecord) : List (Option String) :=
  [champion, runner_up] ++
    (List.insertionSort elimLE log).flatMap (fun rec =>
      rec.losers.filterMap (fun l =>
        if _normalize_team_name l.team = _normalize_team_name champion ∨
            _normalize_team_name l.team = _normalize_team_name runner_up then none
        else some l.team))

/-- The placement list of the completed bracket. -/
def buildPlacements (champion runner_up : Option String)
    (log : List ElimRecord) : List Placement :=
  ((placementCandidates champion runner_up log).foldl addPlacement ([], [])).1

/-- The never-used out-of-range default of positional round access. -/
def emptyRound : PlayoffRound :=
  { index := 0, name := sEmpty, week_index := 0, matchups := [] }

/-- The consolation tail of `_finalize_playoff_round`. -/
def consolationAppend (p : PlayoffsState) (week_index : ℕ)
    (losers : List TeamSeedRef) : PlayoffsState :=
  if p.consolation.enabled then
    { p with consolation :=
        { p.consolation with results := p.consolation.results ++
            [{ week_index := week_index, losers := losers }] } }
  else p

/-- `league._finalize_playoff_round` (`today` models `date.today()` used for
the `finalized_at` stamp). -/
def _finalize_playoff_round (s : LeagueState) (week_index : ℕ) (today : Day) :
    LeagueState :=
  match s.playoffs with
  | none => s
  | some playoffs =>
      match playoffs.rounds.findIdx? (fun rnd => rnd.week_index == week_index) with
      | none => s
      | some ri =>
          let round_entry := playoffs.rounds.getD ri emptyRound
          if round_entry.status = sCompleted then s
          else
            let fm := finalizeMatches s.weekly_results round_entry.matchups
            let winners := fm.2.1
            let losers := fm.2.2
            let round_entry' := { round_entry with status := sCompleted
                                                   matchups := fm.1 }
            let rounds₁ := playoffs.rounds.set ri round_entry'
            let log₁ := playoffs.elimination_log ++
              [{ round := round_entry.index, losers := losers }]
            let playoffs₁ := { playoffs with rounds := rounds₁
                                             elimination_log := log₁
                                             current_round := round_entry.index }
            if h : round_entry.index < rounds₁.length then
              let next_round := rounds₁.get ⟨round_entry.index, h⟩
              let pr := _prepare_next_round { s with playoffs := some playoffs₁ }
                next_round winners
              let playoffs₂ := { playoffs₁ with
                rounds := rounds₁.set round_entry.index pr.2
                current_round := pr.2.index }
              { pr.1 with playoffs := some (consolationAppend playoffs₂ week_index losers) }
            else
              let final_match := fm.1.head?
              let champion := (final_match.bind (fun m => m.winner)).bind
                (fun w => w.team)
              let runner_up := (final_match.bind (fun m => m.loser)).bind
                (fun w => w.team)
              let placements := buildPlacements champion runner_up log₁
              let playoffs₂ := { playoffs₁ with
                completed := true
                placements := some placements
                finalized_at := some today }
              { s with phase := sFinished
                       playoffs := some (consolationAppend playoffs₂ week_index losers) }

/-- **C4.** When a playoff matchup with a weekly-results entry is resolved:
on exactly equal totals the lower (numerically better) seed wins, the home
side winning when either seed is missing; on unequal totals the strictly
higher total wins. -/
theorem c4_playoff_tiebreak (wr : List (String × WREntry)) (m : BracketMatch)
    (entry : WREntry) (hentry : lookupKV (playoffMatchupIdOf m) wr = some entry) :
    ∃ r, resolveBracketMatch wr m = some r ∧
      ((∀ sh sa, teamTotal (matchTotals entry) (resolvedHomeTeam m (matchTotals entry)) =
            teamTotal (matchTotals entry) (resolvedAwayTeam m (matchTotals entry)) →
          m.home_seed = some sh → m.away_seed = some sa →
          r.winner = (if sh < sa then
              TeamSeedRef.mk (resolvedHomeTeam m (matchTotals entry)) m.home_seed
            else
              TeamSeedRef.mk (resolvedAwayTeam m (matchTotals entry)) m.away_seed)) ∧
       (teamTotal (matchTotals entry) (resolvedHomeTeam m (matchTotals entry)) =
            teamTotal (matchTotals entry) (resolvedAwayTeam m (matchTotals entry)) →
          (m.home_seed = none ∨ m.away_seed = none) →
          r.winner = ⟨resolvedHomeTeam m (matchTotals entry), m.home_seed⟩) ∧
       (teamTotal (matchTotals entry) (resolvedAwayTeam m (matchTotals entry)) <
            teamTotal (matchTotals entry) (resolvedHomeTeam m (matchTotals entry)) →
          r.winner = ⟨resolvedHomeTeam m (matchTotals entry), m.home_seed⟩) ∧
       (teamTotal (matchTotals entry) (resolvedHomeTeam m (matchTotals entry)) <
            teamTotal (matchTotals entry) (resolvedAwayTeam m (matchTotals entry)) →
          r.winner = ⟨resolvedAwayTeam m (matchTotals entry), m.away_seed⟩)) := by
  simp only [resolveBracketMatch, hentry]
  refine ⟨_, rfl, ?_, ?_, ?_, ?_⟩
  · intro sh sa heq hsh hsa
    dsimp only
    rw [if_pos heq, hsh, hsa]
    by_cases hlt : sh < sa
    · rw [if_pos hlt]
      simp only [decide_eq_true_eq, if_pos hlt]
    · rw [if_neg hlt]
      simp only [decide_eq_true_eq]
      rw [if_neg hlt]
  · intro heq hmiss
    dsimp only
    rw [if_pos heq]
    rcases hmiss with hmiss | hmiss <;> rw [hmiss]
    · rfl
    · cases hs : m.home_seed <;> rfl
  · intro hlt
    dsimp only
    rw [if_neg (ne_of_gt hlt)]
    simp only [decide_eq_true_eq]
    rw [if_pos hlt]
  · intro hlt
    dsimp only
    rw [if_neg (ne_of_lt hlt)]
    simp only [decide_eq_true_eq]
    rw [if_neg (lt_asymm hlt)]

def sPM1 : String := "pm1"
def sR1M1 : String := "R1M1"
def sHomeC4 : String := "Home Heroes"
def sAwayC4 : String := "Away Aces"

def entryC4 : WREntry :=
  { matchup_id := sPM1
    week_index := 5
    teams := [(sHomeC4, { team := sHomeC4, total := 50 }),
              (sAwayC4, { team := sAwayC4, total := 50 })] }

def mC4 : BracketMatch :=
  { id := sR1M1
    matchup_id := some sPM1
    sources := { home := PlayoffSource.seed 1, away := PlayoffSource.seed 4 }
    home_seed := some 1
    away_seed := some 4
    home_team := some sHomeC4
    away_team := some sAwayC4 }

def wrC4 : List (String × WREntry) := [(sPM1, entryC4)]

/-- Witness for C4: a concrete tied matchup between seeds 1 and 4 resolves
in favour of the home side holding seed 1. -/
theorem c4_playoff_tiebreak_witness :
    ∃ r, resolveBracketMatch wrC4 mC4 = some r ∧
      r.winner = ⟨some sHomeC4, some 1⟩ := by
  obtain ⟨r, hr, h1, h2, h3, h4⟩ := c4_playoff_tiebreak wrC4 mC4 entryC4 (by rfl)
  refine ⟨r, hr, ?_⟩
  have hw := h1 1 4 (by rfl) rfl rfl
  rw [hw, if_pos (by omega : (1 : ℕ) < 4)]
  rfl

def sT1 : String := "Tigers"
def sT2 : String := "Sharks"
def sT3 : String := "Wolves"
def sT4 : String := "Eagles"
def sT5 : String := "Bisons"
def sT6 : String := "Ravens"
def sPMFinal : String := "pm-final"
def sR3M1 : String := "R3M1"
def sR2M1 : String := "R2M1"
def sR2M2 : String := "R2M2"

def mFinalC5 : BracketMatch :=
  { id := sR3M1
    matchup_id := some sPMFinal
    sources := { home := PlayoffSource.winner sR2M1
                 away := PlayoffSource.winner sR2M2 }
    home_seed := some 1
    away_seed := some 2
    home_team := some sT1
    away_team := some sT2 }

def roundC5 (idx week : ℕ) (status : String) (ms : List BracketMatch) :
    PlayoffRound :=
  { index := idx, name := sWeekNameLit, week_index := week, status := status
    matchups := ms }

def playoffsC5 : PlayoffsState :=
  { started := true
    completed := false
    current_round := 2
    config := { enabled := true, teams := some 6, week_indices := [7, 8, 9] }
    seeds := []
    rounds := [roundC5 1 7 sCompleted [], roundC5 2 8 sCompleted [],
               roundC5 3 9 sPending [mFinalC5]]
    consolation := { enabled := false }
    elimination_log :=
      [{ round := 1, losers := [⟨some sT5, some 5⟩, ⟨some sT6, some 6⟩] },
       { round := 2, losers := [⟨some sT3, some 3⟩, ⟨some sT4, some 4⟩] }] }

def stC5 : LeagueState :=
  { league_id := sEmpty
    league_name := sEmpty
    user_team_name := none
    team_count := 6
    roster_size := 1
    scoring_profile_key := sPointsLeague
    scoring_profile := sPointsLeague
    team_names := [sT1, sT2, sT3, sT4, sT5, sT6]
    calendar := []
    current_index := 0
    rosters := []
    weekly_results :=
      [(sPMFinal, { matchup_id := sPMFinal
                    week_index := 9
                    teams := [(sT1, { team := sT1, total := 30 }),
                              (sT2, { team := sT2, total := 20 })] })]
    phase := sPlayoffs
    playoffs_config := { enabled := true, teams := some 6, week_indices := [7, 8, 9] }
    playoffs := some playoffsC5 }

/-- **C5 counterexample.** Finalizing the last round of a six-team bracket
whose elimination log holds round-1 losers (Bisons, Ravens) and round-2
losers (Wolves, Eagles): the bracket is completed and the phase finished as
claimed, but the placement list after champion and runner-up is Bisons,
Ravens, Wolves, Eagles — ascending elimination round — so the round-1
losers outrank the round-2 losers, refuting the claimed descending order. -/
theorem c5_counterexample :
    (_finalize_playoff_round stC5 9 100).phase = sFinished ∧
    ((_finalize_playoff_round stC5 9 100).playoffs.map
      (fun p => (p.completed, p.placements, p.elimination_log))) =
      some (true,
        some [⟨sT1, 1⟩, ⟨sT2, 2⟩, ⟨sT5, 3⟩, ⟨sT6, 4⟩, ⟨sT3, 5⟩, ⟨sT4, 6⟩],
        [{ round := 1, losers := [⟨some sT5, some 5⟩, ⟨some sT6, some 6⟩] },
         { round := 2, losers := [⟨some sT3, some 3⟩, ⟨some sT4, some 4⟩] },
         { round := 3, losers := [⟨some sT2, some 2⟩] }]) := by
  constructor
  · norm_num +decide [_finalize_playoff_round, stC5, playoffsC5, roundC5,
      mFinalC5, finalizeMatches, resolveBracketMatch, playoffMatchupIdOf,
      matchTotals, teamTotal, resolvedHomeTeam, resolvedAwayTeam, lookupKV,
      sPMFinal, sEmpty, sCompleted, sPending]
  · norm_num +decide [_finalize_playoff_round, stC5, playoffsC5, roundC5,
      mFinalC5, finalizeMatches, resolveBracketMatch, playoffMatchupIdOf,
      matchTotals, teamTotal, resolvedHomeTeam, resolvedAwayTeam, lookupKV,
      buildPlacements, placementCandidates, addPlacement, _normalize_team_name,
      List.insertionSort, List.orderedInsert, elimLE, consolationAppend,
      pyRound, roundHalfEven, sPMFinal, sEmpty, sCompleted, sPending,
      sT1, sT2, sT3, sT4, sT5, sT6, sFinished, sPlayoffs]

lemma consolationAppend_completed (p : PlayoffsState) (w : ℕ)
    (l : List TeamSeedRef) : (consolationAppend p w l).completed = p.completed := by
  unfold consolationAppend
  split <;> rfl

lemma consolationAppend_elimination_log (p : PlayoffsState) (w : ℕ)
    (l : List TeamSeedRef) :
    (consolationAppend p w l).elimination_log = p.elimination_log := by
  unfold consolationAppend
  split <;> rfl

lemma consolationAppend_placements (p : PlayoffsState) (w : ℕ)
    (l : List TeamSeedRef) :
    (consolationAppend p w l).placements = p.placements := by
  unfold consolationAppend
  split <;> rfl

lemma consolationAppend_finalized_at (p : PlayoffsState) (w : ℕ)
    (l : List TeamSeedRef) :
    (consolationAppend p w l).finalized_at = p.finalized_at := by
  unfold consolationAppend
  split <;> rfl

/-- **C5 (amended).** Resolving the final playoff round (the first round
bound to the finalized week, not yet completed, whose index equals the
number of rounds) marks the bracket completed, sets the phase to
`finished`, appends the round's losers to the elimination log, stamps
`finalized_at`, and stores the placement list built from the champion, the
runner-up, and then the logged losers in ASCENDING order of their
elimination round (ties among same-round eliminations kept in recorded
order), deduplicated by normalized name. -/
theorem c5_final_round_correct (s : LeagueState) (p : PlayoffsState)
    (w : ℕ) (today : Day) (ri : ℕ) (hri : ri < p.rounds.length)
    (hp : s.playoffs = some p)
    (hfind : p.rounds.findIdx? (fun rnd => rnd.week_index == w) = some ri)
    (hstatus : (p.rounds.get ⟨ri, hri⟩).status ≠ sCompleted)
    (hfinal : (p.rounds.get ⟨ri, hri⟩).index = p.rounds.length) :
    (_finalize_playoff_round s w today).phase = sFinished ∧
    ∃ q, (_finalize_playoff_round s w today).playoffs = some q ∧
      q.completed = true ∧
      q.elimination_log = p.elimination_log ++
        [{ round := (p.rounds.get ⟨ri, hri⟩).index,
           losers := (finalizeMatches s.weekly_results
             (p.rounds.get ⟨ri, hri⟩).matchups).2.2 }] ∧
      q.placements = some (buildPlacements
        (((finalizeMatches s.weekly_results
            (p.rounds.get ⟨ri, hri⟩).matchups).1.head?.bind
              (fun m => m.winner)).bind (fun x => x.team))
        (((finalizeMatches s.weekly_results
            (p.rounds.get ⟨ri, hri⟩).matchups).1.head?.bind
              (fun m => m.loser)).bind (fun x => x.team))
        (p.elimination_log ++
          [{ round := (p.rounds.get ⟨ri, hri⟩).index,
             losers := (finalizeMatches s.weekly_results
               (p.rounds.get ⟨ri, hri⟩).matchups).2.2 }])) ∧
      q.finalized_at = some today := by
  have hgetD : p.rounds.getD ri emptyRound = p.rounds.get ⟨ri, hri⟩ :=
    List.getD_eq_get p.rounds emptyRound hri
  have hnotlt : ¬ (p.rounds.get ⟨ri, hri⟩).index <
      (p.rounds.set ri { p.rounds.get ⟨ri, hri⟩ with
        status := sCompleted
        matchups := (finalizeMatches s.weekly_results
          (p.rounds.get ⟨ri, hri⟩).matchups).1 }).length := by
    rw [List.length_set, hfinal]
    exact lt_irrefl _
  simp only [_finalize_playoff_round, hp, hfind, hgetD, if_neg hstatus,
    dif_neg hnotlt]
  constructor
  · trivial
  · refine ⟨_, rfl, ?_, ?_, ?_, ?_⟩
    · rw [consolationAppend_completed]
    · rw [consolationAppend_elimination_log]
    · rw [consolationAppend_placements]
    · rw [consolationAppend_finalized_at]

/-- Witness for C5: the amended theorem applied to the concrete six-team
final-round state. -/
theorem c5_final_round_witness :
    (_finalize_playoff_round stC5 9 100).phase = sFinished :=
  (c5_final_round_correct stC5 playoffsC5 9 100 2 (by decide) rfl (by rfl)
    (by decide) (by decide)).1

/-! ## Settings and scoring profiles (`src/config.py`) -/

structure ScoringProfile where
  name : String
  weights : List (String × ℚ)
  deriving DecidableEq, Repr

def kOREB : String := "OREB"
def kDREB : String := "DREB"
def kTREB : String := "TREB"
def kSTL : String := "STL"
def kBLK : String := "BLK"
def k3PM : String := "3PM"
def k3PA : String := "3PA"
def kMPG : String := "MPG"
def kFG_MISS : String := "FG_MISS"
def kFTM : String := "FTM"
def kFTA : String := "FTA"
def kFT_MISS : String := "FT_MISS"
def kTO : String := "TO"
def kDD : String := "DD"
def kTD : String := "TD"
def kPF : String := "PF"
def kFT_PCT : String := "FT_PCT"
def kPLAYER_ID : String := "PLAYER_ID"

def sNineCat : String := "nine_cat"
def sPointsLeagueName : String := "Points league (balanced)"
def sNineCatName : String := "Nine category rotisserie"

/-- The `points_league` profile of `Settings.scoring_profiles`. -/
def pointsLeagueProfile : ScoringProfile :=
  { name := sPointsLeagueName
    weights := [(kPTS, 1), (kOREB, 12/10), (kDREB, 1), (kTREB, 0),
      (kAST, 15/10), (kSTL, 3), (kBLK, 3), (k3PM, 1), (k3PA, 0), (kMPG, 0),
      (kFGM, 1), (kFGA, -45/100), (kFG_MISS, 0), (kFTM, 1), (kFTA, -75/100),
      (kFT_MISS, 0), (kTO, -1), (kDD, 3), (kTD, 5), (kPF, 0)] }

/-- The `nine_cat` profile of `Settings.scoring_profiles`. -/
def nineCatProfile : ScoringProfile :=
  { name := sNineCatName
    weights := [(kFG_PCT, 1), (kFT_PCT, 1), (k3PM, 1), (kPTS, 1), (kTREB, 1),
      (kAST, 1), (kSTL, 1), (kBLK, 1), (kTO, -1), (kDD, 0), (kTD, 0),
      (kOREB, 0), (kDREB, 0), (k3PA, 0), (kMPG, 0), (kFGM, 0), (kFGA, 0),
      (kFG_MISS, 0), (kFTM, 0), (kFTA, 0), (kFT_MISS, 0), (kPF, 0)] }

def settings_scoring_profiles : List (String × ScoringProfile) :=
  [(sPointsLeague, pointsLeagueProfile), (sNineCat, nineCatProfile)]

def settings_default_scoring_profile : String := sPointsLeague

def errUnknownProfile : String := "Unknown scoring profile"

/-- `Settings.resolve_scoring_profile` (a falsy name falls back to the
default; an unknown name raises). -/
def resolve_scoring_profile (name : Option String) : Except String ScoringProfile :=
  let n := match name with
    | none => settings_default_scoring_profile
    | some s => if s = sEmpty then settings_default_scoring_profile else s
  match lookupKV n settings_scoring_profiles with
  | some p => Except.ok p
  | none => Except.error errUnknownProfile

/-! ## Player stats, game logs and daily team results (`simulate_day`) -/

/-- One row of the `player_stats` frame (`_player_lookup` keeps
`PLAYER_ID`, `PLAYER_NAME` and `TEAM_ABBREVIATION`). -/
structure PlayerStatRow where
  player_id : ℕ
  player_name : String
  team : String := ""
  deriving DecidableEq, Repr

/-- `league._player_lookup` (a dict keyed by player id; later rows win). -/
def _player_lookup (player_stats : List PlayerStatRow) :
    List (ℕ × PlayerStatRow) :=
  player_stats.foldl (fun acc r => upsertKV r.player_id (fun _ => r) r acc) []

/-- The game-log frame: a date per row next to the stat columns, so that
`game_logs[game_logs["GAME_DATE"].dt.date == current_date]` is a row
filter. -/
structure GameLogs where
  cols : List String
  rows : List (Day × List (String × ℚ))
  deriving DecidableEq, Repr

/-- `int(...)` of a nonnegative numeric cell (player ids). -/
def pyIntNat (q : ℚ) : ℕ := (q.num / (q.den : ℤ)).toNat

/-- The per-team inner loop of `simulate_day`: filter the fantasy frame to
the roster, map player ids to scores (later rows win, as in the source's
dict comprehension), then accumulate contributions in roster order. -/
def teamResultOf (fantasy_logs : Table) (lookup : List (ℕ × PlayerStatRow))
    (team : String) (player_ids : List ℕ) : TeamResult :=
  if player_ids.isEmpty then { team := team, total := 0, players := [] }
  else
    let team_df := fantasy_logs.rows.filter
      (fun r => pyIntNat (rowVal r kPLAYER_ID) ∈ player_ids)
    let player_scores : List (ℕ × ℚ) := team_df.foldl
      (fun acc r => upsertKV (pyIntNat (rowVal r kPLAYER_ID))
        (fun _ => rowVal r kFANTASY_POINTS) (rowVal r kFANTASY_POINTS) acc) []
    let contributions : List PlayerContribution := player_ids.map (fun pid =>
      let meta := lookupKV pid lookup
      { player_id := pid
        player_name := meta.map (fun m => m.player_name)
        team := meta.map (fun m => m.team)
        fantasy_points := (lookupKV pid player_scores).getD 0
        played := (lookupKV pid player_scores).isSome })
    { team := team
      total := (contributions.map (fun c => c.fantasy_points)).sum
      players := contributions }

/-- `team_results.sort(key=lambda item: item.total, reverse=True)`:
descending by total, stable. -/
def trGE (a b : TeamResult) : Prop := b.total ≤ a.total

instance : DecidableRel trGE := fun a b =>
  inferInstanceAs (Decidable (b.total ≤ a.total))

/-! ## Playoff initialization (`_round_definitions` … `_initialize_playoffs`) -/

/-- `str.lower()` over the character list (kernel-friendly). -/
def strLower (s : String) : String := ⟨s.data.map Char.toLower⟩

def listMinD (l : List ℕ) : ℕ :=
  match l with
  | [] => 0
  | x :: xs => xs.foldl min x

/-- `league._playoffs_should_start`. -/
def _playoffs_should_start (s : LeagueState) (week_index : Option ℕ) : Bool :=
  if ¬ PlayoffConfig.is_enabled s.playoffs_config ∨
      s.playoffs_config.week_indices.isEmpty then false
  else
    match s.playoffs with
    | some p =>
        if p.started then false
        else week_index == some (listMinD s.playoffs_config.week_indices)
    | none => week_index == some (listMinD s.playoffs_config.week_indices)

/-- One bracket-shape round (`_round_definitions` entries). -/
structure RoundDef where
  pairs : List (PlayoffSource × PlayoffSource)
  note : Option String := none
  deriving DecidableEq, Repr

def sReseedNote : String := "Matchups in this round are subject to reseeding."
def sR1M2 : String := "R1M2"
def sR1M3 : String := "R1M3"
def sR1M4 : String := "R1M4"

/-- `league._round_definitions` (4-, 6- and 8-team bracket shapes; any other
count raises). -/
def _round_definitions (team_count : ℕ) (reseed : Bool) :
    Except String (List RoundDef) :=
  let reseed_note := if reseed then some sReseedNote else none
  if team_count = 4 then
    Except.ok
      [{ pairs := [(.seed 1, .seed 4), (.seed 2, .seed 3)] },
       { pairs := [(.winner sR1M1, .winner sR1M2)] }]
  else if team_count = 6 then
    Except.ok
      [{ pairs := [(.seed 3, .seed 6), (.seed 4, .seed 5)] },
       { pairs := [(.seed 1, .winner sR1M2), (.seed 2, .winner sR1M1)]
         note := reseed_note },
       { pairs := [(.winner sR2M1, .winner sR2M2)] }]
  else if team_count = 8 then
    Except.ok
      [{ pairs := [(.seed 1, .seed 8), (.seed 4, .seed 5),
                   (.seed 3, .seed 6), (.seed 2, .seed 7)] },
       { pairs := [(.winner sR1M1, .winner sR1M2),
                   (.winner sR1M3, .winner sR1M4)]
         note := reseed_note },
       { pairs := [(.winner sR2M1, .winner sR2M2)] }]
  else Except.error errUnsupportedCount

def sFinalLbl : String := "Final"
def sSemifinals : String := "Semifinals"
def sFirstRound : String := "First Round"
def sQuarterfinals : String := "Quarterfinals"
def sRoundLit : String := "Round "
def sRLit : String := "R"
def sMLit : String := "M"

/-- `league._round_label`. -/
def _round_label (round_index total_rounds playoff_teams : ℕ) : String :=
  if total_rounds ≤ 1 then sFinalLbl
  else if total_rounds = 2 then
    (if round_index = 1 then sSemifinals else sFinalLbl)
  else if total_rounds = 3 then
    (if playoff_teams = 6 then [sFirstRound, sSemifinals, sFinalLbl]
     else [sQuarterfinals, sSemifinals, sFinalLbl]).getD (round_index - 1) sEmpty
  else sRoundLit ++ toString round_index

/-- `f"R{round_index}M{match_idx}"`. -/
def matchIdOf (round_index match_idx : ℕ) : String :=
  sRLit ++ toString round_index ++ sMLit ++ toString match_idx

def errPlayoffsNotEnabled : String := "Playoffs are not enabled for this league."
def errMissingScheduledWeeks : String :=
  "Playoff configuration is missing scheduled weeks."
def errNotEnoughTeams : String :=
  "Not enough teams available to seed the playoffs."

/-- The seed team of a source, via the seed lookup (`_seed_summary` composed
with `.get("team")` as consumed by `_generate_playoff_structure`). -/
def seedSourceTeam (seed_lookup : List (ℕ × SeedEntry)) :
    PlayoffSource → Option String
  | .seed n => (lookupKV n seed_lookup).map SeedEntry.teamName
  | _ => none

def seedSourceSeed : PlayoffSource → Option ℕ
  | .seed n => some n
  | _ => none

/-- The structural output of `_prepare_playoff_preview_components` /
`_generate_playoff_structure` (the presentation-only `description`,
`metadata` and `seed_lookup` payloads are omitted: nothing downstream reads
them). -/
structure PreviewParts where
  seeds : List SeedEntry
  rounds : List PlayoffRound
  consolation_teams : List StandingRow
  deriving DecidableEq, Repr

/-- `league._prepare_playoff_preview_components` /
`_generate_playoff_structure`. -/
def _generate_playoff_structure (s : LeagueState) :
    Except String PreviewParts :=
  let config := s.playoffs_config
  if ¬ PlayoffConfig.is_enabled config then Except.error errPlayoffsNotEnabled
  else if config.week_indices.isEmpty then Except.error errMissingScheduledWeeks
  else
    let start_week := listMinD config.week_indices
    let cutoff : Option ℕ := if 0 < start_week then some (start_week - 1) else none
    let standings := compute_head_to_head_standings s cutoff
    let nteams := config.teams.getD 0
    if standings.length < nteams then Except.error errNotEnoughTeams
    else
      let seeds := (standings.take nteams).enum.map
        (fun p => SeedEntry.mk p.2 (p.1 + 1))
      let seed_lookup := seeds.map (fun e => (e.seed, e))
      match _round_definitions nteams config.reseed with
      | Except.error e => Except.error e
      | Except.ok rds =>
          let total_rounds := rds.length
          let rounds : List PlayoffRound := rds.enum.map (fun rp =>
            let round_index := rp.1 + 1
            let rd := rp.2
            let week_idx := config.week_indices.getD
              (min (round_index - 1) (config.week_indices.length - 1)) 0
            { index := round_index
              name := _round_label round_index total_rounds nteams
              week_index := week_idx
              note := rd.note
              matchups := rd.pairs.enum.map (fun pp =>
                { id := matchIdOf round_index (pp.1 + 1)
                  sources := { home := pp.2.1, away := pp.2.2 }
                  home_seed := seedSourceSeed pp.2.1
                  away_seed := seedSourceSeed pp.2.2
                  home_team := seedSourceTeam seed_lookup pp.2.1
                  away_team := seedSourceTeam seed_lookup pp.2.2
                  status := sScheduled }) })
          Except.ok
            { seeds := seeds
              rounds := rounds
              consolation_teams :=
                if config.consolation then standings.drop nteams else [] }

/-- `league._initialize_playoffs`: install the generated bracket, move the
phase to `playoffs` and activate the first round. -/
def _initialize_playoffs (s : LeagueState) : Except String LeagueState :=
  match _generate_playoff_structure s with
  | Except.error e => Except.error e
  | Except.ok parts =>
      let rounds_state := parts.rounds.map (fun rd =>
        { rd with
          status := sPending
          matchups := rd.matchups.map (fun m =>
            { m with
              matchup_id := some (sPlayoffPrefix ++ strLower m.id)
              status := sScheduled
              result := none }) })
      let s₁ := { s with
        playoffs := some
          { started := true
            completed := false
            current_round := 1
            config := s.playoffs_config
            seeds := parts.seeds.map (fun e => (e.seed, e))
            rounds := rounds_state
            consolation :=
              { enabled := s.playoffs_config.consolation
                teams := parts.consolation_teams
                results := [] } }
        phase := sPlayoffs }
      match rounds_state with
      | [] => Except.ok s₁
      | r0 :: _ =>
          let pr := _prepare_next_round s₁ r0 []
          let po₁ := match pr.1.playoffs with
            | some p => some
                { p with rounds := p.rounds.set 0 { pr.2 with status := sActive } }
            | none => none
          Except.ok { pr.1 with playoffs := po₁ }

/-- `league._maybe_initialize_playoffs`. -/
def _maybe_initialize_playoffs (s : LeagueState) (week_index : Option ℕ) :
    Except String LeagueState :=
  if _playoffs_should_start s week_index then _initialize_playoffs s
  else Except.ok s

/-- `league._ensure_playoff_round_active`: activate the pending round bound
to the week and apply it to the week structures. -/
def _ensure_playoff_round_active (s : LeagueState) (week_index : Option ℕ) :
    LeagueState :=
  match s.playoffs, week_index with
  | some p, some w =>
      if w = 0 then s
      else
        match p.rounds.findIdx? (fun rnd => rnd.week_index == w) with
        | none => s
        | some ri =>
            let rnd := p.rounds.getD ri emptyRound
            if rnd.status = sPending then
              let rnd₁ := { rnd with status := sActive }
              let s₁ := { s with
                playoffs := some { p with rounds := p.rounds.set ri rnd₁ } }
              let ap := _apply_playoff_round_to_week s₁ rnd₁
              let po₂ := match ap.1.playoffs with
                | some p₂ => some { p₂ with rounds := p₂.rounds.set ri ap.2 }
                | none => none
              { ap.1 with playoffs := po₂ }
            else s
  | _, _ => s

/-! ## Weekly totals and the day simulation (`simulate_day` and helpers) -/

/-- `league._get_playoff_matchups_for_week`: the week's bound playoff-round
matchups as plain week matchups (`None` when there is no round or it has no
matchups; the presentation-only `"_source"` back-reference is omitted). -/
def _get_playoff_matchups_for_week (s : LeagueState) (week_index : Option ℕ) :
    Option (List Matchup) :=
  match s.playoffs, week_index with
  | some p, some w =>
      match p.rounds.find? (fun rnd => rnd.week_index == w) with
      | none => none
      | some rnd =>
          let seeds_lookup := p.seeds
          let matchups : List Matchup := rnd.matchups.map (fun m =>
            { id := playoffMatchupIdOf m
              teams :=
                [{ name := applyRoundTeamName seeds_lookup m.home_team m.home_seed },
                 { name := applyRoundTeamName seeds_lookup m.away_team m.away_seed }] })
          if matchups.isEmpty then none else some matchups
  | _, _ => none

/-- `league._ensure_matchup_entry`: the stored entry when present, else a
fresh entry seeded from the matchup's team names (empty names skipped),
appended to the weekly results. -/
def _ensure_matchup_entry (weekly_results : List (String × WREntry))
    (matchup : Matchup) (week_index : ℕ) :
    List (String × WREntry) × WREntry :=
  match lookupKV matchup.id weekly_results with
  | some e => (weekly_results, e)
  | none =>
      let team_entries := matchup.teams.foldl (fun acc ti =>
        if ti.name = sEmpty then acc
        else upsertKV ti.name (fun _ => freshTeamEntry ti.name)
          (freshTeamEntry ti.name) acc) []
      let entry : WREntry :=
        { matchup_id := matchup.id
          week_index := week_index
          teams := team_entries
          days := [] }
      (weekly_results ++ [(matchup.id, entry)], entry)

/-- One team result folded into the weekly results (the loop body of
`_update_weekly_totals`): totals and daily totals accumulate additively,
player records accumulate points and games. -/
def updTotalsStep (current_date : Day) (week_index_val : ℕ)
    (matchups : List Matchup) (wr : List (String × WREntry))
    (result : TeamResult) : List (String × WREntry) :=
  match matchups.find? (fun mu => mu.teams.any (fun t =>
      _normalize_team_name (some t.name) == _normalize_team_name (some result.team))) with
  | none => wr
  | some target =>
      let ensured := _ensure_matchup_entry wr target week_index_val
      upsertKV target.id (fun e =>
        let teams₁ := upsertKV result.team (fun te =>
          let te₁ := { te with
            total := te.total + result.total
            daily_totals := upsertKV current_date (fun v => v + result.total)
              0 te.daily_totals }
          let players₁ := result.players.foldl (fun pm player =>
            upsertKV player.player_id (fun rec =>
              { rec with
                fantasy_points := rec.fantasy_points + player.fantasy_points
                games_played := rec.games_played +
                  (if player.played then 1 else 0) })
              { player_id := player.player_id
                player_name := player.player_name
                team := player.team
                fantasy_points := 0
                games_played := 0 } pm) te₁.players
          { te₁ with players := players₁ }) (freshTeamEntry result.team) e.teams
        let days₁ := if current_date ∈ e.days then e.days
          else e.days ++ [current_date]
        { e with teams := teams₁, days := days₁ }) ensured.2 ensured.1

/-- The matchup list consulted by `_update_weekly_totals`
(`_get_playoff_matchups_for_week(...) or week.get("matchups") or []`). -/
def weekMatchupsFor (s : LeagueState) (week : Week) : List Matchup :=
  match _get_playoff_matchups_for_week s (some week.index) with
  | some ms => ms
  | none => week.matchups

/-- `league._update_weekly_totals`. -/
def _update_weekly_totals (s : LeagueState) (week : Week)
    (team_results : List TeamResult) (current_date : Day) : LeagueState :=
  let wr := team_results.foldl
    (updTotalsStep current_date week.index (weekMatchupsFor s week))
    s.weekly_results
  { s with weekly_results := wr }

/-- `league._finalize_week`: resolve the bound playoff round (when playoffs
are live) and mark the week completed. -/
def _finalize_week (s : LeagueState) (week_index : ℕ) (today : Day) :
    LeagueState :=
  if ¬ (1 ≤ week_index ∧ week_index ≤ s.weeks.length) then s
  else
    let week := s.weeks.getD (week_index - 1) emptyWeek
    if week.status = some sCompleted then s
    else
      let s₁ :=
        if PlayoffConfig.is_enabled s.playoffs_config ∧
            week_index ∈ s.playoffs_config.week_indices ∧ s.playoffs.isSome then
          _finalize_playoff_round s week_index today
        else s
      let wk₁ := { s₁.weeks.getD (week_index - 1) emptyWeek with
        status := some sCompleted }
      { s₁ with weeks := s₁.weeks.set (week_index - 1) wk₁ }

/-- `league._maybe_finalize_week` (the week's dates are always valid in the
typed model, so the ISO-parsing guard is inert). -/
def _maybe_finalize_week (s : LeagueState) (week : Option Week)
    (current_date : Day) (today : Day) : LeagueState :=
  match week with
  | none => s
  | some w =>
      if w.index = 0 then s
      else if w.status = some sCompleted then s
      else if w.endDay ≤ current_date then _finalize_week s w.index today
      else s

def errSeasonCompleted : String := "The season simulation has already completed."
def errLeagueCompleted : String := "This league has completed the playoffs."
def errDraftBeforeSim : String := "Complete the draft before simulating games."
def errAlreadySimulated : String := "Today's games have already been simulated."
def errDraftBeforeAdvance : String := "Complete the draft before advancing the season."
def errPlayFirst : String := "Play today's games before advancing to the next day."

/-- `league.simulate_day` (`today` models `date.today()` inside playoff
finalization; persistence via `save_league_state` is outside the model).
Returns the mutated state together with the day record or the raised
error — mutations made before a raise are kept, as in the source where the
in-memory state object is mutated in place. -/
def simulate_day (game_logs : GameLogs) (player_stats : List PlayerStatRow)
    (scoring_profile_key : Option String) (schedule_df : List ScheduleGame)
    (today : Day) (s : LeagueState) : LeagueState × Except String DayRecord :=
  match LeagueState.current_date s with
  | none => (s, Except.error errSeasonCompleted)
  | some current_date =>
      if s.phase = sFinished then (s, Except.error errLeagueCompleted)
      else if draft_is_active s then (s, Except.error errDraftBeforeSim)
      else if ¬ s.awaiting_simulation then (s, Except.error errAlreadySimulated)
      else
        let week₀ := _find_week_for_date s.weeks current_date
        match _maybe_initialize_playoffs s (week₀.map (fun w => w.index)) with
        | Except.error e => (s, Except.error e)
        | Except.ok s₁ =>
            let week₁ := _find_week_for_date s₁.weeks current_date
            let s₂ := _ensure_playoff_round_active s₁ (week₁.map (fun w => w.index))
            let key := match scoring_profile_key with
              | some k => if k = sEmpty then s₂.scoring_profile_key else k
              | none => s₂.scoring_profile_key
            match resolve_scoring_profile (some key) with
            | Except.error e => (s₂, Except.error e)
            | Except.ok scoring =>
                let day_logs : Table :=
                  ⟨game_logs.cols,
                   (game_logs.rows.filter (fun r => r.1 = current_date)).map
                     (fun r => r.2)⟩
                match compute_fantasy_points day_logs scoring.weights with
                | Except.error e => (s₂, Except.error e)
                | Except.ok fantasy_logs =>
                    let lookup := _player_lookup player_stats
                    let team_results := s₂.rosters.map
                      (fun tp => teamResultOf fantasy_logs lookup tp.1 tp.2)
                    let sorted := List.insertionSort trGE team_results
                    -- the source's `week` aliases the week dict mutated by
                    -- `_ensure_playoff_round_active`; re-finding it in `s₂`
                    -- yields that mutated value
                    let week₂ := _find_week_for_date s₂.weeks current_date
                    let s₃ := match week₂ with
                      | some w => _update_weekly_totals s₂ w sorted current_date
                      | none => s₂
                    let scoreboard := (daily_scoreboard current_date schedule_df).map
                      (fun g => ({ game := g, simulated := true } : ScoreboardEntry))
                    let day_record : DayRecord :=
                      { date := current_date
                        scoring_profile := scoring.name
                        week_index := week₂.map (fun w => w.index)
                        team_results := sorted
                        nba_scoreboard := scoreboard }
                    let hist₄ := s₃.history.filter
                      (fun r => r.date ≠ current_date) ++ [day_record]
                    let s₄ := { s₃ with history := hist₄ }
                    let s₅ := _maybe_finalize_week s₄ week₂ current_date today
                    ({ s₅ with awaiting_simulation := false },
                     Except.ok day_record)

/-- `league.advance_league_day`. -/
def advance_league_day (s : LeagueState) : LeagueState × Except String Unit :=
  if draft_is_active s then (s, Except.error errDraftBeforeAdvance)
  else if s.phase = sFinished then (s, Except.error errLeagueCompleted)
  else if s.awaiting_simulation ∧ (LeagueState.current_date s).isSome then
    (s, Except.error errPlayFirst)
  else if (LeagueState.current_date s).isNone then
    ({ s with awaiting_simulation := false }, Except.ok ())
  else if s.calendar.length - 1 ≤ s.current_index then
    ({ s with current_index := s.calendar.length, awaiting_simulation := false },
     Except.ok ())
  else
    ({ s with current_index := s.current_index + 1, awaiting_simulation := true },
     Except.ok ())

/-! ## Loading and resetting (`LeagueState.from_dict`, `reset_league_state`) -/

/-- Ascending date order of history records for the replay
(`sorted(history, key=lambda record: record.get("date") or "")`; dates are
always present in the typed model). -/
def dateLE (a b : DayRecord) : Prop := a.date ≤ b.date

instance : DecidableRel dateLE := fun a b =>
  inferInstanceAs (Decidable (a.date ≤ b.date))

/-- One history record replayed into the rebuilt weekly results (the loop
body of `from_dict`): skip recordless dates and dateless weeks, filter out
empty team names, and patch a missing `week_index` on the record. -/
def replayRecord (s : LeagueState) (rec : DayRecord) : LeagueState :=
  match _find_week_for_date s.weeks rec.date with
  | none => s
  | some week =>
      let team_results := rec.team_results.filter (fun tr => tr.team ≠ sEmpty)
      if team_results.isEmpty then s
      else
        let s₁ := _update_weekly_totals s week team_results rec.date
        let hist := s₁.history.map (fun r =>
          if r.date = rec.date ∧ r.week_index = none then
            { r with week_index := some week.index }
          else r)
        { s₁ with history := hist }

/-- `LeagueState.from_dict` on an already-typed payload: normalize the
awaiting flag, rebuild the week structures, validate the playoff
configuration (swallowing a failure into the default config), then replay
the date-sorted history through `_update_weekly_totals`. -/
def LeagueState.from_dict (raw : LeagueState) : LeagueState :=
  let awaiting := if (LeagueState.current_date raw).isNone then false
    else raw.awaiting_simulation
  let base := _initialize_week_structures raw.calendar raw.team_names
  let cfg := match validate_playoff_config raw.team_count base.1
      raw.playoffs_config with
    | Except.ok c => c
    | Except.error _ => {}
  let s₀ := { raw with
    awaiting_simulation := awaiting
    weeks := base.1
    weekly_results := base.2
    playoffs_config := cfg }
  (List.insertionSort dateLE raw.history).foldl replayRecord s₀

/-- Descending `FANTASY_POINTS` order of stat rows
(`sort_values("FANTASY_POINTS", ascending=False)`; the model's sort is
stable where pandas leaves ties unspecified). -/
def fpGE (a b : List (String × ℚ)) : Prop :=
  rowVal b kFANTASY_POINTS ≤ rowVal a kFANTASY_POINTS

instance : DecidableRel fpGE := fun a b =>
  inferInstanceAs (Decidable (rowVal b kFANTASY_POINTS ≤ rowVal a kFANTASY_POINTS))

/-- Skip candidate indices whose player is already taken (the inner `while`
of `_auto_draft_teams`). -/
def skipTaken (cands : List ℕ) (taken : List ℕ) (i : ℕ) : ℕ :=
  if h : i < cands.length ∧ cands.getD i 0 ∈ taken then
    skipTaken cands taken (i + 1)
  else i
termination_by cands.length - i
decreasing_by omega

/-- The draft-loop accumulator of `_auto_draft_teams`. -/
structure DraftAcc where
  rosters : List (String × List ℕ)
  index : ℕ
  taken : List ℕ
  assigned_any : Bool
  early : Bool

/-- One team's slot of a draft pass. -/
def draftTeamStep (roster_size : ℕ) (cands : List ℕ) (acc : DraftAcc)
    (team : String) : DraftAcc :=
  if acc.early then acc
  else
    let roster := (lookupKV team acc.rosters).getD []
    if roster_size ≤ roster.length then acc
    else
      let i := skipTaken cands acc.taken acc.index
      if cands.length ≤ i then { acc with index := i, early := true }
      else
        let pid := cands.getD i 0
        { rosters := upsertKV team (fun r => r ++ [pid]) [pid] acc.rosters
          index := i + 1
          taken := acc.taken ++ [pid]
          assigned_any := true
          early := false }

/-- The `while True` passes of `_auto_draft_teams`. The fuel bounds the
number of passes; every continuing pass drafts at least one player, so
`roster_size * teams + 1` passes always suffice and the fuel never runs
out on the source's inputs. -/
def draftLoop (roster_size : ℕ) (cands : List ℕ) (team_list : List String) :
    ℕ → DraftAcc → List (String × List ℕ)
  | 0, acc => acc.rosters
  | fuel + 1, acc =>
      let acc₁ := team_list.foldl (draftTeamStep roster_size cands)
        { acc with assigned_any := false }
      if acc₁.early then acc₁.rosters
      else if acc₁.assigned_any then draftLoop roster_size cands team_list fuel acc₁
      else acc₁.rosters

/-- `league._auto_draft_teams`. -/
def _auto_draft_teams (player_stats : Table) (team_names : List String)
    (roster_size : ℕ) (scoring_weights : List (String × ℚ))
    (existing_rosters : Option (List (String × List ℕ)))
    (ordered_player_ids : Option (List ℕ)) :
    Except String (List (String × List ℕ)) :=
  match compute_fantasy_points player_stats scoring_weights with
  | Except.error e => Except.error e
  | Except.ok fantasy_df =>
      let sortedRows := List.insertionSort fpGE fantasy_df.rows
      let candidate_ids := match ordered_player_ids with
        | some l =>
            if l.isEmpty then sortedRows.map (fun r => pyIntNat (rowVal r kPLAYER_ID))
            else l
        | none => sortedRows.map (fun r => pyIntNat (rowVal r kPLAYER_ID))
      let rosters₀ := team_names.map (fun t =>
        (t, match existing_rosters with
            | some er => (lookupKV t er).getD []
            | none => ([] : List ℕ)))
      let taken₀ := rosters₀.flatMap (fun p => p.2)
      Except.ok (draftLoop roster_size candidate_ids team_names
        (roster_size * team_names.length + 1)
        { rosters := rosters₀, index := 0, taken := taken₀,
          assigned_any := false, early := false })

def sPendingDraft : String := "pending"

/-- `league._initialize_draft_state`. -/
def _initialize_draft_state (player_stats : Table)
    (scoring_profile : ScoringProfile) (roster_size : ℕ) (user_team : String) :
    Except String DraftState :=
  match compute_fantasy_points player_stats scoring_profile.weights with
  | Except.error e => Except.error e
  | Except.ok fantasy_df =>
      Except.ok
        { status := sPendingDraft
          roster_size := roster_size
          user_team := some user_team
          user_picks := []
          taken_ids := []
          ordered_ids := (List.insertionSort fpGE fantasy_df.rows).map
            (fun r => pyIntNat (rowVal r kPLAYER_ID)) }

/-- `league.reset_league_state` (`calendar` models `season_dates()`,
`player_stats` the season-average frame; persistence is outside the
model). -/
def reset_league_state (calendar : List Day) (player_stats : Table)
    (s : LeagueState) : Except String LeagueState :=
  match resolve_scoring_profile (some s.scoring_profile_key) with
  | Except.error e => Except.error e
  | Except.ok scoring =>
      let base := _initialize_week_structures calendar s.team_names
      let cfg := match validate_playoff_config s.team_count base.1
          s.playoffs_config with
        | Except.ok c => c
        | Except.error _ => {}
      let s₁ := { s with
        calendar := calendar
        current_index := 0
        history := []
        awaiting_simulation := true
        weeks := base.1
        weekly_results := base.2
        playoffs_config := cfg
        phase := sRegular
        playoffs := none }
      match s.user_team_name with
      | some ut =>
          if ut = sEmpty then
            match _auto_draft_teams player_stats s.team_names s.roster_size
                scoring.weights none none with
            | Except.error e => Except.error e
            | Except.ok rosters =>
                Except.ok { s₁ with rosters := rosters, draft_state := none }
          else
            match _initialize_draft_state player_stats scoring s.roster_size ut with
            | Except.error e => Except.error e
            | Except.ok ds =>
                Except.ok { s₁ with
                  rosters := s.team_names.map (fun t => (t, ([] : List ℕ)))
                  draft_state := some ds }
      | none =>
          match _auto_draft_teams player_stats s.team_names s.roster_size
              scoring.weights none none with
          | Except.error e => Except.error e
          | Except.ok rosters =>
              Except.ok { s₁ with rosters := rosters, draft_state := none }

/-! ## Phase evolution lemmas -/

lemma apply_round_phase (s : LeagueState) (r : PlayoffRound) :
    (_apply_playoff_round_to_week s r).1.phase = s.phase := by
  simp only [_apply_playoff_round_to_week]
  split <;> rfl

lemma prepare_next_round_phase (s : LeagueState) (nr : PlayoffRound)
    (winners : List TeamSeedRef) :
    (_prepare_next_round s nr winners).1.phase = s.phase := by
  simp only [_prepare_next_round]
  exact apply_round_phase s _

lemma finalize_playoff_round_phase (s : LeagueState) (w : ℕ) (t : Day) :
    (_finalize_playoff_round s w t).phase = s.phase ∨
      (_finalize_playoff_round s w t).phase = sFinished := by
  cases hp : s.playoffs with
  | none =>
      simp only [_finalize_playoff_round, hp]
      exact Or.inl trivial
  | some p =>
      cases hf : p.rounds.findIdx? (fun rnd => rnd.week_index == w) with
      | none =>
          simp only [_finalize_playoff_round, hp, hf]
          exact Or.inl trivial
      | some ri =>
          simp only [_finalize_playoff_round, hp, hf]
          split
          · exact Or.inl rfl
          · split
            · left
              rw [show ∀ (x : LeagueState) (po : Option PlayoffsState),
                  ({ x with playoffs := po } : LeagueState).phase = x.phase
                from fun _ _ => rfl]
              rw [prepare_next_round_phase]
            · exact Or.inr rfl

lemma ensure_round_active_phase (s : LeagueState) (wi : Option ℕ) :
    (_ensure_playoff_round_active s wi).phase = s.phase := by
  cases hp : s.playoffs with
  | none =>
      cases wi <;> simp only [_ensure_playoff_round_active, hp]
  | some p =>
      cases wi with
      | none => simp only [_ensure_playoff_round_active, hp]
      | some w =>
          simp only [_ensure_playoff_round_active, hp]
          split
          · rfl
          · cases hf : p.rounds.findIdx? (fun rnd => rnd.week_index == w) with
            | none => simp only [hf]
            | some ri =>
                simp only [hf]
                split
                · rw [show ∀ (x : LeagueState) (po : Option PlayoffsState),
                      ({ x with playoffs := po } : LeagueState).phase = x.phase
                    from fun _ _ => rfl]
                  rw [apply_round_phase]
                · rfl

lemma initialize_playoffs_phase (s s' : LeagueState)
    (h : _initialize_playoffs s = Except.ok s') : s'.phase = sPlayoffs := by
  rw [_initialize_playoffs] at h
  cases hg : _generate_playoff_structure s with
  | error e => rw [hg] at h; cases h
  | ok parts =>
      rw [hg] at h
      dsimp only at h
      split at h
      · cases h
        rfl
      · cases h
        rw [show ∀ (x : LeagueState) (po : Option PlayoffsState),
            ({ x with playoffs := po } : LeagueState).phase = x.phase
          from fun _ _ => rfl]
        rw [prepare_next_round_phase]

lemma maybe_initialize_playoffs_phase (s s' : LeagueState) (wi : Option ℕ)
    (h : _maybe_initialize_playoffs s wi = Except.ok s') :
    s'.phase = s.phase ∨ s'.phase = sPlayoffs := by
  rw [_maybe_initialize_playoffs] at h
  split at h
  · exact Or.inr (initialize_playoffs_phase s s' h)
  · cases h
    exact Or.inl rfl

lemma update_weekly_totals_phase (s : LeagueState) (w : Week)
    (tr : List TeamResult) (d : Day) :
    (_update_weekly_totals s w tr d).phase = s.phase := rfl

lemma finalize_week_phase (s : LeagueState) (w : ℕ) (t : Day) :
    (_finalize_week s w t).phase = s.phase ∨
      (_finalize_week s w t).phase = sFinished := by
  simp only [_finalize_week]
  split
  · exact Or.inl rfl
  · split
    · exact Or.inl rfl
    · rw [show ∀ (x : LeagueState) (wk : List Week),
          ({ x with weeks := wk } : LeagueState).phase = x.phase
        from fun _ _ => rfl]
      split
      · exact finalize_playoff_round_phase s w t
      · exact Or.inl rfl

lemma maybe_finalize_week_phase (s : LeagueState) (w : Option Week)
    (cd t : Day) :
    (_maybe_finalize_week s w cd t).phase = s.phase ∨
      (_maybe_finalize_week s w cd t).phase = sFinished := by
  cases w with
  | none => exact Or.inl rfl
  | some wk =>
      simp only [_maybe_finalize_week]
      split
      · exact Or.inl rfl
      · split
        · exact Or.inl rfl
        · split
          · exact finalize_week_phase s wk.index t
          · exact Or.inl rfl

lemma record_history_phase (x : LeagueState) (h : List DayRecord) :
    ({ x with history := h } : LeagueState).phase = x.phase := rfl

lemma record_awaiting_phase (x : LeagueState) (b : Bool) :
    ({ x with awaiting_simulation := b } : LeagueState).phase = x.phase := rfl

lemma simulate_day_phase (gl : GameLogs) (ps : List PlayerStatRow)
    (key : Option String) (sch : List ScheduleGame) (t : Day)
    (s : LeagueState) :
    ((simulate_day gl ps key sch t s).1).phase = s.phase ∨
      ((simulate_day gl ps key sch t s).1).phase = sPlayoffs ∨
      ((simulate_day gl ps key sch t s).1).phase = sFinished := by
  cases hcd : LeagueState.current_date s with
  | none =>
      simp only [simulate_day, hcd]
      exact Or.inl trivial
  | some d =>
      simp only [simulate_day, hcd]
      split
      · exact Or.inl rfl
      · split
        · exact Or.inl rfl
        · split
          · exact Or.inl rfl
          · cases hm : _maybe_initialize_playoffs s
                ((_find_week_for_date s.weeks d).map (fun w => w.index)) with
            | error e =>
                simp only [hm]
                exact Or.inl trivial
            | ok s₁ =>
                simp only [hm]
                have h₁ := maybe_initialize_playoffs_phase s s₁ _ hm
                split
                · dsimp only
                  rw [ensure_round_active_phase]
                  rcases h₁ with h | h
                  · exact Or.inl h
                  · exact Or.inr (Or.inl h)
                · split
                  · dsimp only
                    rw [ensure_round_active_phase]
                    rcases h₁ with h | h
                    · exact Or.inl h
                    · exact Or.inr (Or.inl h)
                  · have hfin : ∀ (A : LeagueState) (W : Option Week),
                        (A.phase = s.phase ∨ A.phase = sPlayoffs) →
                        (({ _maybe_finalize_week A W d t with
                            awaiting_simulation := false } : LeagueState).phase = s.phase ∨
                         ({ _maybe_finalize_week A W d t with
                            awaiting_simulation := false } : LeagueState).phase = sPlayoffs ∨
                         ({ _maybe_finalize_week A W d t with
                            awaiting_simulation := false } : LeagueState).phase = sFinished) := by
                      intro A W hA
                      rw [record_awaiting_phase]
                      rcases maybe_finalize_week_phase A W d t with h | h
                      · rcases hA with hA | hA
                        · exact Or.inl (h.trans hA)
                        · exact Or.inr (Or.inl (h.trans hA))
                      · exact Or.inr (Or.inr h)
                    apply hfin
                    rw [record_history_phase]
                    have hmatch : ∀ (W : Option Week) (B : LeagueState)
                        (sorted : List TeamResult),
                        (match W with
                         | some wk => _update_weekly_totals B wk sorted d
                         | none => B).phase = B.phase := by
                      intro W B sorted
                      cases W <;> rfl
                    rw [hmatch]
                    rw [ensure_round_active_phase]
                    exact h₁

lemma advance_league_day_phase (s : LeagueState) :
    ((advance_league_day s).1).phase = s.phase := by
  unfold advance_league_day
  split
  · rfl
  · split
    · rfl
    · split
      · rfl
      · split
        · rfl
        · split <;> rfl

lemma simulate_day_finished (gl : GameLogs) (ps : List PlayerStatRow)
    (key : Option String) (sch : List ScheduleGame) (t : Day)
    (s : LeagueState) (h : s.phase = sFinished) :
    ∃ e, simulate_day gl ps key sch t s = (s, Except.error e) := by
  cases hcd : LeagueState.current_date s with
  | none =>
      refine ⟨errSeasonCompleted, ?_⟩
      simp only [simulate_day, hcd]
  | some d =>
      refine ⟨errLeagueCompleted, ?_⟩
      simp only [simulate_day, hcd]
      rw [if_pos h]

lemma advance_league_day_finished (s : LeagueState) (h : s.phase = sFinished) :
    ∃ e, advance_league_day s = (s, Except.error e) := by
  unfold advance_league_day
  by_cases hd : draft_is_active s = true
  · exact ⟨errDraftBeforeAdvance, by rw [if_pos hd]⟩
  · exact ⟨errLeagueCompleted, by rw [if_neg hd, if_pos h]⟩

/-- The forward order of league phases. -/
def phaseRank (p : String) : ℕ :=
  if p = sRegular then 0 else if p = sPlayoffs then 1 else 2

/-- **C7.** Under `simulate_day` and `advance_league_day` the phase only
moves forward along regular → playoffs → finished, and once it is
`finished` both operations return an error and leave the state unchanged. -/
theorem c7_phase_monotone (gl : GameLogs) (ps : List PlayerStatRow)
    (key : Option String) (sch : List ScheduleGame) (today : Day)
    (s : LeagueState)
    (hphase : s.phase = sRegular ∨ s.phase = sPlayoffs ∨ s.phase = sFinished) :
    phaseRank s.phase ≤
      phaseRank ((simulate_day gl ps key sch today s).1).phase ∧
    phaseRank s.phase ≤ phaseRank ((advance_league_day s).1).phase ∧
    (s.phase = sFinished →
      (∃ e, simulate_day gl ps key sch today s = (s, Except.error e)) ∧
      (∃ e, advance_league_day s = (s, Except.error e))) := by
  refine ⟨?_, ?_, fun h => ⟨simulate_day_finished gl ps key sch today s h,
    advance_league_day_finished s h⟩⟩
  · rcases hphase with h | h | h
    · rw [h]
      show phaseRank sRegular ≤ _
      have h0 : phaseRank sRegular = 0 := by decide
      rw [h0]
      exact Nat.zero_le _
    · rw [h]
      rcases simulate_day_phase gl ps key sch today s with h2 | h2 | h2
      · rw [h2, h]
      · rw [h2]
      · rw [h2]
        have : phaseRank sPlayoffs = 1 ∧ phaseRank sFinished = 2 := by decide
        rw [this.1, this.2]
        omega
    · obtain ⟨e, he⟩ := simulate_day_finished gl ps key sch today s h
      rw [he]
  · rw [advance_league_day_phase]

/-- Witness for C7: the monotonicity theorem applied at a concrete
regular-phase league. -/
theorem c7_phase_witness :
    phaseRank stC8.phase ≤ phaseRank ((advance_league_day stC8).1).phase :=
  (c7_phase_monotone ⟨[], []⟩ [] none [] 0 stC8 (Or.inl rfl)).2.1

/-! ## History evolution lemmas -/

lemma apply_round_history (s : LeagueState) (r : PlayoffRound) :
    (_apply_playoff_round_to_week s r).1.history = s.history := by
  simp only [_apply_playoff_round_to_week]
  split <;> rfl

lemma prepare_next_round_history (s : LeagueState) (nr : PlayoffRound)
    (winners : List TeamSeedRef) :
    (_prepare_next_round s nr winners).1.history = s.history := by
  simp only [_prepare_next_round]
  exact apply_round_history s _

lemma record_playoffs_history (x : LeagueState) (po : Option PlayoffsState) :
    ({ x with playoffs := po } : LeagueState).history = x.history := rfl

lemma finalize_playoff_round_history (s : LeagueState) (w : ℕ) (t : Day) :
    (_finalize_playoff_round s w t).history = s.history := by
  cases hp : s.playoffs with
  | none => simp only [_finalize_playoff_round, hp]
  | some p =>
      cases hf : p.rounds.findIdx? (fun rnd => rnd.week_index == w) with
      | none => simp only [_finalize_playoff_round, hp, hf]
      | some ri =>
          simp only [_finalize_playoff_round, hp, hf]
          split
          · rfl
          · split
            · rw [record_playoffs_history, prepare_next_round_history]
            · rfl

lemma ensure_round_active_history (s : LeagueState) (wi : Option ℕ) :
    (_ensure_playoff_round_active s wi).history = s.history := by
  cases hp : s.playoffs with
  | none => cases wi <;> simp only [_ensure_playoff_round_active, hp]
  | some p =>
      cases wi with
      | none => simp only [_ensure_playoff_round_active, hp]
      | some w =>
          simp only [_ensure_playoff_round_active, hp]
          split
          · rfl
          · cases hf : p.rounds.findIdx? (fun rnd => rnd.week_index == w) with
            | none => simp only [hf]
            | some ri =>
                simp only [hf]
                split
                · rw [record_playoffs_history, apply_round_history]
                · rfl

lemma initialize_playoffs_history (s s' : LeagueState)
    (h : _initialize_playoffs s = Except.ok s') : s'.history = s.history := by
  rw [_initialize_playoffs] at h
  cases hg : _generate_playoff_structure s with
  | error e => rw [hg] at h; cases h
  | ok parts =>
      rw [hg] at h
      dsimp only at h
      split at h
      · cases h
        rfl
      · cases h
        rw [record_playoffs_history, prepare_next_round_history]

lemma maybe_initialize_playoffs_history (s s' : LeagueState) (wi : Option ℕ)
    (h : _maybe_initialize_playoffs s wi = Except.ok s') :
    s'.history = s.history := by
  rw [_maybe_initialize_playoffs] at h
  split at h
  · exact initialize_playoffs_history s s' h
  · cases h
    rfl

lemma update_weekly_totals_history (s : LeagueState) (w : Week)
    (tr : List TeamResult) (d : Day) :
    (_update_weekly_totals s w tr d).history = s.history := rfl

lemma record_weeks_history (x : LeagueState) (wk : List Week) :
    ({ x with weeks := wk } : LeagueState).history = x.history := rfl

lemma finalize_week_history (s : LeagueState) (w : ℕ) (t : Day) :
    (_finalize_week s w t).history = s.history := by
  simp only [_finalize_week]
  split
  · rfl
  · split
    · rfl
    · rw [record_weeks_history]
      split
      · exact finalize_playoff_round_history s w t
      · rfl

lemma maybe_finalize_week_history (s : LeagueState) (w : Option Week)
    (cd t : Day) :
    (_maybe_finalize_week s w cd t).history = s.history := by
  cases w with
  | none => rfl
  | some wk =>
      simp only [_maybe_finalize_week]
      split
      · rfl
      · split
        · rfl
        · split
          · exact finalize_week_history s wk.index t
          · rfl

lemma record_awaiting_history (x : LeagueState) (b : Bool) :
    ({ x with awaiting_simulation := b } : LeagueState).history = x.history := rfl

lemma record_set_history (x : LeagueState) (h : List DayRecord) :
    ({ x with history := h } : LeagueState).history = h := rfl

lemma filter_after_remove (l : List DayRecord) (d : Day) :
    (l.filter (fun r => r.date ≠ d)).filter (fun r => r.date = d) = [] := by
  induction l with
  | nil => rfl
  | cons a l ih =>
      by_cases ha : a.date = d
      · simp [List.filter_cons, ha, ih]
      · simp [List.filter_cons, ha, ih]

/-- Weekly totals accumulate additively: updating with one team result adds
its total on top of the stored matchup total and the stored daily total for
that date (nothing is replaced). -/
lemma upd_totals_additive (s₀ : LeagueState) (w : Week) (r : TeamResult)
    (cd : Day) (target : Matchup) (e : WREntry) (te : TeamEntry)
    (hfind : (weekMatchupsFor s₀ w).find? (fun mu => mu.teams.any (fun tm =>
        _normalize_team_name (some tm.name) ==
          _normalize_team_name (some r.team))) = some target)
    (hentry : lookupKV target.id s₀.weekly_results = some e)
    (hteam : lookupKV r.team e.teams = some te) :
    ∃ e', lookupKV target.id
        (_update_weekly_totals s₀ w [r] cd).weekly_results = some e' ∧
      ∃ te', lookupKV r.team e'.teams = some te' ∧
        te'.total = te.total + r.total ∧
        (lookupKV cd te'.daily_totals).getD 0 =
          (lookupKV cd te.daily_totals).getD 0 + r.total := by
  simp only [_update_weekly_totals, List.foldl, updTotalsStep, hfind,
    _ensure_matchup_entry, hentry]
  rw [lookupKV_upsertKV_self, hentry]
  refine ⟨_, rfl, ?_⟩
  dsimp only [Option.getD]
  rw [lookupKV_upsertKV_self, hteam]
  refine ⟨_, rfl, rfl, ?_⟩
  dsimp only [Option.getD]
  rw [lookupKV_upsertKV_self]
  dsimp only [Option.getD]

/-- **C1 (amended).** A successful `simulate_day` at date `d` replaces the
history record for `d`: the resulting history is the old one without any
`d` records plus the new record, so `d` occurs exactly once. The weekly
matchup totals however accumulate additively — an update adds the team's
day total on top of the stored total and stored daily total, so
re-simulating `d` double-counts its contribution until the state is rebuilt
from history by `LeagueState.from_dict`. -/
theorem c1_simulate_resim (gl : GameLogs) (ps : List PlayerStatRow)
    (key : Option String) (sch : List ScheduleGame) (t : Day)
    (s s' : LeagueState) (d : Day) (rec : DayRecord)
    (hd : LeagueState.current_date s = some d)
    (hok : simulate_day gl ps key sch t s = (s', Except.ok rec)) :
    rec.date = d ∧
    s'.history = s.history.filter (fun r => r.date ≠ d) ++ [rec] ∧
    s'.history.filter (fun r => r.date = d) = [rec] ∧
    (∀ (s₀ : LeagueState) (w : Week) (r : TeamResult) (cd : Day)
        (target : Matchup) (e : WREntry) (te : TeamEntry),
      (weekMatchupsFor s₀ w).find? (fun mu => mu.teams.any (fun tm =>
          _normalize_team_name (some tm.name) ==
            _normalize_team_name (some r.team))) = some target →
      lookupKV target.id s₀.weekly_results = some e →
      lookupKV r.team e.teams = some te →
      ∃ e', lookupKV target.id
          (_update_weekly_totals s₀ w [r] cd).weekly_results = some e' ∧
        ∃ te', lookupKV r.team e'.teams = some te' ∧
          te'.total = te.total + r.total ∧
          (lookupKV cd te'.daily_totals).getD 0 =
            (lookupKV cd te.daily_totals).getD 0 + r.total) := by
  simp only [simulate_day, hd] at hok
  split at hok
  · exact absurd (congrArg Prod.snd hok) (by simp)
  · split at hok
    · exact absurd (congrArg Prod.snd hok) (by simp)
    · split at hok
      · exact absurd (congrArg Prod.snd hok) (by simp)
      · cases hm : _maybe_initialize_playoffs s
            ((_find_week_for_date s.weeks d).map (fun w => w.index)) with
        | error e =>
            rw [hm] at hok
            exact absurd (congrArg Prod.snd hok) (by simp)
        | ok s₁ =>
            rw [hm] at hok
            dsimp only at hok
            split at hok
            · exact absurd (congrArg Prod.snd hok) (by simp)
            · split at hok
              · exact absurd (congrArg Prod.snd hok) (by simp)
              · have h1 := congrArg Prod.fst hok
                have h2 := congrArg Prod.snd hok
                dsimp only at h1 h2
                rw [Except.ok.injEq] at h2
                have hmh : ∀ (W : Option Week) (B : LeagueState)
                    (sorted : List TeamResult),
                    (match W with
                     | some wk => _update_weekly_totals B wk sorted d
                     | none => B).history = B.history := by
                  intro W B sorted
                  cases W <;> rfl
                have hH : s'.history =
                    s.history.filter (fun r => r.date ≠ d) ++ [rec] := by
                  rw [← h1, ← h2, record_awaiting_history,
                    maybe_finalize_week_history, record_set_history, hmh,
                    ensure_round_active_history,
                    maybe_initialize_playoffs_history s s₁ _ hm]
                have hdate : rec.date = d := by
                  rw [← h2]
                refine ⟨hdate, hH, ?_,
                  fun s₀ w r cd target e te hf he ht =>
                    upd_totals_additive s₀ w r cd target e te hf he ht⟩
                rw [hH, List.filter_append, filter_after_remove]
                simp [hdate]

def teamsC1 : List String := [sApexC8, sCrestC8]
def calC1 : List Day := [0, 1, 2, 3, 4, 5, 6]
def sWM10 : String := "week1-matchup0"

/-- Game logs for day 0: player 1 scores 20 points, player 2 scores 8
(columns cover every `points_league` weight key). -/
def glC1 : GameLogs :=
  { cols := [kPTS, kOREB, kDREB, kTREB, kAST, kSTL, kBLK, k3PM, k3PA, kMPG,
             kFGM, kFGA, kFG_MISS, kFTM, kFTA, kFT_MISS, kTO, kDD, kTD, kPF]
    rows := [(0, [(kPLAYER_ID, 1), (kPTS, 20)]),
             (0, [(kPLAYER_ID, 2), (kPTS, 8)])] }

def sWeek1Name : String := "Week 1"

/-- The single week of the C1 calendar, as produced by
`_initialize_week_structures` (see `c1_init_eval`). -/
def weekC1 : Week :=
  { index := 1
    name := sWeek1Name
    start := 0
    endDay := 6
    matchups := [{ id := sWM10
                   teams := [{ name := sApexC8 }, { name := sCrestC8 }] }] }

def wrInitC1 : List (String × WREntry) :=
  [(sWM10, { matchup_id := sWM10
             week_index := 1
             teams := [(sApexC8, freshTeamEntry sApexC8),
                       (sCrestC8, freshTeamEntry sCrestC8)]
             days := [] })]

lemma c1_init_eval :
    _initialize_week_structures calC1 teamsC1 = ([weekC1], wrInitC1) := by
  rfl

/-- `c1_init_eval` with literal arguments (the form the simplifier meets
after unfolding the constants). -/
lemma c1_init_eval_lit :
    _initialize_week_structures ([0, 1, 2, 3, 4, 5, 6] : List Day)
      ["Apex", "Crest"] = ([weekC1], wrInitC1) := by
  rfl

def stC1 : LeagueState :=
  { league_id := sEmpty
    league_name := sEmpty
    user_team_name := none
    team_count := 2
    roster_size := 1
    scoring_profile_key := sPointsLeague
    scoring_profile := sPointsLeagueName
    team_names := teamsC1
    calendar := calC1
    current_index := 0
    rosters := [(sApexC8, [1]), (sCrestC8, [2])]
    weeks := [weekC1]
    weekly_results := wrInitC1 }

/-- The weekly-results payload of the C1 league after `g` simulations of
day 0 (totals and daily totals scale additively). -/
def wrC1at (g : ℕ) (ta tc : ℚ) : List (String × WREntry) :=
  [(sWM10,
    { matchup_id := sWM10
      week_index := 1
      teams := [(sApexC8,
        { team := sApexC8
          total := ta
          players := [(1, { player_id := 1, fantasy_points := ta,
                            games_played := g })]
          daily_totals := [(0, ta)] }),
        (sCrestC8,
        { team := sCrestC8
          total := tc
          players := [(2, { player_id := 2, fantasy_points := tc,
                            games_played := g })]
          daily_totals := [(0, tc)] })]
      days := [0] })]

/-- The day-0 history record of the C1 league (latest simulation totals). -/
def recC1 : DayRecord :=
  { date := 0
    scoring_profile := sPointsLeagueName
    week_index := some 1
    team_results :=
      [{ team := sApexC8, total := 20,
         players := [{ player_id := 1, fantasy_points := 20, played := true }] },
       { team := sCrestC8, total := 8,
         players := [{ player_id := 2, fantasy_points := 8, played := true }] }] }

def s1C1 : LeagueState :=
  { stC1 with weekly_results := wrC1at 1 20 8
              history := [recC1]
              awaiting_simulation := false }

def s3C1 : LeagueState := { s1C1 with awaiting_simulation := true }

def s4C1 : LeagueState :=
  { stC1 with weekly_results := wrC1at 2 40 16
              history := [recC1]
              awaiting_simulation := false }

lemma c1_eval_sim1 :
    simulate_day glC1 [] none [] 100 stC1 = (s1C1, Except.ok recC1) := by
  norm_num +decide [simulate_day, LeagueState.current_date, draft_is_active,
    _find_week_for_date, _maybe_initialize_playoffs, _playoffs_should_start,
    PlayoffConfig.is_enabled, _ensure_playoff_round_active,
    resolve_scoring_profile, settings_scoring_profiles,
    settings_default_scoring_profile, pointsLeagueProfile,
    compute_fantasy_points, rowVal, setVal, _player_lookup, teamResultOf,
    pyIntNat, trGE, List.insertionSort, List.orderedInsert,
    _update_weekly_totals, weekMatchupsFor, _get_playoff_matchups_for_week,
    updTotalsStep, _ensure_matchup_entry, _normalize_team_name, freshTeamEntry,
    lookupKV, upsertKV, daily_scoreboard, _maybe_finalize_week, _finalize_week,
    stC1, glC1, calC1, teamsC1, weekC1, wrInitC1, sWeek1Name, sWM10, sApexC8, sCrestC8, sPointsLeague,
    sPointsLeagueName, sEmpty, sRegular, sFinished, sCompleted, kPTS, kOREB,
    kDREB, kTREB, kAST, kSTL, kBLK, k3PM, k3PA, kMPG, kFGM, kFGA, kFG_MISS,
    kFTM, kFTA, kFT_MISS, kTO, kDD, kTD, kPF, kPLAYER_ID, kFANTASY_POINTS,
    errMissingColumns, s1C1, wrC1at, recC1]

lemma c1_eval_reload : LeagueState.from_dict s1C1 = s1C1 := by
  norm_num +decide [LeagueState.from_dict, replayRecord, dateLE,
    List.insertionSort, List.orderedInsert, validate_playoff_config,
    VALID_PLAYOFF_TEAM_COUNTS, _required_playoff_rounds, c1_init_eval_lit,
    LeagueState.current_date, _find_week_for_date, _update_weekly_totals,
    weekMatchupsFor, _get_playoff_matchups_for_week, updTotalsStep,
    _ensure_matchup_entry, _normalize_team_name, freshTeamEntry, lookupKV,
    upsertKV, s1C1, stC1, wrC1at, recC1, calC1, teamsC1, weekC1, wrInitC1,
    sWeek1Name, sWM10, sApexC8, sCrestC8, sPointsLeague, sPointsLeagueName,
    sEmpty]

lemma c1_eval_sim2 :
    simulate_day glC1 [] none [] 100 s3C1 = (s4C1, Except.ok recC1) := by
  norm_num +decide [simulate_day, LeagueState.current_date, draft_is_active,
    _find_week_for_date, _maybe_initialize_playoffs, _playoffs_should_start,
    PlayoffConfig.is_enabled, _ensure_playoff_round_active,
    resolve_scoring_profile, settings_scoring_profiles,
    settings_default_scoring_profile, pointsLeagueProfile,
    compute_fantasy_points, rowVal, setVal, _player_lookup, teamResultOf,
    pyIntNat, trGE, List.insertionSort, List.orderedInsert,
    _update_weekly_totals, weekMatchupsFor, _get_playoff_matchups_for_week,
    updTotalsStep, _ensure_matchup_entry, _normalize_team_name, freshTeamEntry,
    lookupKV, upsertKV, daily_scoreboard, _maybe_finalize_week, _finalize_week,
    stC1, glC1, calC1, teamsC1, weekC1, wrInitC1, sWeek1Name, sWM10,
    sApexC8, sCrestC8, sPointsLeague,
    sPointsLeagueName, sEmpty, sRegular, sFinished, sCompleted, kPTS, kOREB,
    kDREB, kTREB, kAST, kSTL, kBLK, k3PM, k3PA, kMPG, kFGM, kFGA, kFG_MISS,
    kFTM, kFTA, kFT_MISS, kTO, kDD, kTD, kPF, kPLAYER_ID, kFANTASY_POINTS,
    errMissingColumns, s1C1, s3C1, s4C1, wrC1at, recC1]

/-- **C1 counterexample.** Simulate day 0, reload the state with
`LeagueState.from_dict`, re-arm the day (`awaiting_simulation := true`, the
condition under which a re-simulation is accepted) and simulate day 0 again
with the same scoring profile. The history then holds exactly one day-0
record, whose Apex total is 20 — but the stored weekly total for Apex is
40: day 0's contribution is double-counted instead of reflecting only the
latest simulation. -/
theorem c1_counterexample :
    ((simulate_day glC1 [] none [] 100
        { LeagueState.from_dict (simulate_day glC1 [] none [] 100 stC1).1 with
            awaiting_simulation := true }).1).history.map
      (fun r => (r.date, r.team_results.map (fun tr => (tr.team, tr.total)))) =
      [((0 : Day), [(sApexC8, (20 : ℚ)), (sCrestC8, 8)])] ∧
    ((lookupKV sWM10 ((simulate_day glC1 [] none [] 100
        { LeagueState.from_dict (simulate_day glC1 [] none [] 100 stC1).1 with
            awaiting_simulation := true }).1).weekly_results).map
      (fun e => (lookupKV sApexC8 e.teams).map (fun te => te.total))) =
      some (some 40) ∧
    (40 : ℚ) ≠ 20 := by
  have hchain : (simulate_day glC1 [] none [] 100
      { LeagueState.from_dict (simulate_day glC1 [] none [] 100 stC1).1 with
          awaiting_simulation := true }).1 = s4C1 := by
    rw [c1_eval_sim1]
    dsimp only
    rw [c1_eval_reload]
    exact congrArg Prod.fst c1_eval_sim2
  rw [hchain]
  refine ⟨?_, ?_, by norm_num⟩
  · norm_num [s4C1, stC1, recC1]
  · norm_num +decide [s4C1, stC1, wrC1at, lookupKV, sWM10, sApexC8, sCrestC8]

/-- Witness for C1: the amended theorem applied to the concrete first
simulation of day 0. -/
theorem c1_simulate_witness :
    recC1.date = 0 ∧ s1C1.history.filter (fun r => r.date = 0) = [recC1] :=
  let h := c1_simulate_resim glC1 [] none [] 100 stC1 s1C1 0 recC1 (by rfl)
    c1_eval_sim1
  ⟨h.1, h.2.2.1⟩

lemma replayRecord_config (s : LeagueState) (rec : DayRecord) :
    (replayRecord s rec).playoffs_config = s.playoffs_config := by
  simp only [replayRecord]
  split
  · rfl
  · split
    · rfl
    · rfl

lemma foldl_replay_config (l : List DayRecord) (s : LeagueState) :
    (l.foldl replayRecord s).playoffs_config = s.playoffs_config := by
  induction l generalizing s with
  | nil => rfl
  | cons a l ih => rw [List.foldl_cons, ih, replayRecord_config]

/-- **C10.** Loading (`from_dict`) or resetting (`reset_league_state`) a
league whose stored playoff configuration fails validation does not raise:
the invalid configuration is replaced by the disabled default
`PlayoffConfig` and the operation completes (for the reset, provided the
scoring profile resolves and the stat frame carries the weight columns —
the failure modes the claim is not about). A valid configuration is kept
(sorted) in both cases. -/
theorem c10_invalid_config_default (raw : LeagueState) (calendar : List Day)
    (player_stats : Table) (s : LeagueState) :
    ((∃ e, validate_playoff_config raw.team_count
        (_initialize_week_structures raw.calendar raw.team_names).1
        (some raw.playoffs_config) = Except.error e) →
      (LeagueState.from_dict raw).playoffs_config = {}) ∧
    (∀ c, validate_playoff_config raw.team_count
        (_initialize_week_structures raw.calendar raw.team_names).1
        (some raw.playoffs_config) = Except.ok c →
      (LeagueState.from_dict raw).playoffs_config = c) ∧
    (∀ scoring, resolve_scoring_profile (some s.scoring_profile_key) =
        Except.ok scoring →
      ∀ fdf, compute_fantasy_points player_stats scoring.weights =
        Except.ok fdf →
      ∃ s', reset_league_state calendar player_stats s = Except.ok s' ∧
        s'.phase = sRegular ∧ s'.playoffs = none ∧ s'.history = [] ∧
        ((∃ e, validate_playoff_config s.team_count
            (_initialize_week_structures calendar s.team_names).1
            (some s.playoffs_config) = Except.error e) →
          s'.playoffs_config = {}) ∧
        (∀ c, validate_playoff_config s.team_count
            (_initialize_week_structures calendar s.team_names).1
            (some s.playoffs_config) = Except.ok c →
          s'.playoffs_config = c)) := by
  refine ⟨?_, ?_, ?_⟩
  · rintro ⟨e, hval⟩
    simp only [LeagueState.from_dict, foldl_replay_config, hval]
  · intro c hval
    simp only [LeagueState.from_dict, foldl_replay_config, hval]
  · intro scoring hres fdf hcf
    cases hut : s.user_team_name with
    | none =>
        simp only [reset_league_state, hres, hut, _auto_draft_teams, hcf]
        refine ⟨_, rfl, rfl, rfl, rfl, ?_, ?_⟩
        · rintro ⟨e, hval⟩
          simp only [hval]
        · intro c hval
          simp only [hval]
    | some ut =>
        by_cases hue : ut = sEmpty
        · simp only [reset_league_state, hres, hut, if_pos hue,
            _auto_draft_teams, hcf]
          refine ⟨_, rfl, rfl, rfl, rfl, ?_, ?_⟩
          · rintro ⟨e, hval⟩
            simp only [hval]
          · intro c hval
            simp only [hval]
        · simp only [reset_league_state, hres, hut, if_neg hue,
            _initialize_draft_state, hcf]
          refine ⟨_, rfl, rfl, rfl, rfl, ?_, ?_⟩
          · rintro ⟨e, hval⟩
            simp only [hval]
          · intro c hval
            simp only [hval]

/-- An enabled playoff configuration scheduling weeks beyond the one-week
calendar: validation rejects it. -/
def cfgBadC10 : PlayoffConfig :=
  { enabled := true, teams := some 4, week_indices := [99, 100] }

def rawC10 : LeagueState :=
  { stC1 with team_count := 4, playoffs_config := cfgBadC10 }

/-- Witness for C10: loading a league with an invalid stored playoff
configuration silently falls back to the disabled default. -/
theorem c10_invalid_config_witness :
    (LeagueState.from_dict rawC10).playoffs_config = {} :=
  (c10_invalid_config_default rawC10 [] ⟨[], []⟩ rawC10).1
    ⟨errBeyondCalendar, by rfl⟩
